import Mathlib

/-!
# The shelf store of `subversion/libsvn_client/shelve.c`

A shallow embedding of the shelving code: shelf names, the three kinds of
files a shelf keeps in its storage directory, the shelf handle, and the
operations that open, delete, roll back, save and enumerate shelves.

Conventions of the embedding.

* A C string is a `String` holding one `Char` per byte, without the
  terminating NUL.
* An `int` is an `Int`; where the source computes a value that may leave the
  32-bit range (`max_version + 1`, a scanned number) the result is wrapped
  with `int_wrap`.
* A function returning `svn_error_t *` returns `Except svn_error_t _`; one
  that also changes files returns the new file system next to it, because
  writes done before an error stay on disk.
* `svn_client_ctx_t` carries everything the source calls but does not define
  (working-copy root discovery, the revprop hash reader and writer, the diff
  and patch engines, the clock).
-/

namespace Shelve

/-! ## Errors -/

/-- The error codes that matter to the shelf code: the three it raises itself,
`APR_ENOENT` which it tests for, and any other code a callee may hand up. -/
inductive svn_error_t where
  | SVN_ERR_BAD_CHANGELIST_NAME
  | SVN_ERR_CLIENT_BAD_REVISION
  | SVN_ERR_ILLEGAL_TARGET
  | APR_ENOENT
  | other (apr_err : Nat)
deriving DecidableEq

deriving instance DecidableEq for Except

/-! ## Machine integers and `printf`/`scanf` conversions -/

/-- Largest value of a C `int`. -/
def INT_MAX : Int := 2147483647

/-- Two's complement wrap-around of an integer into the range of `int`. -/
def int_wrap (v : Int) : Int := (v + 2147483648) % 4294967296 - 2147483648

/-- Left-pad the digit string `s` with `'0'` up to width `w`. -/
def zero_pad (w : Nat) (s : String) : String :=
  String.mk (List.replicate (w - s.length) '0') ++ s

/-- The conversion `%03d`: at least three characters, zero padded, the sign of
a negative number counting towards the width. -/
def printf_03d (v : Int) : String :=
  if v < 0 then "-" ++ zero_pad 2 (Nat.repr v.natAbs) else zero_pad 3 (Nat.repr v.toNat)

/-- The conversion `%d`. -/
def printf_d (v : Int) : String :=
  if v < 0 then "-" ++ Nat.repr v.natAbs else Nat.repr v.toNat

/-- White space as skipped by `scanf` before a number. -/
def c_isspace (c : Char) : Bool :=
  c = ' ' || c = '\t' || c = '\n' || c = '\r' || c.toNat = 11 || c.toNat = 12

/-- Decimal digit test. -/
def c_isdigit (c : Char) : Bool := decide ('0' ≤ c) && decide (c ≤ '9')

/-- Value of the longest run of decimal digits at the head of `s`, continuing
from the value `acc` read so far. -/
def scan_digits : List Char → Nat → Nat
  | [], acc => acc
  | c :: cs, acc => if c_isdigit c then scan_digits cs (acc * 10 + (c.toNat - 48)) else acc

/-- True when `s` starts with a decimal digit. -/
def starts_with_digit : List Char → Bool
  | [] => false
  | c :: _ => c_isdigit c

/-- The conversion `%d` of `fscanf` applied to the whole content of a file:
skip white space, accept an optional sign, read digits. `none` when no number
is there, in which case `fscanf` assigns nothing. -/
def scanf_d (s : String) : Option Int :=
  match s.data.dropWhile c_isspace with
  | '-' :: r => if starts_with_digit r then some (int_wrap (-(scan_digits r 0 : Int))) else none
  | '+' :: r => if starts_with_digit r then some (int_wrap (scan_digits r 0)) else none
  | r => if starts_with_digit r then some (int_wrap (scan_digits r 0)) else none

/-! ## Hash tables -/

/-- Lookup in an `apr_hash_t`, kept as an association list. -/
def hash_gets {κ β : Type} [DecidableEq κ] : List (κ × β) → κ → Option β
  | [], _ => none
  | (k, v) :: r, key => if k = key then some v else hash_gets r key

/-- Removal of a key from an `apr_hash_t`. -/
def hash_remove {κ β : Type} [DecidableEq κ] (h : List (κ × β)) (key : κ) : List (κ × β) :=
  h.filter (fun e => decide (e.1 ≠ key))

/-- The call `svn_hash_sets` with a non-null value: the key is bound to the
value, replacing an earlier binding. -/
def hash_sets {κ β : Type} [DecidableEq κ] (h : List (κ × β)) (key : κ) (val : β) :
    List (κ × β) :=
  (key, val) :: hash_remove h key

/-! ## Files -/

/-- Modelled from the spec: `svn_dirent_join`, which lives in libsvn_subr and
is not among the sources at hand, is the "deterministic join of storage
directory with" a file name. The joined path is kept as the pair of the
directory and the entry name inside it. -/
structure abspath_t where
  dir : String
  entry : String
deriving DecidableEq

/-- Join a directory and a file name: see `abspath_t`. -/
def svn_dirent_join (base component : String) : abspath_t := ⟨base, component⟩

/-- A regular file: its bytes and its modification time. -/
structure file_t where
  content : String
  mtime : Nat
deriving DecidableEq

/-- The files on disk, by path. -/
abbrev fs_t := List (abspath_t × file_t)

/-- Modelled from the spec: `svn_io_remove_file2` (libsvn_subr) deletes a
file, "tolerating already absent" when asked to: unlink `path`; a missing file is an error
only when `ignore_enoent` is false. -/
def svn_io_remove_file2 (path : abspath_t) (ignore_enoent : Bool) (fs : fs_t) :
    Except svn_error_t Unit × fs_t :=
  match hash_gets fs path with
  | some _ => (.ok (), hash_remove fs path)
  | none => if ignore_enoent then (.ok (), fs) else (.error .APR_ENOENT, fs)

/-- Modelled from the spec: opening a file for reading
(`svn_stream_open_readonly`, `svn_diff_open_patch_file`, both outside the
sources at hand) and taking its content; `APR_ENOENT` when it is
not there. -/
def svn_stream_open_readonly (path : abspath_t) (fs : fs_t) : Except svn_error_t String :=
  match hash_gets fs path with
  | some f => .ok f.content
  | none => .error .APR_ENOENT

/-- Modelled from the spec: the "open-truncate-write-close" of a file opened
with `WRITE | CREATE | TRUNCATE` through `svn_io_file_open` (also
`fopen(path, "w")`):
afterwards the file exists and is empty. -/
def file_open_truncate (now : Nat) (path : abspath_t) (fs : fs_t) : fs_t :=
  hash_sets fs path ⟨"", now⟩

/-- Writing `data` at the end of a file that is open for writing. -/
def file_append (now : Nat) (path : abspath_t) (data : String) (fs : fs_t) : fs_t :=
  match hash_gets fs path with
  | some f => hash_sets fs path ⟨f.content ++ data, now⟩
  | none => hash_sets fs path ⟨data, now⟩

/-- Modelled from the spec: the "resulting file size" that `svn_io_stat`
(libsvn_subr) reports for `path`. -/
def svn_io_stat (path : abspath_t) (fs : fs_t) : Except svn_error_t Nat :=
  match hash_gets fs path with
  | some f => .ok f.content.length
  | none => .error .APR_ENOENT

/-- A directory entry as `svn_io_get_dirents3` and `svn_io_stat_dirent2`
report it; `is_file` is false for the `svn_node_none` record of a missing
file, whose time is zero. -/
structure svn_io_dirent2_t where
  is_file : Bool
  mtime : Nat
deriving DecidableEq

/-- Modelled from the spec: `svn_io_get_dirents3` (libsvn_subr) "enumerates
its entries", those of directory `dir`. -/
def svn_io_get_dirents3 (dir : String) (fs : fs_t) : List (String × svn_io_dirent2_t) :=
  (fs.filter (fun e => decide (e.1.dir = dir))).map (fun e => (e.1.entry, ⟨true, e.2.mtime⟩))

/-- Modelled from the spec: `svn_io_stat_dirent2` (libsvn_subr) with
`ignore_enoent`, "nulling the time if the file is absent rather than
erroring". -/
def svn_io_stat_dirent2 (path : abspath_t) (ignore_enoent : Bool) (fs : fs_t) :
    Except svn_error_t svn_io_dirent2_t :=
  match hash_gets fs path with
  | some f => .ok ⟨true, f.mtime⟩
  | none => if ignore_enoent then .ok ⟨false, 0⟩ else .error .APR_ENOENT

/-! ## Collaborators and the shelf handle -/

/-- One patch of a patch file, as far as the shelf code looks at it. -/
structure svn_patch_t where
  old_filename : String
  new_filename : String
deriving DecidableEq

/-- What the shelf code calls but does not define. -/
structure svn_client_ctx_t where
  /-- The call `svn_client_get_wc_root`. -/
  svn_client_get_wc_root : String → Except svn_error_t String
  /-- The call `svn_wc__get_shelves_dir`. -/
  svn_wc__get_shelves_dir : String → Except svn_error_t String
  /-- The call `svn_wc__get_wcroot`. -/
  svn_wc__get_wcroot : String → Except svn_error_t String
  /-- The call `svn_hash_read2` with terminator `PROPS-END`, on a file's content. -/
  svn_hash_read2 : String → Except svn_error_t (List (String × String))
  /-- The call `svn_hash_write2` with terminator `PROPS-END`. -/
  svn_hash_write2 : List (String × String) → String
  /-- The test `svn_path_is_url`. -/
  svn_path_is_url : String → Bool
  /-- The call `svn_dirent_get_absolute`. -/
  svn_dirent_get_absolute : String → Except svn_error_t String
  /-- The call `svn_client_diff_peg6` for one target, working copy root, depth
  and changelists: the text it writes to the output stream, and the error it
  returns, if any. -/
  svn_client_diff_peg6 : String → String → Int → List String → String × Option svn_error_t
  /-- The patch reader (`svn_diff_parse_next_patch` until it yields no patch)
  on a patch file's content. -/
  svn_diff_parse_patches : String → Except svn_error_t (List svn_patch_t)
  /-- The call `svn_client_patch` on what is found at the patch path (the
  content of the file, if there is one), with the working copy root, `dry_run`
  and `reverse`. -/
  svn_client_patch : Option String → String → Bool → Bool → Except svn_error_t Unit
  /-- The log message provider: `none` when `SVN_CLIENT__HAS_LOG_MSG_FUNC` is
  false, otherwise what `svn_client__get_log_msg` returns, a null message
  being `none`. -/
  log_msg_func : Option (Except svn_error_t (Option String))
  /-- The modification time given to a file written now. -/
  now : Nat
  /-- The indeterminate `max_version` of a handle fresh from `apr_palloc`. -/
  palloc_max_version : Int

/-- The shelf handle `svn_client_shelf_t`, without its context and pool. -/
structure svn_client_shelf_t where
  name : String
  wc_root_abspath : String
  shelves_dir : String
  revprops : List (String × String)
  max_version : Int
deriving DecidableEq

/-! ## shelve.c -/

/-- Error if `name` does not conform to the naming rules (source lines 45-54). -/
def validate_name (name : String) : Except svn_error_t Unit :=
  if name.data = [] ∨ '/' ∈ name.data then .error .SVN_ERR_BAD_CHANGELIST_NAME
  else .ok ()

/-- The path that `get_patch_abspath` stores through its first argument
(lines 68-69). -/
def patch_abspath (shelf : svn_client_shelf_t) (version : Int) : abspath_t :=
  let filename := shelf.name ++ "-" ++ printf_03d version ++ ".patch"
  svn_dirent_join shelf.shelves_dir filename

/-- Path of the patch file of `version`, whether it exists or not (lines 59-71). -/
def get_patch_abspath (shelf : svn_client_shelf_t) (version : Int) :
    Except svn_error_t abspath_t :=
  .ok (patch_abspath shelf version)

/-- The path that `get_log_abspath` stores through its first argument
(lines 120-121). -/
def log_abspath (shelf : svn_client_shelf_t) : abspath_t :=
  let filename := shelf.name ++ ".log"
  svn_dirent_join shelf.shelves_dir filename

/-- Path of the patch file of `version`; error if the version is invalid
(lines 76-95). -/
def get_existing_patch_abspath (shelf : svn_client_shelf_t) (version : Int) :
    Except svn_error_t abspath_t :=
  if shelf.max_version ≤ 0 then .error .SVN_ERR_CLIENT_BAD_REVISION
  else if version ≤ 0 ∨ version > shelf.max_version then .error .SVN_ERR_CLIENT_BAD_REVISION
  else
    match get_patch_abspath shelf version with
    | .error e => .error e
    | .ok abspath => .ok abspath

/-- Remove the patch file of `version`, tolerating its absence (lines 97-109). -/
def shelf_delete_patch_file (shelf : svn_client_shelf_t) (version : Int) (fs : fs_t) :
    Except svn_error_t Unit × fs_t :=
  match get_existing_patch_abspath shelf version with
  | .error e => (.error e, fs)
  | .ok patch_abspath => svn_io_remove_file2 patch_abspath true fs

/-- Path of the revprop file (lines 112-123). -/
def get_log_abspath (shelf : svn_client_shelf_t) : Except svn_error_t abspath_t :=
  .ok (log_abspath shelf)

/-- Set the handle's revprops by reading its file storage (lines 127-150). -/
def shelf_read_revprops (ctx : svn_client_ctx_t) (shelf : svn_client_shelf_t) (fs : fs_t) :
    Except svn_error_t svn_client_shelf_t :=
  match get_log_abspath shelf with
  | .error e => .error e
  | .ok log_abspath =>
    let shelf := { shelf with revprops := [] }
    match svn_stream_open_readonly log_abspath fs with
    | .error e => if e = .APR_ENOENT then .ok shelf else .error e
    | .ok stream =>
      match ctx.svn_hash_read2 stream with
      | .error e => .error e
      | .ok props => .ok { shelf with revprops := props }

/-- Write the handle's revprops to its file storage (lines 154-172). -/
def shelf_write_revprops (ctx : svn_client_ctx_t) (shelf : svn_client_shelf_t) (fs : fs_t) :
    Except svn_error_t Unit × fs_t :=
  match get_log_abspath shelf with
  | .error e => (.error e, fs)
  | .ok log_abspath =>
    let fs := file_open_truncate ctx.now log_abspath fs
    (.ok (), file_append ctx.now log_abspath (ctx.svn_hash_write2 shelf.revprops) fs)

/-- Set a revprop and write the revprops out (lines 174-184). -/
def svn_client__shelf_revprop_set (ctx : svn_client_ctx_t) (shelf : svn_client_shelf_t)
    (prop_name : String) (prop_val : String) (fs : fs_t) :
    Except svn_error_t Unit × svn_client_shelf_t × fs_t :=
  let shelf := { shelf with revprops := hash_sets shelf.revprops prop_name prop_val }
  match shelf_write_revprops ctx shelf fs with
  | (.error e, fs) => (.error e, shelf, fs)
  | (.ok _, fs) => (.ok (), shelf, fs)

/-- Get a revprop, `none` being the null pointer (lines 186-194). -/
def svn_client__shelf_revprop_get (shelf : svn_client_shelf_t) (prop_name : String) :
    Except svn_error_t (Option String) :=
  .ok (hash_gets shelf.revprops prop_name)

/-- All revprops (lines 196-203). -/
def svn_client__shelf_revprop_list (shelf : svn_client_shelf_t) :
    Except svn_error_t (List (String × String)) :=
  .ok shelf.revprops

/-- Path of the pointer file (lines 206-213). -/
def get_current_abspath (shelf : svn_client_shelf_t) : abspath_t :=
  let current_filename := shelf.name ++ ".current"
  svn_dirent_join shelf.shelves_dir current_filename

/-- Read `max_version` from the pointer file; a missing file gives 0, and a
file without a number leaves the field as it was (lines 216-231). -/
def shelf_read_current (shelf : svn_client_shelf_t) (fs : fs_t) :
    Except svn_error_t svn_client_shelf_t :=
  let current_abspath := get_current_abspath shelf
  match hash_gets fs current_abspath with
  | none => .ok { shelf with max_version := 0 }
  | some fp =>
    match scanf_d fp.content with
    | some v => .ok { shelf with max_version := v }
    | none => .ok shelf

/-- Write `max_version` to the pointer file (lines 234-244). -/
def shelf_write_current (ctx : svn_client_ctx_t) (shelf : svn_client_shelf_t) (fs : fs_t) :
    Except svn_error_t Unit × fs_t :=
  let current_abspath := get_current_abspath shelf
  let fs := file_open_truncate ctx.now current_abspath fs
  (.ok (), file_append ctx.now current_abspath (printf_d shelf.max_version) fs)

/-- The loop over the targets in `write_patch` (lines 285-315). -/
def write_patch_targets (ctx : svn_client_ctx_t) (patch_abspath : abspath_t) (depth : Int)
    (changelists : List String) (wc_root_abspath : String) :
    List String → fs_t → Except svn_error_t Unit × fs_t
  | [], fs => (.ok (), fs)
  | path :: rest, fs =>
    if ctx.svn_path_is_url path then (.error .SVN_ERR_ILLEGAL_TARGET, fs)
    else
      match ctx.svn_dirent_get_absolute path with
      | .error e => (.error e, fs)
      | .ok path =>
        match ctx.svn_client_diff_peg6 path wc_root_abspath depth changelists with
        | (out, some e) => (.error e, file_append ctx.now patch_abspath out fs)
        | (out, none) =>
          write_patch_targets ctx patch_abspath depth changelists wc_root_abspath rest
            (file_append ctx.now patch_abspath out fs)

/-- Write local changes to a patch file (lines 256-320). -/
def write_patch (ctx : svn_client_ctx_t) (patch_abspath : abspath_t) (paths : List String)
    (depth : Int) (changelists : List String) (wc_root_abspath : String) (fs : fs_t) :
    Except svn_error_t Unit × fs_t :=
  let fs := file_open_truncate ctx.now patch_abspath fs
  write_patch_targets ctx patch_abspath depth changelists wc_root_abspath paths fs

/-- Open the shelf `name` (lines 322-350). -/
def svn_client_shelf_open (ctx : svn_client_ctx_t) (name local_abspath : String) (fs : fs_t) :
    Except svn_error_t svn_client_shelf_t :=
  match validate_name name with
  | .error e => .error e
  | .ok _ =>
    match ctx.svn_client_get_wc_root local_abspath with
    | .error e => .error e
    | .ok wc_root_abspath =>
      match ctx.svn_wc__get_shelves_dir local_abspath with
      | .error e => .error e
      | .ok shelves_dir =>
        let shelf : svn_client_shelf_t :=
          { name := name, wc_root_abspath := wc_root_abspath, shelves_dir := shelves_dir,
            revprops := [], max_version := ctx.palloc_max_version }
        match shelf_read_revprops ctx shelf fs with
        | .error e => .error e
        | .ok shelf => shelf_read_current shelf fs

/-- Close a shelf (lines 352-357). -/
def svn_client_shelf_close (_shelf : svn_client_shelf_t) : Except svn_error_t Unit := .ok ()

/-- The loop `for (i = start; i > bound; i--) shelf_delete_patch_file(shelf, i)`
of lines 376-379 and 491-494, stopping at the first error; `n` counts the
iterations still allowed. -/
def delete_patch_files_above (shelf : svn_client_shelf_t) (bound : Int) :
    Nat → Int → fs_t → Except svn_error_t Unit × fs_t
  | 0, _, fs => (.ok (), fs)
  | n + 1, i, fs =>
    if i > bound then
      match shelf_delete_patch_file shelf i fs with
      | (.error e, fs) => (.error e, fs)
      | (.ok _, fs) => delete_patch_files_above shelf bound n (i - 1) fs
    else (.ok (), fs)

/-- Delete the shelf `name` (lines 359-389). -/
def svn_client_shelf_delete (ctx : svn_client_ctx_t) (name local_abspath : String)
    (_dry_run : Bool) (fs : fs_t) : Except svn_error_t Unit × fs_t :=
  match validate_name name with
  | .error e => (.error e, fs)
  | .ok _ =>
    match svn_client_shelf_open ctx name local_abspath fs with
    | .error e => (.error e, fs)
    | .ok shelf =>
      match delete_patch_files_above shelf 0 (shelf.max_version - 0).toNat shelf.max_version fs with
      | (.error e, fs) => (.error e, fs)
      | (.ok _, fs) =>
        match get_log_abspath shelf with
        | .error e => (.error e, fs)
        | .ok abspath =>
          match svn_io_remove_file2 abspath true fs with
          | (.error e, fs) => (.error e, fs)
          | (.ok _, fs) =>
            match svn_io_remove_file2 (get_current_abspath shelf) true fs with
            | (.error e, fs) => (.error e, fs)
            | (.ok _, fs) =>
              match svn_client_shelf_close shelf with
              | .error e => (.error e, fs)
              | .ok _ => (.ok (), fs)

/-- The paths a version's patch touches, old name to new name (lines 391-427). -/
def svn_client_shelf_get_paths (ctx : svn_client_ctx_t) (shelf : svn_client_shelf_t)
    (version : Int) (fs : fs_t) : Except svn_error_t (List (String × String)) :=
  match get_existing_patch_abspath shelf version with
  | .error e => .error e
  | .ok patch_abspath =>
    match svn_stream_open_readonly patch_abspath fs with
    | .error e => .error e
    | .ok patch_file =>
      match ctx.svn_diff_parse_patches patch_file with
      | .error e => .error e
      | .ok patches =>
        .ok (patches.foldl (fun paths patch =>
          hash_sets paths patch.old_filename patch.new_filename) [])

/-- Whether a version's patch touches any path (lines 429-441). -/
def svn_client_shelf_has_changes (ctx : svn_client_ctx_t) (shelf : svn_client_shelf_t)
    (version : Int) (fs : fs_t) : Except svn_error_t Bool :=
  match svn_client_shelf_get_paths ctx shelf version fs with
  | .error e => .error e
  | .ok patch_paths => .ok (patch_paths.length != 0)

/-- Make `version` the current one, deleting any newer patch file
(lines 483-499). The handle and the files are returned as they are when the
call returns, also on error. -/
def svn_client_shelf_set_current_version (ctx : svn_client_ctx_t) (shelf : svn_client_shelf_t)
    (version : Int) (fs : fs_t) : Except svn_error_t Unit × svn_client_shelf_t × fs_t :=
  match delete_patch_files_above shelf version (shelf.max_version - version).toNat
      shelf.max_version fs with
  | (.error e, fs) => (.error e, shelf, fs)
  | (.ok _, fs) =>
    let shelf := { shelf with max_version := version }
    match shelf_write_current ctx shelf fs with
    | (.error e, fs) => (.error e, shelf, fs)
    | (.ok _, fs) => (.ok (), shelf, fs)

/-- Save the local changes as a new version (lines 520-545). -/
def svn_client_shelf_save_new_version (ctx : svn_client_ctx_t) (shelf : svn_client_shelf_t)
    (paths : List String) (depth : Int) (changelists : List String) (fs : fs_t) :
    Except svn_error_t Unit × svn_client_shelf_t × fs_t :=
  let next_version := int_wrap (shelf.max_version + 1)
  match get_patch_abspath shelf next_version with
  | .error e => (.error e, shelf, fs)
  | .ok patch_abspath =>
    match write_patch ctx patch_abspath paths depth changelists shelf.wc_root_abspath fs with
    | (.error e, fs) => (.error e, shelf, fs)
    | (.ok _, fs) =>
      match svn_io_stat patch_abspath fs with
      | .error e => (.error e, shelf, fs)
      | .ok size =>
        if size > 0 then svn_client_shelf_set_current_version ctx shelf next_version fs
        else (.ok (), shelf, fs)

/-- Apply a version's patch to the working copy (lines 443-461); the working
copy itself is outside the embedding. -/
def svn_client_shelf_apply (ctx : svn_client_ctx_t) (shelf : svn_client_shelf_t)
    (version : Int) (dry_run : Bool) (fs : fs_t) : Except svn_error_t Unit :=
  match get_existing_patch_abspath shelf version with
  | .error e => .error e
  | .ok patch_abspath =>
    ctx.svn_client_patch ((hash_gets fs patch_abspath).map (fun f => f.content))
      shelf.wc_root_abspath dry_run false

/-- Reverse-apply a version's patch (lines 463-481). -/
def svn_client_shelf_unapply (ctx : svn_client_ctx_t) (shelf : svn_client_shelf_t)
    (version : Int) (dry_run : Bool) (fs : fs_t) : Except svn_error_t Unit :=
  match get_existing_patch_abspath shelf version with
  | .error e => .error e
  | .ok patch_abspath =>
    ctx.svn_client_patch ((hash_gets fs patch_abspath).map (fun f => f.content))
      shelf.wc_root_abspath dry_run true

/-- Copy a version's patch to an output stream (lines 501-518); the result is
the text written to the stream. -/
def svn_client_shelf_export_patch (shelf : svn_client_shelf_t) (version : Int) (fs : fs_t) :
    Except svn_error_t String :=
  match get_existing_patch_abspath shelf version with
  | .error e => .error e
  | .ok patch_abspath =>
    match svn_stream_open_readonly patch_abspath fs with
    | .error e => .error e
    | .ok instream => .ok instream

/-- The log message of the shelf, empty when there is none (lines 547-559). -/
def svn_client_shelf_get_log_message (shelf : svn_client_shelf_t) :
    Except svn_error_t String :=
  match hash_gets shelf.revprops "svn:log" with
  | some propval => .ok propval
  | none => .ok ""

/-- Ask for a log message and store it (lines 561-590). -/
def svn_client_shelf_set_log_message (ctx : svn_client_ctx_t) (shelf : svn_client_shelf_t)
    (dry_run : Bool) (fs : fs_t) : Except svn_error_t Unit × svn_client_shelf_t × fs_t :=
  let store (message : String) : Except svn_error_t Unit × svn_client_shelf_t × fs_t :=
    if !dry_run then svn_client__shelf_revprop_set ctx shelf "svn:log" message fs
    else (.ok (), shelf, fs)
  match ctx.log_msg_func with
  | none => store ""
  | some (.error e) => (.error e, shelf, fs)
  | some (.ok none) => (.ok (), shelf, fs)
  | some (.ok (some message)) => store message

/-- A listing record `svn_client_shelf_info_t`. -/
structure svn_client_shelf_info_t where
  mtime : Nat
deriving DecidableEq

/-- The offset `len - 8` at which `svn_client_shelves_list` starts comparing
a file name of length `len` with the suffix (line 620). -/
def shelves_list_offset (len : Nat) : Int := (len : Int) - 8

/-- The test `strcmp(s + offset, t) == 0`. With `offset = -1` the comparison
starts at the byte in front of `s`, which is not part of the string: the two
are then equal only if that byte is the first byte of `t` and `s` is the rest
of `t`. So the answer is "no" whenever `s` differs from the rest of `t`, and
otherwise it is `none`: not determined by `s`. Any other address outside `s`
gives `none` as well. -/
def strcmp_at_eq (s : String) (offset : Int) (t : String) : Option Bool :=
  if 0 ≤ offset then
    if offset ≤ s.length then some (decide (String.mk (s.data.drop offset.toNat) = t)) else none
  else if offset = -1 then
    if t.data ≠ [] ∧ t.data.tail = s.data then none else some false
  else none

/-- The call `apr_pstrndup`: the first `n` bytes of `s`. -/
def apr_pstrndup (s : String) (n : Nat) : String := String.mk (s.data.take n)

/-- The body of the loop of `svn_client_shelves_list` for one directory
entry (lines 616-628); `none` when the outcome of the comparison is not
determined by the name. -/
def shelves_list_entry (infos : List (String × svn_client_shelf_info_t)) (filename : String)
    (dirent : svn_io_dirent2_t) : Option (List (String × svn_client_shelf_info_t)) :=
  let len := filename.length
  if len > 6 then
    match strcmp_at_eq filename (shelves_list_offset len) ".current" with
    | none => none
    | some true =>
      let name := apr_pstrndup filename (shelves_list_offset len).toNat
      some (hash_sets infos name ⟨dirent.mtime⟩)
    | some false => some infos
  else some infos

/-- The loop of `svn_client_shelves_list` over the directory entries. -/
def shelves_list_entries :
    List (String × svn_io_dirent2_t) → List (String × svn_client_shelf_info_t) →
      Option (List (String × svn_client_shelf_info_t))
  | [], infos => some infos
  | (filename, dirent) :: rest, infos =>
    match shelves_list_entry infos filename dirent with
    | none => none
    | some infos => shelves_list_entries rest infos

/-- List the shelves of a working copy (lines 592-632). The inner `none`
stands for a run whose behaviour the C code leaves undefined. -/
def svn_client_shelves_list (ctx : svn_client_ctx_t) (local_abspath : String) (fs : fs_t) :
    Except svn_error_t (Option (List (String × svn_client_shelf_info_t))) :=
  match ctx.svn_wc__get_wcroot local_abspath with
  | .error e => .error e
  | .ok _wc_root_abspath =>
    match ctx.svn_wc__get_shelves_dir local_abspath with
    | .error e => .error e
    | .ok shelves_dir =>
      let dirents := svn_io_get_dirents3 shelves_dir fs
      .ok (shelves_list_entries dirents [])

/-- The subtraction `a - b` in `size_t` (taken to be 64 bits wide), for
operands below `2^64`: it wraps when `a < b`. -/
def size_t_sub (a b : Nat) : Nat :=
  if b ≤ a then a - b else a + 18446744073709551616 - b

/-- The test `strcmp(s + offset, t) == 0` as a machine runs it when the byte
stored in front of `s` is `before`: with `offset = -1` the bytes compared with
`t` are `before` followed by the bytes of `s` (a `before` of value 0 ends the
string at once and so differs from every `t` without such a byte). At every
other offset it is `strcmp_at_eq`. -/
def strcmp_at_eq_mem (before : Char) (s : String) (offset : Int) (t : String) : Option Bool :=
  if offset = -1 then some (decide (before :: s.data = t.data)) else strcmp_at_eq s offset t

/-- The body of the loop of `svn_client_shelves_list` for one directory
entry (lines 616-628) as a machine runs it when the byte stored in front of
the entry name is `before`; the length passed to `apr_pstrndup` is `len - 8`
computed in `size_t`. -/
def shelves_list_entry_mem (before : Char) (infos : List (String × svn_client_shelf_info_t))
    (filename : String) (dirent : svn_io_dirent2_t) :
    Option (List (String × svn_client_shelf_info_t)) :=
  let len := filename.length
  if len > 6 then
    match strcmp_at_eq_mem before filename (shelves_list_offset len) ".current" with
    | none => none
    | some true =>
      let name := apr_pstrndup filename (size_t_sub len 8)
      some (hash_sets infos name ⟨dirent.mtime⟩)
    | some false => some infos
  else some infos

/-- The loop of `svn_client_shelves_list` over the directory entries as a
machine runs it; `before filename` is the byte stored in front of the entry
name `filename`. -/
def shelves_list_entries_mem (before : String → Char) :
    List (String × svn_io_dirent2_t) → List (String × svn_client_shelf_info_t) →
      Option (List (String × svn_client_shelf_info_t))
  | [], infos => some infos
  | (filename, dirent) :: rest, infos =>
    match shelves_list_entry_mem (before filename) infos filename dirent with
    | none => none
    | some infos => shelves_list_entries_mem before rest infos

/-- List the shelves of a working copy (lines 592-632) as a machine runs it;
`before filename` is the byte stored in front of the entry name `filename`. -/
def svn_client_shelves_list_mem (before : String → Char) (ctx : svn_client_ctx_t)
    (local_abspath : String) (fs : fs_t) :
    Except svn_error_t (Option (List (String × svn_client_shelf_info_t))) :=
  match ctx.svn_wc__get_wcroot local_abspath with
  | .error e => .error e
  | .ok _wc_root_abspath =>
    match ctx.svn_wc__get_shelves_dir local_abspath with
    | .error e => .error e
    | .ok shelves_dir =>
      let dirents := svn_io_get_dirents3 shelves_dir fs
      .ok (shelves_list_entries_mem before dirents [])

/-- Whether there is any shelf (lines 634-646). -/
def svn_client_shelves_any (ctx : svn_client_ctx_t) (local_abspath : String) (fs : fs_t) :
    Except svn_error_t (Option Bool) :=
  match svn_client_shelves_list ctx local_abspath fs with
  | .error e => .error e
  | .ok shelved_patch_infos => .ok (shelved_patch_infos.map (fun h => h.length != 0))

/-- The record `svn_client_shelf_version_info_t`. -/
structure svn_client_shelf_version_info_t where
  patch_abspath : abspath_t
  mtime : Nat
deriving DecidableEq

/-- Path and modification time of a version's patch file (lines 648-669). -/
def svn_client_shelf_version_get_info (shelf : svn_client_shelf_t) (version : Int)
    (fs : fs_t) : Except svn_error_t svn_client_shelf_version_info_t :=
  match get_existing_patch_abspath shelf version with
  | .error e => .error e
  | .ok patch_abspath =>
    match svn_io_stat_dirent2 patch_abspath true fs with
    | .error e => .error e
    | .ok dirent => .ok ⟨patch_abspath, dirent.mtime⟩

/-! ## libsvn_fs_x/id.c: change sets -/

/-- Largest value of `apr_int64_t`. -/
def INT64_MAX : Int := 9223372036854775807

/-- Two's complement wrap-around of an integer into the range of
`apr_int64_t`, the type of change sets and transaction ids. -/
def int64_wrap (v : Int) : Int :=
  (v + 9223372036854775808) % 18446744073709551616 - 9223372036854775808

/-- The macros that `id.c` takes from `id.h` and `svn_types.h`; the headers
are not among the sources at hand, so their values are parameters. -/
structure id_macros where
  SVN_FS_X__INVALID_CHANGE_SET : Int
  SVN_INVALID_REVNUM : Int
  SVN_FS_X__INVALID_TXN_ID : Int

/-- The cast `(svn_revnum_t)`: `svn_revnum_t` is `long`, taken to be 64 bits
wide. -/
def svn_revnum_cast (v : Int) : Int := int64_wrap v

/-- Whether a change set is a transaction (id.c lines 49-53). -/
def svn_fs_x__is_txn (m : id_macros) (change_set : Int) : Bool :=
  decide (change_set < m.SVN_FS_X__INVALID_CHANGE_SET)

/-- Whether a change set is a revision (id.c lines 55-59). -/
def svn_fs_x__is_revision (m : id_macros) (change_set : Int) : Bool :=
  decide (change_set > m.SVN_FS_X__INVALID_CHANGE_SET)

/-- The revision of a change set (id.c lines 61-67). -/
def svn_fs_x__get_revnum (m : id_macros) (change_set : Int) : Int :=
  if svn_fs_x__is_revision m change_set then svn_revnum_cast change_set
  else m.SVN_INVALID_REVNUM

/-- The transaction id of a change set (id.c lines 69-75); each arithmetic
step wraps. -/
def svn_fs_x__get_txn_id (m : id_macros) (change_set : Int) : Int :=
  if svn_fs_x__is_txn m change_set then
    int64_wrap (int64_wrap (int64_wrap (-change_set) + m.SVN_FS_X__INVALID_CHANGE_SET) - 1)
  else m.SVN_FS_X__INVALID_TXN_ID

/-- The change set of a revision (id.c lines 78-83); `none` when the
assertion fails. -/
def svn_fs_x__change_set_by_rev (m : id_macros) (revnum : Int) : Option Int :=
  if revnum ≥ m.SVN_FS_X__INVALID_CHANGE_SET then some revnum else none

/-- The change set of a transaction (id.c lines 85-90); `none` when the
assertion fails; each arithmetic step wraps. -/
def svn_fs_x__change_set_by_txn (m : id_macros) (txn_id : Int) : Option Int :=
  if txn_id ≥ m.SVN_FS_X__INVALID_CHANGE_SET then
    some (int64_wrap (int64_wrap (int64_wrap (-txn_id) + m.SVN_FS_X__INVALID_CHANGE_SET) - 1))
  else none

/-! ## Vocabulary of the claims -/

/-- Smallest value of a C `int`. -/
def INT_MIN : Int := -2147483648

/-- The diff engine succeeds on the target `path` and writes `out`: the target
is not a URL, it can be made absolute, and `svn_client_diff_peg6` returns no
error. -/
def diff_succeeds (ctx : svn_client_ctx_t) (wc_root_abspath : String) (depth : Int)
    (changelists : List String) (path out : String) : Prop :=
  ctx.svn_path_is_url path = false ∧
    ∃ abs, ctx.svn_dirent_get_absolute path = .ok abs ∧
      ctx.svn_client_diff_peg6 abs wc_root_abspath depth changelists = (out, none)

/-- The states a shelf handle and its files can be in after a fresh open of a
shelf that has no pointer file, followed by any number of successful calls of
`save_new_version`, of `set_current_version` with an argument not above
`max_version`, and of `set_log_message`. -/
inductive reachable : svn_client_shelf_t → fs_t → Prop where
  | opened (ctx : svn_client_ctx_t) (name local_abspath : String) (fs : fs_t)
      (shelf : svn_client_shelf_t) :
      svn_client_shelf_open ctx name local_abspath fs = .ok shelf →
      hash_gets fs (get_current_abspath shelf) = none →
      reachable shelf fs
  | saved (ctx : svn_client_ctx_t) (shelf : svn_client_shelf_t) (fs : fs_t)
      (paths : List String) (depth : Int) (changelists : List String)
      (shelf' : svn_client_shelf_t) (fs' : fs_t) :
      reachable shelf fs →
      svn_client_shelf_save_new_version ctx shelf paths depth changelists fs
        = (.ok (), shelf', fs') →
      reachable shelf' fs'
  | rolled_back (ctx : svn_client_ctx_t) (shelf : svn_client_shelf_t) (fs : fs_t)
      (version : Int) (shelf' : svn_client_shelf_t) (fs' : fs_t) :
      reachable shelf fs →
      version ≤ shelf.max_version →
      svn_client_shelf_set_current_version ctx shelf version fs = (.ok (), shelf', fs') →
      reachable shelf' fs'
  | log_message_set (ctx : svn_client_ctx_t) (shelf : svn_client_shelf_t) (fs : fs_t)
      (dry_run : Bool) (shelf' : svn_client_shelf_t) (fs' : fs_t) :
      reachable shelf fs →
      svn_client_shelf_set_log_message ctx shelf dry_run fs = (.ok (), shelf', fs') →
      reachable shelf' fs'

/-- The target `path` makes `write_patch` stop with the error `e` after
`written` went to the patch file: the target is a URL (nothing is written and
the error is `SVN_ERR_ILLEGAL_TARGET`), or it cannot be made absolute (nothing
is written), or `svn_client_diff_peg6` returns the error after writing
`written`. -/
def target_fails (ctx : svn_client_ctx_t) (wc_root_abspath : String) (depth : Int)
    (changelists : List String) (path : String) (e : svn_error_t) (written : String) : Prop :=
  (ctx.svn_path_is_url path = true ∧ e = .SVN_ERR_ILLEGAL_TARGET ∧ written = "") ∨
  (ctx.svn_path_is_url path = false ∧ ctx.svn_dirent_get_absolute path = .error e ∧
    written = "") ∨
  (ctx.svn_path_is_url path = false ∧
    ∃ abs, ctx.svn_dirent_get_absolute path = .ok abs ∧
      ctx.svn_client_diff_peg6 abs wc_root_abspath depth changelists = (written, some e))

/-! ## Example data -/

/-- A context for the working copy `/wc`, whose only target with local
changes is `a.txt`. Its revprop reader knows two well-formed files, the one
without properties and the one with the log message `foo`, and reports
anything else as malformed (error code 1). -/
def example_ctx : svn_client_ctx_t where
  svn_client_get_wc_root := fun _ => .ok "/wc"
  svn_wc__get_shelves_dir := fun _ => .ok "/wc/.svn/shelves"
  svn_wc__get_wcroot := fun _ => .ok "/wc"
  svn_hash_read2 := fun s =>
    if s = "PROPS-END\n" then .ok []
    else if s = "K 7\nsvn:log\nV 3\nfoo\nPROPS-END\n" then .ok [("svn:log", "foo")]
    else .error (.other 1)
  svn_hash_write2 := fun _ => "PROPS-END\n"
  svn_path_is_url := fun _ => false
  svn_dirent_get_absolute := fun path => .ok path
  svn_client_diff_peg6 := fun path _ _ _ =>
    (if path = "a.txt" then "Index: a.txt\n" else "", none)
  svn_diff_parse_patches := fun _ => .ok []
  svn_client_patch := fun _ _ _ _ => .ok ()
  log_msg_func := none
  now := 7
  palloc_max_version := 0

/-- The shelf `foo` with one version. -/
def example_shelf : svn_client_shelf_t :=
  { name := "foo", wc_root_abspath := "/wc", shelves_dir := "/wc/.svn/shelves",
    revprops := [], max_version := 1 }

/-- The files of `example_shelf`. -/
def example_fs : fs_t :=
  [(⟨"/wc/.svn/shelves", "foo-001.patch"⟩, ⟨"Index: a.txt\n", 1⟩),
   (⟨"/wc/.svn/shelves", "foo.current"⟩, ⟨"1", 1⟩)]

/-- The files of two shelves, `foo` with one version and `bar` without any. -/
def example_fs_two : fs_t :=
  example_fs ++ [(⟨"/wc/.svn/shelves", "bar.current"⟩, ⟨"0", 2⟩)]

/-- A storage directory where a write of the revprop file of `foo` stopped
before the terminator line. -/
def example_fs_truncated_log : fs_t :=
  [(⟨"/wc/.svn/shelves", "foo.log"⟩, ⟨"K 7\nsvn:log\nV 3\nfoo\n", 1⟩)]

/-- A storage directory where a write of the pointer file of `foo` stopped
after the file was truncated: the file is there and holds no number. -/
def example_fs_empty_pointer : fs_t :=
  [(⟨"/wc/.svn/shelves", "foo.current"⟩, ⟨"", 1⟩)]

/-- The context `example_ctx` with a log message provider that answers
`message`, `none` being a withdrawn message. -/
def example_ctx_with_message (message : Option String) : svn_client_ctx_t :=
  { example_ctx with log_msg_func := some (.ok message) }

/-- The shelf `foo` with the log message `old`. -/
def example_shelf_logged : svn_client_shelf_t :=
  { example_shelf with revprops := [("svn:log", "old")] }

/-- The context `example_ctx` with a URL test that recognises
`http://host/repo`. -/
def example_ctx_url : svn_client_ctx_t :=
  { example_ctx with svn_path_is_url := fun path => decide (path = "http://host/repo") }

/-- A storage directory that holds a file named `.current` and nothing
else. -/
def example_fs_dot_current : fs_t :=
  [(⟨"/wc/.svn/shelves", ".current"⟩, ⟨"1", 3⟩)]

/-- The macro values with which the change-set claim is stated: all three
are -1. -/
def example_id_macros : id_macros :=
  { SVN_FS_X__INVALID_CHANGE_SET := -1, SVN_INVALID_REVNUM := -1,
    SVN_FS_X__INVALID_TXN_ID := -1 }

/-- The files of the shelf `foo` after a fresh open on an empty storage
directory and one `save_new_version` of `a.txt` at time 7. -/
def example_fs_first_save : fs_t :=
  [(⟨"/wc/.svn/shelves", "foo.current"⟩, ⟨"1", 7⟩),
   (⟨"/wc/.svn/shelves", "foo-001.patch"⟩, ⟨"Index: a.txt\n", 7⟩)]

/-- A storage directory that holds a file named `current` and nothing else. -/
def example_fs_stray_current : fs_t :=
  [(⟨"/wc/.svn/shelves", "current"⟩, ⟨"", 2⟩)]

/-- A storage directory that holds the shelf `current` without versions (its
pointer file `current.current`) and a file named `current`. -/
def example_fs_shelf_current : fs_t :=
  (⟨"/wc/.svn/shelves", "current.current"⟩, ⟨"0", 1⟩) :: example_fs_stray_current

/-! ## Decimal value of a digit string (used to invert the conversions) -/

/-- The number a string of decimal digits denotes. -/
def dec_value (s : List Char) : Nat := s.foldl (fun acc c => acc * 10 + (c.toNat - 48)) 0

/-! ## Facts about hash tables and files -/

theorem hash_gets_remove {κ β : Type} [DecidableEq κ] (h : List (κ × β)) (key k : κ) :
    hash_gets (hash_remove h key) k = if k = key then none else hash_gets h k := by
  induction h with
  | nil => simp [hash_remove, hash_gets]
  | cons a r ih =>
    obtain ⟨a1, a2⟩ := a
    unfold hash_remove at ih ⊢
    by_cases ha : a1 = key
    · subst ha
      simp only [List.filter, ne_eq, not_true_eq_false, decide_False, ih, hash_gets]
      by_cases hk : k = a1
      · simp [hk]
      · have : a1 ≠ k := fun e => hk e.symm
        simp [hk, this]
    · simp only [List.filter, ne_eq, ha, not_false_eq_true, decide_True, hash_gets, ih]
      by_cases hk : k = key
      · subst hk
        simp [ha]
      · simp [hk]

theorem hash_gets_sets {κ β : Type} [DecidableEq κ] (h : List (κ × β)) (key k : κ) (v : β) :
    hash_gets (hash_sets h key v) k = if k = key then some v else hash_gets h k := by
  unfold hash_sets
  by_cases hk : k = key
  · subst hk
    simp [hash_gets]
  · have : key ≠ k := fun e => hk e.symm
    simp [hash_gets, this, hk, hash_gets_remove]

theorem hash_remove_absent {κ β : Type} [DecidableEq κ] (h : List (κ × β)) (key : κ)
    (habs : hash_gets h key = none) : hash_remove h key = h := by
  induction h with
  | nil => rfl
  | cons a r ih =>
    obtain ⟨a1, a2⟩ := a
    unfold hash_remove at ih ⊢
    by_cases ha : a1 = key
    · simp [hash_gets, ha] at habs
    · simp only [hash_gets, ha, if_false] at habs
      have e := ih habs
      simp only [List.filter, ne_eq, ha, not_false_eq_true, decide_True]
      rw [e]

theorem hash_gets_isSome_iff {κ β : Type} [DecidableEq κ] (h : List (κ × β)) (key : κ) :
    hash_gets h key ≠ none ↔ key ∈ h.map Prod.fst := by
  induction h with
  | nil => simp [hash_gets]
  | cons a r ih =>
    obtain ⟨a1, a2⟩ := a
    by_cases ha : a1 = key
    · simp [hash_gets, ha]
    · have : key ≠ a1 := fun e => ha e.symm
      simp [hash_gets, ha, this, ih]

theorem remove_file2_ignore (path : abspath_t) (fs : fs_t) :
    svn_io_remove_file2 path true fs = (.ok (), hash_remove fs path) := by
  unfold svn_io_remove_file2
  cases hg : hash_gets fs path with
  | none => simp [hash_remove_absent fs path hg]
  | some f => rfl

theorem gets_file_open_truncate (now : Nat) (path p : abspath_t) (fs : fs_t) :
    hash_gets (file_open_truncate now path fs) p =
      if p = path then some ⟨"", now⟩ else hash_gets fs p := by
  simp [file_open_truncate, hash_gets_sets]

theorem gets_file_append_ne (now : Nat) (path p : abspath_t) (data : String) (fs : fs_t)
    (hp : p ≠ path) : hash_gets (file_append now path data fs) p = hash_gets fs p := by
  unfold file_append
  cases hash_gets fs path <;> simp [hash_gets_sets, hp]

theorem gets_file_append_self (now : Nat) (path : abspath_t) (data : String) (fs : fs_t)
    (f : file_t) (hf : hash_gets fs path = some f) :
    hash_gets (file_append now path data fs) path = some ⟨f.content ++ data, now⟩ := by
  simp [file_append, hf, hash_gets_sets]

/-! ## Facts about the decimal conversions -/

theorem toDigitsCore_acc (f n : Nat) (acc : List Char) :
    Nat.toDigitsCore 10 f n acc = Nat.toDigitsCore 10 f n [] ++ acc := by
  induction f generalizing n acc with
  | zero => simp [Nat.toDigitsCore]
  | succ f ih =>
    simp only [Nat.toDigitsCore]
    split
    · simp
    · rw [ih (n / 10) (_ :: acc), ih (n / 10) [_]]
      simp

theorem toDigitsCore_fuel (f g n : Nat) (hf : n < f) (hg : n < g) :
    Nat.toDigitsCore 10 f n [] = Nat.toDigitsCore 10 g n [] := by
  induction f generalizing g n with
  | zero => omega
  | succ f ih =>
    cases g with
    | zero => omega
    | succ g =>
      simp only [Nat.toDigitsCore]
      by_cases h0 : n / 10 = 0
      · simp [h0]
      · simp only [h0, if_false]
        rw [toDigitsCore_acc f, toDigitsCore_acc g, ih g (n / 10) (by omega) (by omega)]

theorem toDigits_rec (n : Nat) :
    Nat.toDigits 10 n =
      if n < 10 then [Nat.digitChar n]
      else Nat.toDigits 10 (n / 10) ++ [Nat.digitChar (n % 10)] := by
  unfold Nat.toDigits
  by_cases h10 : n < 10
  · have h0 : n / 10 = 0 := by omega
    have hm : n % 10 = n := by omega
    simp [Nat.toDigitsCore, h0, hm, h10]
  · have h0 : n / 10 ≠ 0 := by omega
    have e : Nat.toDigitsCore 10 (n + 1) n [] =
        Nat.toDigitsCore 10 n (n / 10) [Nat.digitChar (n % 10)] := by
      simp [Nat.toDigitsCore, h0]
    rw [e, if_neg h10, toDigitsCore_acc,
      toDigitsCore_fuel n (n / 10 + 1) (n / 10) (by omega) (by omega)]

theorem digitChar_val (d : Nat) (h : d < 10) :
    (Nat.digitChar d).toNat - 48 = d ∧ '0' ≤ Nat.digitChar d ∧ Nat.digitChar d ≤ '9' := by
  interval_cases d <;> decide

theorem dec_value_toDigits (n : Nat) : dec_value (Nat.toDigits 10 n) = n := by
  induction n using Nat.strong_induction_on with
  | _ n ih =>
    rw [toDigits_rec]
    by_cases h10 : n < 10
    · simp [h10, dec_value, (digitChar_val n h10).1]
    · simp only [h10, if_false, dec_value, List.foldl_append, List.foldl_cons, List.foldl_nil]
      have := ih (n / 10) (by omega)
      unfold dec_value at this
      rw [this, (digitChar_val (n % 10) (by omega)).1]
      omega

theorem toDigits_isdigit (n : Nat) : ∀ c ∈ Nat.toDigits 10 n, '0' ≤ c ∧ c ≤ '9' := by
  induction n using Nat.strong_induction_on with
  | _ n ih =>
    rw [toDigits_rec]
    by_cases h10 : n < 10
    · simp only [h10, if_true, List.mem_singleton]
      rintro c rfl
      exact (digitChar_val n h10).2
    · simp only [h10, if_false, List.mem_append, List.mem_singleton]
      rintro c (hc | rfl)
      · exact ih (n / 10) (by omega) c hc
      · exact (digitChar_val (n % 10) (by omega)).2

theorem dec_value_zeros (k : Nat) (l : List Char) :
    dec_value (List.replicate k '0' ++ l) = dec_value l := by
  have hz : ∀ k : Nat,
      List.foldl (fun acc c => acc * 10 + (c.toNat - 48)) 0 (List.replicate k '0') = 0 := by
    intro k
    induction k with
    | zero => rfl
    | succ k ih => simpa [List.replicate_succ] using ih
  simp [dec_value, List.foldl_append, hz]

theorem printf_03d_data (v : Int) (h : 0 ≤ v) :
    ∃ k, (printf_03d v).data = List.replicate k '0' ++ Nat.toDigits 10 v.toNat := by
  refine ⟨3 - (Nat.repr v.toNat).length, ?_⟩
  have hv : ¬ v < 0 := by omega
  simp [printf_03d, hv, zero_pad, Nat.repr, List.asString]

theorem printf_03d_value (v : Int) (h : 0 ≤ v) : dec_value (printf_03d v).data = v.toNat := by
  obtain ⟨k, hk⟩ := printf_03d_data v h
  rw [hk, dec_value_zeros, dec_value_toDigits]

theorem printf_03d_inj (v w : Int) (hv : 0 ≤ v) (hw : 0 ≤ w)
    (h : printf_03d v = printf_03d w) : v = w := by
  have e1 := printf_03d_value v hv
  have e2 := printf_03d_value w hw
  rw [h, e2] at e1
  omega

theorem printf_03d_no_dash (v : Int) (h : 0 ≤ v) : '-' ∉ (printf_03d v).data := by
  obtain ⟨k, hk⟩ := printf_03d_data v h
  rw [hk]
  intro hm
  rcases List.mem_append.1 hm with hm | hm
  · have := List.eq_of_mem_replicate hm
    exact absurd this (by decide)
  · have := (toDigits_isdigit _ _ hm).1
    exact absurd this (by decide)

/-! ## Facts about file names -/

theorem split_at_last_dash (l1 l2 d1 d2 : List Char) (h1 : '-' ∉ d1) (h2 : '-' ∉ d2)
    (h : l1 ++ '-' :: d1 = l2 ++ '-' :: d2) : l1 = l2 ∧ d1 = d2 := by
  induction l1 generalizing l2 with
  | nil =>
    cases l2 with
    | nil => simpa using h
    | cons c l2 =>
      simp only [List.nil_append, List.cons_append, List.cons.injEq] at h
      exact absurd (h.2 ▸ (by simp : '-' ∈ l2 ++ '-' :: d2)) h1
  | cons c l1 ih =>
    cases l2 with
    | nil =>
      simp only [List.nil_append, List.cons_append, List.cons.injEq] at h
      exact absurd (h.2 ▸ (by simp : '-' ∈ l1 ++ '-' :: d1)) h2
    | cons c2 l2 =>
      simp only [List.cons_append, List.cons.injEq] at h
      obtain ⟨e1, e2⟩ := ih l2 h.2
      exact ⟨by rw [h.1, e1], e2⟩

theorem patch_entry_inj (a b : String) (v w : Int) (hv : 0 ≤ v) (hw : 0 ≤ w)
    (h : a ++ "-" ++ printf_03d v ++ ".patch" = b ++ "-" ++ printf_03d w ++ ".patch") :
    a = b ∧ v = w := by
  have h1 := String.ext_iff.1 h
  simp only [String.data_append] at h1
  have h2 := List.append_cancel_right h1
  have h3 : a.data ++ '-' :: (printf_03d v).data = b.data ++ '-' :: (printf_03d w).data := by
    simpa using h2
  obtain ⟨e1, e2⟩ := split_at_last_dash _ _ _ _ (printf_03d_no_dash v hv)
    (printf_03d_no_dash w hw) h3
  exact ⟨String.ext_iff.2 e1, printf_03d_inj v w hv hw (String.ext_iff.2 e2)⟩

theorem suffix_inj (a b suffix : String) (h : a ++ suffix = b ++ suffix) : a = b := by
  have h1 := String.ext_iff.1 h
  simp only [String.data_append] at h1
  exact String.ext_iff.2 (List.append_cancel_right h1)

theorem last_char_append (a : String) (c : Char) (l : List Char) :
    (a ++ String.mk (l ++ [c])).data.getLast? = some c := by
  simp [String.data_append]

theorem log_ne_current (a b : String) : a ++ ".log" ≠ b ++ ".current" := by
  intro h
  have h1 := last_char_append a 'g' ".lo".data
  have h2 := last_char_append b 't' ".curren".data
  have e1 : String.mk (".lo".data ++ ['g']) = ".log" := by decide
  have e2 : String.mk (".curren".data ++ ['t']) = ".current" := by decide
  rw [e1, h] at h1
  rw [e2, h1] at h2
  exact absurd h2 (by decide)

theorem patch_ne_current (a b : String) : a ++ ".patch" ≠ b ++ ".current" := by
  intro h
  have h1 := last_char_append a 'h' ".patc".data
  have h2 := last_char_append b 't' ".curren".data
  have e1 : String.mk (".patc".data ++ ['h']) = ".patch" := by decide
  have e2 : String.mk (".curren".data ++ ['t']) = ".current" := by decide
  rw [e1, h] at h1
  rw [e2, h1] at h2
  exact absurd h2 (by decide)

theorem patch_ne_log (a b : String) : a ++ ".patch" ≠ b ++ ".log" := by
  intro h
  have h1 := last_char_append a 'h' ".patc".data
  have h2 := last_char_append b 'g' ".lo".data
  have e1 : String.mk (".patc".data ++ ['h']) = ".patch" := by decide
  have e2 : String.mk (".lo".data ++ ['g']) = ".log" := by decide
  rw [e1, h] at h1
  rw [e2, h1] at h2
  exact absurd h2 (by decide)

theorem patch_abspath_inj (s1 s2 : svn_client_shelf_t) (v w : Int) (hv : 0 ≤ v) (hw : 0 ≤ w)
    (h : patch_abspath s1 v = patch_abspath s2 w) : s1.name = s2.name ∧ v = w := by
  simp only [patch_abspath, svn_dirent_join, abspath_t.mk.injEq] at h
  exact patch_entry_inj _ _ v w hv hw h.2

theorem patch_abspath_ne_of_version (shelf : svn_client_shelf_t) (v w : Int) (hv : 0 ≤ v)
    (hw : 0 ≤ w) (h : v ≠ w) : patch_abspath shelf v ≠ patch_abspath shelf w :=
  fun e => h (patch_abspath_inj shelf shelf v w hv hw e).2

theorem patch_abspath_ne_of_name (s1 s2 : svn_client_shelf_t) (v w : Int) (hv : 0 ≤ v)
    (hw : 0 ≤ w) (h : s1.name ≠ s2.name) : patch_abspath s1 v ≠ patch_abspath s2 w :=
  fun e => h (patch_abspath_inj s1 s2 v w hv hw e).1

theorem patch_abspath_ne_current (s1 s2 : svn_client_shelf_t) (v : Int) :
    patch_abspath s1 v ≠ get_current_abspath s2 := by
  simp only [patch_abspath, get_current_abspath, svn_dirent_join, ne_eq, abspath_t.mk.injEq,
    not_and]
  intro _
  exact patch_ne_current _ _

theorem patch_abspath_ne_log (s1 s2 : svn_client_shelf_t) (v : Int) :
    patch_abspath s1 v ≠ log_abspath s2 := by
  simp only [patch_abspath, log_abspath, svn_dirent_join, ne_eq, abspath_t.mk.injEq, not_and]
  intro _
  exact patch_ne_log _ _

theorem log_abspath_ne_current (s1 s2 : svn_client_shelf_t) :
    log_abspath s1 ≠ get_current_abspath s2 := by
  simp only [log_abspath, get_current_abspath, svn_dirent_join, ne_eq, abspath_t.mk.injEq,
    not_and]
  intro _
  exact log_ne_current _ _

theorem log_abspath_ne_of_name (s1 s2 : svn_client_shelf_t) (h : s1.name ≠ s2.name) :
    log_abspath s1 ≠ log_abspath s2 := by
  simp only [log_abspath, svn_dirent_join, ne_eq, abspath_t.mk.injEq, not_and]
  intro _ e
  exact h (suffix_inj _ _ _ e)

theorem current_abspath_ne_of_name (s1 s2 : svn_client_shelf_t) (h : s1.name ≠ s2.name) :
    get_current_abspath s1 ≠ get_current_abspath s2 := by
  simp only [get_current_abspath, svn_dirent_join, ne_eq, abspath_t.mk.injEq, not_and]
  intro _ e
  exact h (suffix_inj _ _ _ e)

/-! ## Facts about the loops -/

theorem delete_above_ok (shelf : svn_client_shelf_t) (bound : Int) :
    ∀ (n : Nat) (i : Int) (fs : fs_t), (0 ≤ bound ∨ i ≤ bound) → i ≤ shelf.max_version →
      (i - bound).toNat ≤ n →
      ∃ fs', delete_patch_files_above shelf bound n i fs = (.ok (), fs') ∧
        (∀ w, bound < w → w ≤ i → hash_gets fs' (patch_abspath shelf w) = none) ∧
        (∀ p, (∀ w, bound < w → w ≤ i → p ≠ patch_abspath shelf w) →
          hash_gets fs' p = hash_gets fs p) := by
  intro n
  induction n with
  | zero =>
    intro i fs _ _ hn
    refine ⟨fs, rfl, ?_, fun _ _ => rfl⟩
    intro w h1 h2
    omega
  | succ n ih =>
    intro i fs hb hi hn
    by_cases hgt : i > bound
    · have hb0 : 0 ≤ bound := by omega
      have hm : ¬ shelf.max_version ≤ 0 := by omega
      have hv : ¬ (i ≤ 0 ∨ i > shelf.max_version) := by omega
      have hdel : shelf_delete_patch_file shelf i fs
          = (.ok (), hash_remove fs (patch_abspath shelf i)) := by
        simp [shelf_delete_patch_file, get_existing_patch_abspath, hm, hv, get_patch_abspath,
          remove_file2_ignore]
      obtain ⟨fs', h1, h2, h3⟩ := ih (i - 1) (hash_remove fs (patch_abspath shelf i))
        (Or.inl hb0) (by omega) (by omega)
      refine ⟨fs', ?_, ?_, ?_⟩
      · simp only [delete_patch_files_above, hgt, if_true, hdel]
        exact h1
      · intro w hw1 hw2
        by_cases hwi : w = i
        · subst hwi
          rw [h3]
          · simp [hash_gets_remove]
          · intro w' hw1' hw2'
            exact patch_abspath_ne_of_version shelf w w' (by omega) (by omega) (by omega)
        · exact h2 w hw1 (by omega)
      · intro p hp
        rw [h3 p (fun w hw1 hw2 => hp w hw1 (by omega)), hash_gets_remove]
        simp [hp i hgt (le_refl i)]
    · refine ⟨fs, ?_, ?_, fun _ _ => rfl⟩
      · simp [delete_patch_files_above, hgt]
      · intro w h1 h2
        omega

theorem delete_above_fails (shelf : svn_client_shelf_t) (bound : Int) (hb : bound < 0) :
    ∀ (n : Nat) (i : Int) (fs : fs_t), 0 ≤ i → i ≤ shelf.max_version →
      n = (i - bound).toNat →
      ∃ fs', delete_patch_files_above shelf bound n i fs
        = (.error .SVN_ERR_CLIENT_BAD_REVISION, fs') := by
  intro n
  induction n with
  | zero =>
    intro i fs h0 _ hn
    omega
  | succ n ih =>
    intro i fs h0 hi hn
    have hgt : i > bound := by omega
    by_cases hz : i = 0
    · refine ⟨fs, ?_⟩
      have hdel : shelf_delete_patch_file shelf i fs
          = (.error .SVN_ERR_CLIENT_BAD_REVISION, fs) := by
        unfold shelf_delete_patch_file get_existing_patch_abspath
        by_cases hm : shelf.max_version ≤ 0
        · simp [hm]
        · simp [hm, hz]
      simp only [delete_patch_files_above, hgt, if_true, hdel]
    · have hm : ¬ shelf.max_version ≤ 0 := by omega
      have hv : ¬ (i ≤ 0 ∨ i > shelf.max_version) := by omega
      have hdel : shelf_delete_patch_file shelf i fs
          = (.ok (), hash_remove fs (patch_abspath shelf i)) := by
        simp [shelf_delete_patch_file, get_existing_patch_abspath, hm, hv, get_patch_abspath,
          remove_file2_ignore]
      obtain ⟨fs', h1⟩ := ih (i - 1) (hash_remove fs (patch_abspath shelf i)) (by omega)
        (by omega) (by omega)
      refine ⟨fs', ?_⟩
      simp only [delete_patch_files_above, hgt, if_true, hdel]
      exact h1

theorem set_current_version_spec (ctx : svn_client_ctx_t) (shelf : svn_client_shelf_t)
    (v : Int) (fs : fs_t) (h : 0 ≤ v ∨ shelf.max_version ≤ v) :
    ∃ fs', svn_client_shelf_set_current_version ctx shelf v fs
        = (.ok (), { shelf with max_version := v }, fs') ∧
      hash_gets fs' (get_current_abspath shelf) = some ⟨printf_d v, ctx.now⟩ ∧
      (∀ w, v < w → w ≤ shelf.max_version → hash_gets fs' (patch_abspath shelf w) = none) ∧
      (∀ p, p ≠ get_current_abspath shelf →
        (∀ w, v < w → w ≤ shelf.max_version → p ≠ patch_abspath shelf w) →
        hash_gets fs' p = hash_gets fs p) := by
  obtain ⟨fs1, h1, h2, h3⟩ := delete_above_ok shelf v (shelf.max_version - v).toNat
    shelf.max_version fs h (le_refl _) (le_refl _)
  have hcur : get_current_abspath { shelf with max_version := v } = get_current_abspath shelf :=
    rfl
  have hopen : hash_gets (file_open_truncate ctx.now (get_current_abspath shelf) fs1)
      (get_current_abspath shelf) = some ⟨"", ctx.now⟩ := by
    simp [gets_file_open_truncate]
  refine ⟨file_append ctx.now (get_current_abspath shelf) (printf_d v)
    (file_open_truncate ctx.now (get_current_abspath shelf) fs1), ?_, ?_, ?_, ?_⟩
  · simp [svn_client_shelf_set_current_version, h1, shelf_write_current, hcur]
  · rw [gets_file_append_self _ _ _ _ _ hopen]
    simp
  · intro w hw1 hw2
    rw [gets_file_append_ne _ _ _ _ _ (patch_abspath_ne_current shelf shelf w),
      gets_file_open_truncate, if_neg (patch_abspath_ne_current shelf shelf w)]
    exact h2 w hw1 hw2
  · intro p hp hpw
    rw [gets_file_append_ne _ _ _ _ _ hp, gets_file_open_truncate, if_neg hp]
    exact h3 p hpw

theorem join_cons (a : String) (l : List String) : String.join (a :: l) = a ++ String.join l := by
  have h : ∀ (l : List String) (acc : String),
      List.foldl (fun r s => r ++ s) acc l = acc ++ List.foldl (fun r s => r ++ s) "" l := by
    intro l
    induction l with
    | nil => intro acc; simp
    | cons b l ih =>
      intro acc
      simp only [List.foldl_cons]
      rw [ih (acc ++ b), ih ("" ++ b)]
      simp [String.append_assoc]
  simp only [String.join, List.foldl_cons]
  rw [h l ("" ++ a)]
  simp

theorem write_patch_targets_ok (ctx : svn_client_ctx_t) (p : abspath_t) (depth : Int)
    (changelists : List String) (wc_root_abspath : String) :
    ∀ (paths outs : List String) (fs : fs_t) (content : String),
      List.Forall₂ (diff_succeeds ctx wc_root_abspath depth changelists) paths outs →
      hash_gets fs p = some ⟨content, ctx.now⟩ →
      ∃ fs', write_patch_targets ctx p depth changelists wc_root_abspath paths fs
          = (.ok (), fs') ∧
        hash_gets fs' p = some ⟨content ++ String.join outs, ctx.now⟩ ∧
        (∀ q, q ≠ p → hash_gets fs' q = hash_gets fs q) := by
  intro paths
  induction paths with
  | nil =>
    intro outs fs content hd hf
    cases hd
    exact ⟨fs, rfl, by simpa [String.join] using hf, fun _ _ => rfl⟩
  | cons path rest ih =>
    intro outs fs content hd hf
    cases hd with
    | cons h1 h2 =>
      rename_i out outs'
      obtain ⟨hurl, abs, habs, hdiff⟩ := h1
      have hf1 := gets_file_append_self ctx.now p out fs _ hf
      obtain ⟨fs', e1, e2, e3⟩ := ih outs' (file_append ctx.now p out fs) (content ++ out) h2 hf1
      refine ⟨fs', ?_, ?_, ?_⟩
      · simp only [write_patch_targets, hurl, habs, hdiff]
        simpa using e1
      · rw [e2, join_cons, String.append_assoc]
      · intro q hq
        rw [e3 q hq, gets_file_append_ne _ _ _ _ _ hq]

theorem write_patch_ok (ctx : svn_client_ctx_t) (p : abspath_t) (depth : Int)
    (changelists : List String) (wc_root_abspath : String) (paths outs : List String)
    (fs : fs_t)
    (hd : List.Forall₂ (diff_succeeds ctx wc_root_abspath depth changelists) paths outs) :
    ∃ fs', write_patch ctx p paths depth changelists wc_root_abspath fs = (.ok (), fs') ∧
      hash_gets fs' p = some ⟨String.join outs, ctx.now⟩ ∧
      (∀ q, q ≠ p → hash_gets fs' q = hash_gets fs q) := by
  have hf : hash_gets (file_open_truncate ctx.now p fs) p = some ⟨"", ctx.now⟩ := by
    simp [gets_file_open_truncate]
  obtain ⟨fs', e1, e2, e3⟩ := write_patch_targets_ok ctx p depth changelists wc_root_abspath
    paths outs (file_open_truncate ctx.now p fs) "" hd hf
  refine ⟨fs', ?_, ?_, ?_⟩
  · simpa [write_patch] using e1
  · simpa using e2
  · intro q hq
    rw [e3 q hq, gets_file_open_truncate, if_neg hq]

theorem int_wrap_in_range (v : Int) (h1 : INT_MIN ≤ v) (h2 : v ≤ INT_MAX) : int_wrap v = v := by
  unfold INT_MIN at h1
  unfold INT_MAX at h2
  unfold int_wrap
  omega

theorem file_append_exists (now : Nat) (path q : abspath_t) (data : String) (fs : fs_t)
    (h : hash_gets fs q ≠ none ∨ q = path) : hash_gets (file_append now path data fs) q ≠ none := by
  by_cases hq : q = path
  · subst hq
    unfold file_append
    cases hash_gets fs q <;> simp [hash_gets_sets]
  · rw [gets_file_append_ne _ _ _ _ _ hq]
    rcases h with h | h
    · exact h
    · exact absurd h hq

theorem write_patch_targets_preserves (ctx : svn_client_ctx_t) (p : abspath_t) (depth : Int)
    (changelists : List String) (wc_root_abspath : String) :
    ∀ (paths : List String) (fs : fs_t) (q : abspath_t), hash_gets fs q ≠ none →
      hash_gets (write_patch_targets ctx p depth changelists wc_root_abspath paths fs).2 q
        ≠ none := by
  intro paths
  induction paths with
  | nil => intro fs q h; exact h
  | cons path rest ih =>
    intro fs q h
    unfold write_patch_targets
    split
    · exact h
    · split
      · exact h
      · split
        · exact file_append_exists _ _ _ _ _ (Or.inl h)
        · exact ih _ q (file_append_exists _ _ _ _ _ (Or.inl h))

theorem write_patch_preserves (ctx : svn_client_ctx_t) (p : abspath_t) (paths : List String)
    (depth : Int) (changelists : List String) (wc_root_abspath : String) (fs : fs_t)
    (q : abspath_t) (h : hash_gets fs q ≠ none ∨ q = p) :
    hash_gets (write_patch ctx p paths depth changelists wc_root_abspath fs).2 q ≠ none := by
  unfold write_patch
  apply write_patch_targets_preserves
  rw [gets_file_open_truncate]
  by_cases hq : q = p
  · simp [hq]
  · rw [if_neg hq]
    rcases h with h | h
    · exact h
    · exact absurd h hq

theorem set_current_version_fails (ctx : svn_client_ctx_t) (shelf : svn_client_shelf_t)
    (v : Int) (fs : fs_t) (hv : v < 0) (hm : 0 ≤ shelf.max_version) :
    ∃ fs', svn_client_shelf_set_current_version ctx shelf v fs
      = (.error .SVN_ERR_CLIENT_BAD_REVISION, shelf, fs') := by
  obtain ⟨fs', h⟩ := delete_above_fails shelf v hv (shelf.max_version - v).toNat
    shelf.max_version fs hm (le_refl _) rfl
  exact ⟨fs', by simp [svn_client_shelf_set_current_version, h]⟩

theorem set_log_message_frame (ctx : svn_client_ctx_t) (shelf : svn_client_shelf_t)
    (dry_run : Bool) (fs : fs_t) :
    (svn_client_shelf_set_log_message ctx shelf dry_run fs).2.1.name = shelf.name ∧
    (svn_client_shelf_set_log_message ctx shelf dry_run fs).2.1.shelves_dir
      = shelf.shelves_dir ∧
    (svn_client_shelf_set_log_message ctx shelf dry_run fs).2.1.max_version
      = shelf.max_version ∧
    (∀ q, q ≠ log_abspath shelf →
      hash_gets (svn_client_shelf_set_log_message ctx shelf dry_run fs).2.2 q
        = hash_gets fs q) := by
  have hset : ∀ message : String,
      (svn_client__shelf_revprop_set ctx shelf "svn:log" message fs).2.1.name = shelf.name ∧
      (svn_client__shelf_revprop_set ctx shelf "svn:log" message fs).2.1.shelves_dir
        = shelf.shelves_dir ∧
      (svn_client__shelf_revprop_set ctx shelf "svn:log" message fs).2.1.max_version
        = shelf.max_version ∧
      (∀ q, q ≠ log_abspath shelf →
        hash_gets (svn_client__shelf_revprop_set ctx shelf "svn:log" message fs).2.2 q
          = hash_gets fs q) := by
    intro message
    refine ⟨rfl, rfl, rfl, ?_⟩
    intro q hq
    have hq' : q ≠ log_abspath { shelf with
        revprops := hash_sets shelf.revprops "svn:log" message } := hq
    simp only [svn_client__shelf_revprop_set, shelf_write_revprops, get_log_abspath]
    rw [gets_file_append_ne _ _ _ _ _ hq', gets_file_open_truncate, if_neg hq']
  unfold svn_client_shelf_set_log_message
  cases hl : ctx.log_msg_func with
  | none =>
    cases dry_run
    · simpa using hset ""
    · simp
  | some r =>
    cases r with
    | error e => simp
    | ok m =>
      cases m with
      | none => simp
      | some message =>
        cases dry_run
        · simpa using hset message
        · simp

theorem int_wrap_le (v : Int) (h : INT_MIN ≤ v) : int_wrap v ≤ v := by
  unfold INT_MIN at h
  unfold int_wrap
  omega

theorem set_current_version_ok_inv (ctx : svn_client_ctx_t) (shelf : svn_client_shelf_t)
    (v : Int) (fs : fs_t) (shelf' : svn_client_shelf_t) (fs' : fs_t)
    (hm : 0 ≤ shelf.max_version)
    (hs : svn_client_shelf_set_current_version ctx shelf v fs = (.ok (), shelf', fs')) :
    0 ≤ v ∧ shelf' = { shelf with max_version := v } ∧
      (∀ w, 1 ≤ w → w ≤ v →
        hash_gets fs' (patch_abspath shelf w) = hash_gets fs (patch_abspath shelf w)) := by
  by_cases hv : v < 0
  · obtain ⟨fs'', h⟩ := set_current_version_fails ctx shelf v fs hv hm
    rw [h] at hs
    simp at hs
  · obtain ⟨fs'', h1, _, _, h4⟩ := set_current_version_spec ctx shelf v fs (Or.inl (by omega))
    rw [h1] at hs
    simp only [Prod.mk.injEq, true_and] at hs
    obtain ⟨e1, e2⟩ := hs
    subst e2
    refine ⟨by omega, e1.symm, ?_⟩
    intro w hw1 hw2
    apply h4
    · exact patch_abspath_ne_current shelf shelf w
    · intro w' hw1' hw2'
      exact patch_abspath_ne_of_version shelf w w' (by omega) (by omega) (by omega)

theorem save_new_version_inv (ctx : svn_client_ctx_t) (shelf : svn_client_shelf_t)
    (paths : List String) (depth : Int) (changelists : List String) (fs : fs_t)
    (shelf' : svn_client_shelf_t) (fs' : fs_t) (hm : 0 ≤ shelf.max_version)
    (hinv : ∀ v, 1 ≤ v → v ≤ shelf.max_version → hash_gets fs (patch_abspath shelf v) ≠ none)
    (hs : svn_client_shelf_save_new_version ctx shelf paths depth changelists fs
      = (.ok (), shelf', fs')) :
    0 ≤ shelf'.max_version ∧ shelf'.max_version ≤ shelf.max_version + 1 ∧
      (∀ v, 1 ≤ v → v ≤ shelf'.max_version →
        hash_gets fs' (patch_abspath shelf' v) ≠ none) := by
  have hpres := write_patch_preserves ctx
    (patch_abspath shelf (int_wrap (shelf.max_version + 1))) paths depth changelists
    shelf.wc_root_abspath fs
  have hle := int_wrap_le (shelf.max_version + 1) (by unfold INT_MIN; omega)
  simp only [svn_client_shelf_save_new_version, get_patch_abspath] at hs
  rcases hwp : write_patch ctx (patch_abspath shelf (int_wrap (shelf.max_version + 1))) paths
    depth changelists shelf.wc_root_abspath fs with ⟨r, fs1⟩
  rw [hwp] at hs hpres
  simp only at hpres
  cases r with
  | error e => simp at hs
  | ok u =>
    simp only at hs
    cases hst : svn_io_stat (patch_abspath shelf (int_wrap (shelf.max_version + 1))) fs1 with
    | error e => rw [hst] at hs; simp at hs
    | ok size =>
      rw [hst] at hs
      simp only at hs
      by_cases hsz : size > 0
      · rw [if_pos hsz] at hs
        obtain ⟨h0, e1, h3⟩ := set_current_version_ok_inv ctx shelf _ fs1 shelf' fs' hm hs
        subst e1
        refine ⟨h0, hle, ?_⟩
        intro v hv1 hv2
        have hv2' : v ≤ int_wrap (shelf.max_version + 1) := hv2
        have hpath : patch_abspath { shelf with
            max_version := int_wrap (shelf.max_version + 1) } v = patch_abspath shelf v := rfl
        rw [hpath, h3 v hv1 hv2']
        apply hpres
        by_cases hvm : v ≤ shelf.max_version
        · exact Or.inl (hinv v hv1 hvm)
        · right
          have : v = int_wrap (shelf.max_version + 1) := by omega
          rw [this]
      · rw [if_neg hsz] at hs
        simp only [Prod.mk.injEq, true_and] at hs
        obtain ⟨e1, e2⟩ := hs
        subst e1 e2
        exact ⟨hm, by omega, fun v hv1 hv2 => hpres _ (Or.inl (hinv v hv1 hv2))⟩

theorem shelf_read_revprops_frame (ctx : svn_client_ctx_t) (shelf shelf' : svn_client_shelf_t)
    (fs : fs_t) (h : shelf_read_revprops ctx shelf fs = .ok shelf') :
    shelf'.name = shelf.name ∧ shelf'.shelves_dir = shelf.shelves_dir ∧
      shelf'.wc_root_abspath = shelf.wc_root_abspath ∧
      shelf'.max_version = shelf.max_version := by
  simp only [shelf_read_revprops, get_log_abspath] at h
  split at h
  · split at h
    · cases h
      exact ⟨rfl, rfl, rfl, rfl⟩
    · cases h
  · split at h
    · cases h
    · cases h
      exact ⟨rfl, rfl, rfl, rfl⟩

theorem shelf_read_current_frame (shelf shelf' : svn_client_shelf_t) (fs : fs_t)
    (h : shelf_read_current shelf fs = .ok shelf') :
    shelf'.name = shelf.name ∧ shelf'.shelves_dir = shelf.shelves_dir ∧
      shelf'.wc_root_abspath = shelf.wc_root_abspath ∧ shelf'.revprops = shelf.revprops ∧
      (hash_gets fs (get_current_abspath shelf) = none → shelf'.max_version = 0) := by
  simp only [shelf_read_current] at h
  split at h
  · cases h
    exact ⟨rfl, rfl, rfl, rfl, fun _ => rfl⟩
  · rename_i fp hfp
    split at h
    · cases h
      exact ⟨rfl, rfl, rfl, rfl, fun hn => by rw [hn] at hfp; cases hfp⟩
    · cases h
      exact ⟨rfl, rfl, rfl, rfl, fun hn => by rw [hn] at hfp; cases hfp⟩

theorem shelf_open_ok (ctx : svn_client_ctx_t) (name local_abspath : String) (fs : fs_t)
    (shelf : svn_client_shelf_t) (h : svn_client_shelf_open ctx name local_abspath fs = .ok shelf) :
    validate_name name = .ok () ∧ shelf.name = name ∧
      ctx.svn_wc__get_shelves_dir local_abspath = .ok shelf.shelves_dir ∧
      (hash_gets fs (get_current_abspath shelf) = none → shelf.max_version = 0) := by
  unfold svn_client_shelf_open at h
  split at h
  · cases h
  · rename_i hval
    split at h
    · cases h
    · split at h
      · cases h
      · rename_i hdir
        simp only at h
        split at h
        · cases h
        · rename_i shelf1 hrev
          obtain ⟨a1, a2, _, _⟩ := shelf_read_revprops_frame ctx _ _ fs hrev
          obtain ⟨b1, b2, _, _, b5⟩ := shelf_read_current_frame _ _ fs h
          simp only at a1 a2
          have hcur : get_current_abspath shelf = get_current_abspath shelf1 := by
            simp only [get_current_abspath, b1, b2]
          refine ⟨hval, by rw [b1, a1], by rw [hdir, b2, a2], ?_⟩
          intro hn
          rw [hcur] at hn
          exact b5 hn

theorem shelf_delete_spec (ctx : svn_client_ctx_t) (name local_abspath : String)
    (dry_run : Bool) (fs : fs_t) (shelf : svn_client_shelf_t)
    (hopen : svn_client_shelf_open ctx name local_abspath fs = .ok shelf) :
    ∃ fs', svn_client_shelf_delete ctx name local_abspath dry_run fs = (.ok (), fs') ∧
      hash_gets fs' (get_current_abspath shelf) = none ∧
      hash_gets fs' (log_abspath shelf) = none ∧
      (∀ w, 1 ≤ w → w ≤ shelf.max_version → hash_gets fs' (patch_abspath shelf w) = none) ∧
      (∀ p, p ≠ get_current_abspath shelf → p ≠ log_abspath shelf →
        (∀ w, 1 ≤ w → w ≤ shelf.max_version → p ≠ patch_abspath shelf w) →
        hash_gets fs' p = hash_gets fs p) := by
  obtain ⟨hval, _, _, _⟩ := shelf_open_ok ctx name local_abspath fs shelf hopen
  obtain ⟨fs1, h1, h2, h3⟩ := delete_above_ok shelf 0 (shelf.max_version - 0).toNat
    shelf.max_version fs (Or.inl (le_refl _)) (le_refl _) (le_refl _)
  refine ⟨hash_remove (hash_remove fs1 (log_abspath shelf)) (get_current_abspath shelf),
    ?_, ?_, ?_, ?_, ?_⟩
  · rw [sub_zero] at h1
    simp [svn_client_shelf_delete, hval, hopen, h1, get_log_abspath, remove_file2_ignore,
      svn_client_shelf_close]
  · simp [hash_gets_remove]
  · simp [hash_gets_remove]
  · intro w hw1 hw2
    rw [hash_gets_remove, if_neg (patch_abspath_ne_current shelf shelf w), hash_gets_remove,
      if_neg (patch_abspath_ne_log shelf shelf w)]
    exact h2 w (by omega) hw2
  · intro p hp1 hp2 hp3
    rw [hash_gets_remove, if_neg hp1, hash_gets_remove, if_neg hp2]
    exact h3 p (fun w hw1 hw2 => hp3 w (by omega) hw2)

theorem shelf_delete_ok_opened (ctx : svn_client_ctx_t) (name local_abspath : String)
    (dry_run : Bool) (fs fs' : fs_t)
    (h : svn_client_shelf_delete ctx name local_abspath dry_run fs = (.ok (), fs')) :
    ∃ shelf, svn_client_shelf_open ctx name local_abspath fs = .ok shelf := by
  unfold svn_client_shelf_delete at h
  split at h
  · simp at h
  · split at h
    · simp at h
    · rename_i shelf hopen
      exact ⟨shelf, hopen⟩

/-! ## Facts about the listing -/

theorem hash_gets_sets_ne_none {κ β : Type} [DecidableEq κ] (h : List (κ × β)) (key k : κ)
    (v : β) : hash_gets (hash_sets h key v) k ≠ none ↔ (k = key ∨ hash_gets h k ≠ none) := by
  rw [hash_gets_sets]
  by_cases hk : k = key
  · simp [hk]
  · simp [hk]

theorem current_length : ".current".length = 8 := by decide

theorem pointer_entry_length (n : String) : (n ++ ".current").length = n.length + 8 := by
  rw [String.length_append, current_length]

theorem pointer_entry_iff (filename n : String) :
    filename = n ++ ".current" ↔
      (String.mk (filename.data.drop (filename.length - 8)) = ".current" ∧
        n = String.mk (filename.data.take (filename.length - 8))) := by
  constructor
  · intro h
    subst h
    have hl : (n ++ ".current").length - 8 = n.data.length := by
      rw [pointer_entry_length, Nat.add_sub_cancel]
      rfl
    rw [hl, String.data_append, List.drop_left' rfl, List.take_left' rfl]
    exact ⟨rfl, rfl⟩
  · rintro ⟨h1, h2⟩
    apply String.ext_iff.2
    rw [String.data_append, h2, ← congrArg String.data h1]
    exact (List.take_append_drop _ _).symm

theorem shelves_list_entry_spec (infos : List (String × svn_client_shelf_info_t))
    (filename : String) (dirent : svn_io_dirent2_t) (hne : filename ≠ "current") :
    ∃ infos', shelves_list_entry infos filename dirent = some infos' ∧
      ∀ n, hash_gets infos' n ≠ none ↔
        (hash_gets infos n ≠ none ∨ filename = n ++ ".current") := by
  have hshort : filename.length < 8 → ∀ n : String, filename ≠ n ++ ".current" := by
    intro hlt n e
    have := pointer_entry_length n
    rw [← e] at this
    omega
  by_cases h6 : filename.length > 6
  · by_cases h8 : 8 ≤ filename.length
    · have hoff : (shelves_list_offset filename.length).toNat = filename.length - 8 := by
        unfold shelves_list_offset
        omega
      have hcmp : strcmp_at_eq filename (shelves_list_offset filename.length) ".current"
          = some (decide (String.mk (filename.data.drop (filename.length - 8)) = ".current")) := by
        have h1 : 0 ≤ shelves_list_offset filename.length := by
          unfold shelves_list_offset
          omega
        have h2 : shelves_list_offset filename.length ≤ filename.length := by
          unfold shelves_list_offset
          omega
        simp only [strcmp_at_eq, h1, h2, if_true, hoff]
      by_cases hs : String.mk (filename.data.drop (filename.length - 8)) = ".current"
      · refine ⟨hash_sets infos (apr_pstrndup filename (filename.length - 8))
          ⟨dirent.mtime⟩, ?_, ?_⟩
        · simp only [shelves_list_entry, h6, if_true, hcmp, hs, decide_True, hoff]
        · intro n
          rw [hash_gets_sets_ne_none, pointer_entry_iff filename n]
          simp only [hs, true_and, apr_pstrndup]
          exact Or.comm
      · refine ⟨infos, ?_, ?_⟩
        · simp only [shelves_list_entry, h6, if_true, hcmp, hs, decide_False]
        · intro n
          rw [pointer_entry_iff filename n]
          simp [hs]
    · have hoff : shelves_list_offset filename.length = -1 := by
        unfold shelves_list_offset
        omega
      have hcmp : strcmp_at_eq filename (shelves_list_offset filename.length) ".current"
          = some false := by
        have htail : ¬ (".current".data ≠ [] ∧ ".current".data.tail = filename.data) := by
          rintro ⟨_, e⟩
          exact hne (String.ext_iff.2 e.symm)
        rw [hoff]
        simp only [strcmp_at_eq, htail, if_false]
        rfl
      refine ⟨infos, ?_, ?_⟩
      · simp only [shelves_list_entry, h6, if_true, hcmp]
      · intro n
        have := hshort (by omega) n
        simp [this]
  · refine ⟨infos, ?_, ?_⟩
    · simp only [shelves_list_entry, h6, if_false]
    · intro n
      have := hshort (by omega) n
      simp [this]

theorem shelves_list_entry_undetermined (infos : List (String × svn_client_shelf_info_t))
    (dirent : svn_io_dirent2_t) : shelves_list_entry infos "current" dirent = none := by
  rfl

theorem shelves_list_entries_spec :
    ∀ (dirents : List (String × svn_io_dirent2_t))
      (infos : List (String × svn_client_shelf_info_t)),
      (∀ e ∈ dirents, e.1 ≠ "current") →
      ∃ infos', shelves_list_entries dirents infos = some infos' ∧
        ∀ n, hash_gets infos' n ≠ none ↔
          (hash_gets infos n ≠ none ∨ ∃ e ∈ dirents, e.1 = n ++ ".current") := by
  intro dirents
  induction dirents with
  | nil =>
    intro infos _
    exact ⟨infos, rfl, fun n => by simp⟩
  | cons d rest ih =>
    intro infos hne
    obtain ⟨filename, dirent⟩ := d
    obtain ⟨infos1, e1, k1⟩ := shelves_list_entry_spec infos filename dirent
      (hne (filename, dirent) (List.mem_cons_self _ _))
    obtain ⟨infos2, e2, k2⟩ := ih infos1 (fun e he => hne e (List.mem_cons_of_mem _ he))
    refine ⟨infos2, ?_, ?_⟩
    · simp only [shelves_list_entries, e1]
      exact e2
    · intro n
      rw [k2 n, k1 n]
      simp only [List.mem_cons, exists_eq_or_imp]
      exact or_assoc

theorem shelves_list_entries_determined :
    ∀ (dirents : List (String × svn_io_dirent2_t))
      (infos infos' : List (String × svn_client_shelf_info_t)),
      shelves_list_entries dirents infos = some infos' → ∀ e ∈ dirents, e.1 ≠ "current" := by
  intro dirents
  induction dirents with
  | nil => intro _ _ _ e he; cases he
  | cons d rest ih =>
    intro infos infos' h e he
    obtain ⟨filename, dirent⟩ := d
    simp only [shelves_list_entries] at h
    split at h
    · cases h
    · rename_i infos1 h1
      rcases List.mem_cons.1 he with he | he
      · subst he
        intro hc
        simp only at hc
        subst hc
        rw [shelves_list_entry_undetermined] at h1
        cases h1
      · exact ih infos1 infos' h e he

theorem mem_dirents_iff (dir : String) (fs : fs_t) (entry : String) :
    (∃ e ∈ svn_io_get_dirents3 dir fs, e.1 = entry) ↔ hash_gets fs ⟨dir, entry⟩ ≠ none := by
  rw [hash_gets_isSome_iff]
  simp only [svn_io_get_dirents3, List.mem_map, List.mem_filter, decide_eq_true_eq]
  constructor
  · rintro ⟨e, ⟨a, ⟨ha, hd⟩, rfl⟩, he⟩
    refine ⟨a, ha, ?_⟩
    obtain ⟨⟨d1, d2⟩, f⟩ := a
    simp only at hd he
    rw [hd, he]
  · rintro ⟨a, ha, e⟩
    exact ⟨(a.1.entry, ⟨true, a.2.mtime⟩), ⟨a, ⟨ha, by rw [e]⟩, rfl⟩, by rw [e]⟩

theorem shelves_list_spec (ctx : svn_client_ctx_t) (local_abspath : String) (fs : fs_t)
    (infos : List (String × svn_client_shelf_info_t))
    (h : svn_client_shelves_list ctx local_abspath fs = .ok (some infos)) :
    ∃ dir, ctx.svn_wc__get_shelves_dir local_abspath = .ok dir ∧
      hash_gets fs ⟨dir, "current"⟩ = none ∧
      ∀ n, hash_gets infos n ≠ none ↔ hash_gets fs ⟨dir, n ++ ".current"⟩ ≠ none := by
  unfold svn_client_shelves_list at h
  split at h
  · cases h
  · split at h
    · cases h
    · rename_i dir hdir
      simp only [Except.ok.injEq] at h
      have hdet := shelves_list_entries_determined _ _ _ h
      obtain ⟨infos', e, k⟩ := shelves_list_entries_spec (svn_io_get_dirents3 dir fs) [] hdet
      rw [h] at e
      cases e
      refine ⟨dir, hdir, ?_, ?_⟩
      · by_contra hc
        obtain ⟨e, he, hn⟩ := (mem_dirents_iff dir fs "current").2 hc
        exact hdet e he hn
      · intro n
        rw [k n, ← mem_dirents_iff]
        simp [hash_gets]

theorem shelves_list_returns (ctx : svn_client_ctx_t) (local_abspath : String) (fs : fs_t)
    (root dir : String) (hroot : ctx.svn_wc__get_wcroot local_abspath = .ok root)
    (hdir : ctx.svn_wc__get_shelves_dir local_abspath = .ok dir)
    (hcur : hash_gets fs ⟨dir, "current"⟩ = none) :
    ∃ infos, svn_client_shelves_list ctx local_abspath fs = .ok (some infos) := by
  have hdet : ∀ e ∈ svn_io_get_dirents3 dir fs, e.1 ≠ "current" := by
    intro e he hn
    exact (mem_dirents_iff dir fs "current").1 ⟨e, he, hn⟩ hcur
  obtain ⟨infos', e, _⟩ := shelves_list_entries_spec (svn_io_get_dirents3 dir fs) [] hdet
  exact ⟨infos', by simp [svn_client_shelves_list, hroot, hdir, e]⟩

theorem shelves_list_root (ctx : svn_client_ctx_t) (local_abspath : String) (fs : fs_t)
    (r : Option (List (String × svn_client_shelf_info_t)))
    (h : svn_client_shelves_list ctx local_abspath fs = .ok r) :
    ∃ root, ctx.svn_wc__get_wcroot local_abspath = .ok root := by
  unfold svn_client_shelves_list at h
  split at h
  · cases h
  · rename_i root hroot
    exact ⟨root, hroot⟩

theorem shelf_delete_only_removes (ctx : svn_client_ctx_t) (name local_abspath : String)
    (dry_run : Bool) (fs fs' : fs_t)
    (h : svn_client_shelf_delete ctx name local_abspath dry_run fs = (.ok (), fs'))
    (p : abspath_t) (hp : hash_gets fs' p ≠ none) : hash_gets fs p ≠ none := by
  obtain ⟨shelf, hopen⟩ := shelf_delete_ok_opened ctx name local_abspath dry_run fs fs' h
  obtain ⟨fs'', e, h1, h2, h3, h4⟩ := shelf_delete_spec ctx name local_abspath dry_run fs shelf
    hopen
  rw [e] at h
  simp only [Prod.mk.injEq, true_and] at h
  subst h
  by_cases c1 : p = get_current_abspath shelf
  · rw [c1] at hp
    exact absurd h1 hp
  · by_cases c2 : p = log_abspath shelf
    · rw [c2] at hp
      exact absurd h2 hp
    · by_cases c3 : ∃ w, 1 ≤ w ∧ w ≤ shelf.max_version ∧ p = patch_abspath shelf w
      · obtain ⟨w, hw1, hw2, hw3⟩ := c3
        rw [hw3] at hp
        exact absurd (h3 w hw1 hw2) hp
      · rw [← h4 p c1 c2 (fun w hw1 hw2 e => c3 ⟨w, hw1, hw2, e⟩)]
        exact hp

theorem validate_name_iff (name : String) :
    validate_name name = .error .SVN_ERR_BAD_CHANGELIST_NAME ↔ (name = "" ∨ '/' ∈ name.data) := by
  have he : name = "" ↔ name.data = [] := String.ext_iff
  unfold validate_name
  rw [he]
  by_cases h : name.data = [] ∨ '/' ∈ name.data
  · simp [h]
  · simp only [h, if_false, iff_false]
    intro hc
    cases hc

theorem validate_name_ok_iff (name : String) :
    validate_name name = .ok () ↔ ¬ (name = "" ∨ '/' ∈ name.data) := by
  have he : name = "" ↔ name.data = [] := String.ext_iff
  unfold validate_name
  rw [he]
  by_cases h : name.data = [] ∨ '/' ∈ name.data
  · simp only [h, if_true, not_true_eq_false, iff_false]
    intro hc
    cases hc
  · simp [h]

theorem shelf_open_absent (ctx : svn_client_ctx_t) (name local_abspath : String) (fs : fs_t)
    (root dir : String) (hname : ¬ (name = "" ∨ '/' ∈ name.data))
    (hroot : ctx.svn_client_get_wc_root local_abspath = .ok root)
    (hdir : ctx.svn_wc__get_shelves_dir local_abspath = .ok dir)
    (hcur : hash_gets fs (svn_dirent_join dir (name ++ ".current")) = none)
    (hlog : hash_gets fs (svn_dirent_join dir (name ++ ".log")) = none) :
    svn_client_shelf_open ctx name local_abspath fs
      = .ok { name := name, wc_root_abspath := root, shelves_dir := dir, revprops := [],
              max_version := 0 } := by
  have hval := (validate_name_ok_iff name).2 hname
  simp [svn_client_shelf_open, hval, hroot, hdir, shelf_read_revprops, get_log_abspath,
    log_abspath, svn_stream_open_readonly, hlog, shelf_read_current, get_current_abspath, hcur]

theorem shelf_delete_absent (ctx : svn_client_ctx_t) (name local_abspath : String)
    (dry_run : Bool) (fs : fs_t) (root dir : String) (hname : ¬ (name = "" ∨ '/' ∈ name.data))
    (hroot : ctx.svn_client_get_wc_root local_abspath = .ok root)
    (hdir : ctx.svn_wc__get_shelves_dir local_abspath = .ok dir)
    (hcur : hash_gets fs (svn_dirent_join dir (name ++ ".current")) = none)
    (hlog : hash_gets fs (svn_dirent_join dir (name ++ ".log")) = none) :
    svn_client_shelf_delete ctx name local_abspath dry_run fs = (.ok (), fs) := by
  have hval := (validate_name_ok_iff name).2 hname
  have hopen := shelf_open_absent ctx name local_abspath fs root dir hname hroot hdir hcur hlog
  have hlog' : hash_remove fs (svn_dirent_join dir (name ++ ".log")) = fs :=
    hash_remove_absent fs _ hlog
  have hcur' : hash_remove fs (svn_dirent_join dir (name ++ ".current")) = fs :=
    hash_remove_absent fs _ hcur
  simp [svn_client_shelf_delete, hval, hopen, delete_patch_files_above, get_log_abspath,
    log_abspath, get_current_abspath, remove_file2_ignore, svn_client_shelf_close, hlog', hcur']

theorem shelf_open_error (ctx : svn_client_ctx_t) (name local_abspath : String) (fs : fs_t)
    (e : svn_error_t) (hname : ¬ (name = "" ∨ '/' ∈ name.data))
    (h : svn_client_shelf_open ctx name local_abspath fs = .error e) :
    ctx.svn_client_get_wc_root local_abspath = .error e ∨
      ctx.svn_wc__get_shelves_dir local_abspath = .error e ∨
      ∃ content, ctx.svn_hash_read2 content = .error e := by
  have hval := (validate_name_ok_iff name).2 hname
  simp only [svn_client_shelf_open, hval] at h
  split at h
  · rename_i e' hroot
    cases h
    exact Or.inl hroot
  · split at h
    · rename_i e' hdir
      cases h
      exact Or.inr (Or.inl hdir)
    · split at h
      · rename_i e' hrev
        cases h
        right; right
        simp only [shelf_read_revprops, get_log_abspath, svn_stream_open_readonly] at hrev
        split at hrev
        · rename_i e'' hop
          split at hop
          · cases hop
          · cases hop
            simp at hrev
        · split at hrev
          · rename_i hread
            cases hrev
            exact ⟨_, hread⟩
          · cases hrev
      · simp only [shelf_read_current] at h
        split at h
        · cases h
        · split at h
          · cases h
          · cases h

theorem shelf_open_palloc (ctx : svn_client_ctx_t) (name local_abspath : String) (fs : fs_t)
    (dir : String) (g : Int)
    (hdir : ctx.svn_wc__get_shelves_dir local_abspath = .ok dir)
    (hp : hash_gets fs (svn_dirent_join dir (name ++ ".current")) = none ∨
      ∃ f v, hash_gets fs (svn_dirent_join dir (name ++ ".current")) = some f ∧
        scanf_d f.content = some v) :
    svn_client_shelf_open { ctx with palloc_max_version := g } name local_abspath fs
      = svn_client_shelf_open ctx name local_abspath fs := by
  simp only [svn_client_shelf_open, hdir]
  cases validate_name name with
  | error e => rfl
  | ok u =>
    cases ctx.svn_client_get_wc_root local_abspath with
    | error e => rfl
    | ok root =>
      simp only [shelf_read_revprops, get_log_abspath, svn_stream_open_readonly, log_abspath,
        svn_dirent_join]
      have hcur : ∀ (props : List (String × String)) (m : Int),
          shelf_read_current (⟨name, root, dir, props, m⟩ : svn_client_shelf_t) fs
          = shelf_read_current (⟨name, root, dir, props, 0⟩ : svn_client_shelf_t) fs := by
        intro props m
        simp only [shelf_read_current, get_current_abspath]
        rcases hp with hp | ⟨f, v, hf, hv⟩
        · rw [hp]
        · rw [hf]
          simp only [hv]
      cases hash_gets fs ⟨dir, name ++ ".log"⟩ with
      | none =>
        simp only [if_true]
        rw [hcur [] g, hcur [] ctx.palloc_max_version]
      | some f =>
        simp only
        cases ctx.svn_hash_read2 f.content with
        | error e => rfl
        | ok props =>
          simp only
          rw [hcur props g, hcur props ctx.palloc_max_version]

/-! ## Facts about the revprops -/

theorem revprop_set_spec (ctx : svn_client_ctx_t) (shelf : svn_client_shelf_t)
    (prop_name prop_val : String) (fs : fs_t) :
    ∃ fs', svn_client__shelf_revprop_set ctx shelf prop_name prop_val fs
        = (.ok (), { shelf with revprops := hash_sets shelf.revprops prop_name prop_val }, fs') ∧
      hash_gets fs' (log_abspath shelf)
        = some ⟨ctx.svn_hash_write2 (hash_sets shelf.revprops prop_name prop_val), ctx.now⟩ ∧
      (∀ q, q ≠ log_abspath shelf → hash_gets fs' q = hash_gets fs q) := by
  have hlog : log_abspath { shelf with
      revprops := hash_sets shelf.revprops prop_name prop_val } = log_abspath shelf := rfl
  have hopen : hash_gets (file_open_truncate ctx.now (log_abspath shelf) fs) (log_abspath shelf)
      = some ⟨"", ctx.now⟩ := by
    simp [gets_file_open_truncate]
  refine ⟨file_append ctx.now (log_abspath shelf)
    (ctx.svn_hash_write2 (hash_sets shelf.revprops prop_name prop_val))
    (file_open_truncate ctx.now (log_abspath shelf) fs), ?_, ?_, ?_⟩
  · simp [svn_client__shelf_revprop_set, shelf_write_revprops, get_log_abspath, hlog]
  · rw [gets_file_append_self _ _ _ _ _ hopen]
    simp
  · intro q hq
    rw [gets_file_append_ne _ _ _ _ _ hq, gets_file_open_truncate, if_neg hq]

theorem set_log_message_stores (ctx : svn_client_ctx_t) (shelf : svn_client_shelf_t)
    (fs : fs_t) (message : String)
    (h : ctx.log_msg_func = some (.ok (some message)) ∨
      (ctx.log_msg_func = none ∧ message = "")) :
    svn_client_shelf_set_log_message ctx shelf false fs
      = svn_client__shelf_revprop_set ctx shelf "svn:log" message fs := by
  rcases h with h | ⟨h, hm⟩
  · simp [svn_client_shelf_set_log_message, h]
  · simp [svn_client_shelf_set_log_message, h, hm]

theorem set_log_message_dry_run (ctx : svn_client_ctx_t) (shelf : svn_client_shelf_t)
    (fs : fs_t) :
    (svn_client_shelf_set_log_message ctx shelf true fs).2 = (shelf, fs) ∧
    ((∀ e, ctx.log_msg_func ≠ some (.error e)) →
      svn_client_shelf_set_log_message ctx shelf true fs = (.ok (), shelf, fs)) := by
  unfold svn_client_shelf_set_log_message
  cases ctx.log_msg_func with
  | none => simp
  | some r =>
    cases r with
    | error e => simp
    | ok m =>
      cases m <;> simp

theorem printf_03d_three_digits (n : Nat) (h : n < 1000) :
    printf_03d (n : Int) = String.mk [Nat.digitChar (n / 100), Nat.digitChar (n / 10 % 10),
      Nat.digitChar (n % 10)] := by
  have hneg : ¬ ((n : Int) < 0) := by omega
  have hone : ∀ m : Nat, m < 10 → Nat.toDigits 10 m = [Nat.digitChar m] := by
    intro m hm
    rw [toDigits_rec, if_pos hm]
  simp only [printf_03d, hneg, if_false, Int.toNat_ofNat, zero_pad, Nat.repr, List.asString]
  apply String.ext_iff.2
  simp only [String.data_append, String.length]
  by_cases h10 : n < 10
  · have e1 : n / 100 = 0 := by omega
    have e2 : n / 10 % 10 = 0 := by omega
    have e3 : n % 10 = n := by omega
    rw [hone n h10, e1, e2, e3]
    rfl
  · by_cases h100 : n < 100
    · have e1 : n / 100 = 0 := by omega
      have e2 : n / 10 % 10 = n / 10 := by omega
      rw [toDigits_rec n, if_neg h10, hone (n / 10) (by omega), e1, e2]
      rfl
    · have h3 : ¬ n / 10 < 10 := by omega
      have e1 : n / 10 / 10 = n / 100 := by omega
      rw [toDigits_rec n, if_neg h10, toDigits_rec (n / 10), if_neg h3, e1,
        hone (n / 100) (by omega)]
      rfl

theorem hash_sets_keys_nodup {κ β : Type} [DecidableEq κ] (h : List (κ × β)) (key : κ)
    (v : β) (hn : (h.map Prod.fst).Nodup) : ((hash_sets h key v).map Prod.fst).Nodup := by
  simp only [hash_sets, hash_remove, List.map_cons, List.nodup_cons]
  refine ⟨?_, ?_⟩
  · intro hmem
    obtain ⟨e, he, hk⟩ := List.mem_map.1 hmem
    have := (List.mem_filter.1 he).2
    simp only [ne_eq, decide_not, Bool.not_eq_true', decide_eq_false_iff_not] at this
    exact this hk
  · exact List.Nodup.sublist (List.Sublist.map _ (List.filter_sublist _)) hn

theorem shelves_list_entry_cases (infos : List (String × svn_client_shelf_info_t))
    (filename : String) (dirent : svn_io_dirent2_t) (hne : filename ≠ "current") :
    (∃ n, filename = n ++ ".current" ∧
      shelves_list_entry infos filename dirent = some (hash_sets infos n ⟨dirent.mtime⟩)) ∨
    ((∀ n : String, filename ≠ n ++ ".current") ∧
      shelves_list_entry infos filename dirent = some infos) := by
  have hshort : filename.length < 8 → ∀ n : String, filename ≠ n ++ ".current" := by
    intro hlt n e
    have := pointer_entry_length n
    rw [← e] at this
    omega
  by_cases h6 : filename.length > 6
  · by_cases h8 : 8 ≤ filename.length
    · have hoff : (shelves_list_offset filename.length).toNat = filename.length - 8 := by
        unfold shelves_list_offset
        omega
      have hcmp : strcmp_at_eq filename (shelves_list_offset filename.length) ".current"
          = some (decide (String.mk (filename.data.drop (filename.length - 8)) = ".current")) := by
        have h1 : 0 ≤ shelves_list_offset filename.length := by
          unfold shelves_list_offset
          omega
        have h2 : shelves_list_offset filename.length ≤ filename.length := by
          unfold shelves_list_offset
          omega
        simp only [strcmp_at_eq, h1, h2, if_true, hoff]
      by_cases hs : String.mk (filename.data.drop (filename.length - 8)) = ".current"
      · left
        refine ⟨apr_pstrndup filename (filename.length - 8), ?_, ?_⟩
        · exact (pointer_entry_iff filename _).2 ⟨hs, rfl⟩
        · simp only [shelves_list_entry, h6, if_true, hcmp, hs, decide_True, hoff]
      · right
        refine ⟨?_, ?_⟩
        · intro n e
          exact hs ((pointer_entry_iff filename n).1 e).1
        · simp only [shelves_list_entry, h6, if_true, hcmp, hs, decide_False]
    · right
      have hoff : shelves_list_offset filename.length = -1 := by
        unfold shelves_list_offset
        omega
      have hcmp : strcmp_at_eq filename (shelves_list_offset filename.length) ".current"
          = some false := by
        have htail : ¬ (".current".data ≠ [] ∧ ".current".data.tail = filename.data) := by
          rintro ⟨_, e⟩
          exact hne (String.ext_iff.2 e.symm)
        rw [hoff]
        simp only [strcmp_at_eq, htail, if_false]
        rfl
      exact ⟨hshort (by omega), by simp only [shelves_list_entry, h6, if_true, hcmp]⟩
  · right
    exact ⟨hshort (by omega), by simp only [shelves_list_entry, h6, if_false]⟩

theorem shelves_list_entries_records :
    ∀ (dirents : List (String × svn_io_dirent2_t))
      (infos : List (String × svn_client_shelf_info_t)),
      (∀ e ∈ dirents, e.1 ≠ "current") → (dirents.map Prod.fst).Nodup →
      ∃ infos', shelves_list_entries dirents infos = some infos' ∧
        ((infos.map Prod.fst).Nodup → (infos'.map Prod.fst).Nodup) ∧
        (∀ n d, (n ++ ".current", d) ∈ dirents → hash_gets infos' n = some ⟨d.mtime⟩) ∧
        (∀ n, (∀ d, (n ++ ".current", d) ∉ dirents) → hash_gets infos' n = hash_gets infos n) := by
  intro dirents
  induction dirents with
  | nil =>
    intro infos _ _
    exact ⟨infos, rfl, id, fun n d h => absurd h (List.not_mem_nil _), fun _ _ => rfl⟩
  | cons hd rest ih =>
    intro infos hne hnd
    obtain ⟨filename, dirent⟩ := hd
    simp only [List.map_cons, List.nodup_cons] at hnd
    obtain ⟨hnotin, hnd'⟩ := hnd
    have hrest : ∀ n d, filename = n ++ ".current" → (n ++ ".current", d) ∉ rest := by
      intro n d e hmem
      apply hnotin
      rw [e]
      exact List.mem_map.2 ⟨_, hmem, rfl⟩
    rcases shelves_list_entry_cases infos filename dirent
      (hne (filename, dirent) (List.mem_cons_self _ _)) with ⟨n0, e0, hstep⟩ | ⟨hno, hstep⟩
    · obtain ⟨infos', k1, k2, k3, k4⟩ := ih (hash_sets infos n0 ⟨dirent.mtime⟩)
        (fun e he => hne e (List.mem_cons_of_mem _ he)) hnd'
      refine ⟨infos', ?_, ?_, ?_, ?_⟩
      · simp only [shelves_list_entries, hstep]
        exact k1
      · intro hn
        exact k2 (hash_sets_keys_nodup infos n0 _ hn)
      · intro n d hmem
        rcases List.mem_cons.1 hmem with heq | hmem
        · simp only [Prod.mk.injEq] at heq
          obtain ⟨hf, hd⟩ := heq
          have hn : n = n0 := suffix_inj n n0 ".current" (by rw [hf, e0])
          subst hn
          rw [k4 n (fun d' => hrest n d' e0), hash_gets_sets, if_pos rfl, hd]
        · exact k3 n d hmem
      · intro n hn
        have hn0 : n ≠ n0 := by
          intro e
          subst e
          exact hn dirent (by rw [← e0]; exact List.mem_cons_self _ _)
        rw [k4 n (fun d hmem => hn d (List.mem_cons_of_mem _ hmem)), hash_gets_sets, if_neg hn0]
    · obtain ⟨infos', k1, k2, k3, k4⟩ := ih infos
        (fun e he => hne e (List.mem_cons_of_mem _ he)) hnd'
      refine ⟨infos', ?_, k2, ?_, ?_⟩
      · simp only [shelves_list_entries, hstep]
        exact k1
      · intro n d hmem
        rcases List.mem_cons.1 hmem with heq | hmem
        · simp only [Prod.mk.injEq] at heq
          exact absurd heq.1.symm (hno n)
        · exact k3 n d hmem
      · intro n hn
        exact k4 n (fun d hmem => hn d (List.mem_cons_of_mem _ hmem))

theorem shelf_open_revprops (ctx : svn_client_ctx_t) (name local_abspath : String) (fs : fs_t)
    (root dir : String) (f : file_t) (props : List (String × String))
    (hname : validate_name name = .ok ())
    (hroot : ctx.svn_client_get_wc_root local_abspath = .ok root)
    (hdir : ctx.svn_wc__get_shelves_dir local_abspath = .ok dir)
    (hlog : hash_gets fs (svn_dirent_join dir (name ++ ".log")) = some f)
    (hread : ctx.svn_hash_read2 f.content = .ok props) :
    ∃ shelf, svn_client_shelf_open ctx name local_abspath fs = .ok shelf ∧
      shelf.revprops = props ∧ shelf.name = name ∧ shelf.shelves_dir = dir := by
  have hrev : shelf_read_revprops ctx (⟨name, root, dir, [], ctx.palloc_max_version⟩ :
      svn_client_shelf_t) fs = .ok ⟨name, root, dir, props, ctx.palloc_max_version⟩ := by
    simp [shelf_read_revprops, get_log_abspath, log_abspath, svn_stream_open_readonly, hlog,
      hread]
  simp only [svn_client_shelf_open, hname, hroot, hdir, hrev, shelf_read_current]
  split
  · exact ⟨_, rfl, rfl, rfl, rfl⟩
  · split
    · exact ⟨_, rfl, rfl, rfl, rfl⟩
    · exact ⟨_, rfl, rfl, rfl, rfl⟩

/-! ## Facts about reading the pointer file -/

theorem digit_toNat (c : Char) (h : '0' ≤ c ∧ c ≤ '9') : 48 ≤ c.toNat ∧ c.toNat ≤ 57 := by
  obtain ⟨h1, h2⟩ := h
  have a1 : ('0' : Char).toNat ≤ c.toNat := h1
  have a2 : c.toNat ≤ ('9' : Char).toNat := h2
  exact ⟨a1, a2⟩

theorem digit_not_space (c : Char) (h : '0' ≤ c ∧ c ≤ '9') : c_isspace c = false := by
  have ht := digit_toNat c h
  have hne : ∀ d : Char, d.toNat < 48 → c ≠ d := by
    intro d hd e
    rw [e] at ht
    omega
  simp only [c_isspace, Bool.or_eq_false_iff, decide_eq_false_iff_not]
  exact ⟨⟨⟨⟨⟨hne _ (by decide), hne _ (by decide)⟩, hne _ (by decide)⟩, hne _ (by decide)⟩,
    by omega⟩, by omega⟩

theorem scan_digits_value :
    ∀ (l : List Char) (acc : Nat), (∀ x ∈ l, '0' ≤ x ∧ x ≤ '9') →
      scan_digits l acc = l.foldl (fun a c => a * 10 + (c.toNat - 48)) acc := by
  intro l
  induction l with
  | nil => intro acc _; rfl
  | cons c cs ih =>
    intro acc h
    have hc := h c (List.mem_cons_self _ _)
    have hd : c_isdigit c = true := by simp [c_isdigit, hc.1, hc.2]
    simp only [scan_digits, hd, if_true, List.foldl_cons]
    exact ih _ (fun x hx => h x (List.mem_cons_of_mem _ hx))

theorem scanf_d_digits (c : Char) (cs : List Char) (h : ∀ x ∈ c :: cs, '0' ≤ x ∧ x ≤ '9') :
    scanf_d (String.mk (c :: cs)) = some (int_wrap (dec_value (c :: cs))) := by
  have hc := h c (List.mem_cons_self _ _)
  have ht := digit_toNat c hc
  have hd : c_isdigit c = true := by simp [c_isdigit, hc.1, hc.2]
  have hdrop : List.dropWhile c_isspace (c :: cs) = c :: cs := by
    simp [List.dropWhile, digit_not_space c hc]
  have hval : scan_digits (c :: cs) 0 = dec_value (c :: cs) := scan_digits_value _ 0 h
  simp only [scanf_d, hdrop]
  split
  · rename_i r heq
    simp only [List.cons.injEq] at heq
    rw [heq.1] at ht
    exact absurd ht (by decide)
  · rename_i r heq
    simp only [List.cons.injEq] at heq
    rw [heq.1] at ht
    exact absurd ht (by decide)
  · simp [starts_with_digit, hd, hval]

theorem scanf_d_repr (n : Nat) : scanf_d (Nat.repr n) = some (int_wrap n) := by
  have hdig := toDigits_isdigit n
  have hval := dec_value_toDigits n
  have hrepr : Nat.repr n = String.mk (Nat.toDigits 10 n) := rfl
  rw [hrepr]
  cases hl : Nat.toDigits 10 n with
  | nil =>
    have hrec := toDigits_rec n
    rw [hl] at hrec
    split at hrec <;> simp at hrec
  | cons c cs =>
    rw [hl] at hdig hval
    rw [scanf_d_digits c cs hdig, hval]

theorem printf_d_nonneg (v : Int) (h : 0 ≤ v) : printf_d v = Nat.repr v.toNat := by
  have hv : ¬ v < 0 := by omega
  simp [printf_d, hv]

theorem scanf_d_printf_d (v : Int) (h0 : 0 ≤ v) (h1 : v ≤ INT_MAX) :
    scanf_d (printf_d v) = some v := by
  rw [printf_d_nonneg v h0, scanf_d_repr]
  have hv : ((v.toNat : Nat) : Int) = v := by omega
  rw [hv, int_wrap_in_range v (by unfold INT_MIN; omega) h1]

theorem shelf_open_max_version (ctx : svn_client_ctx_t) (name local_abspath : String)
    (fs : fs_t) (shelf : svn_client_shelf_t) (f : file_t) (v : Int)
    (hopen : svn_client_shelf_open ctx name local_abspath fs = .ok shelf)
    (hf : hash_gets fs (get_current_abspath shelf) = some f)
    (hv : scanf_d f.content = some v) : shelf.max_version = v := by
  unfold svn_client_shelf_open at hopen
  split at hopen
  · cases hopen
  · split at hopen
    · cases hopen
    · split at hopen
      · cases hopen
      · simp only at hopen
        split at hopen
        · cases hopen
        · rename_i shelf1 hrev
          obtain ⟨b1, b2, _, _, _⟩ := shelf_read_current_frame _ _ fs hopen
          have hcur : get_current_abspath shelf1 = get_current_abspath shelf := by
            simp only [get_current_abspath, b1, b2]
          simp only [shelf_read_current, hcur, hf, hv] at hopen
          cases hopen
          rfl

theorem shelf_open_succeeds (ctx : svn_client_ctx_t) (name local_abspath : String) (fs : fs_t)
    (root dir : String) (hname : validate_name name = .ok ())
    (hroot : ctx.svn_client_get_wc_root local_abspath = .ok root)
    (hdir : ctx.svn_wc__get_shelves_dir local_abspath = .ok dir)
    (hlog : ∀ f, hash_gets fs (svn_dirent_join dir (name ++ ".log")) = some f →
      ∃ props, ctx.svn_hash_read2 f.content = .ok props) :
    ∃ shelf, svn_client_shelf_open ctx name local_abspath fs = .ok shelf := by
  cases hl : hash_gets fs (svn_dirent_join dir (name ++ ".log")) with
  | some f =>
    obtain ⟨props, hp⟩ := hlog f hl
    obtain ⟨shelf, h, _⟩ := shelf_open_revprops ctx name local_abspath fs root dir f props
      hname hroot hdir hl hp
    exact ⟨shelf, h⟩
  | none =>
    have hrev : shelf_read_revprops ctx (⟨name, root, dir, [], ctx.palloc_max_version⟩ :
        svn_client_shelf_t) fs = .ok ⟨name, root, dir, [], ctx.palloc_max_version⟩ := by
      simp [shelf_read_revprops, get_log_abspath, log_abspath, svn_stream_open_readonly, hl]
    simp only [svn_client_shelf_open, hname, hroot, hdir, hrev, shelf_read_current]
    split
    · exact ⟨_, rfl⟩
    · split
      · exact ⟨_, rfl⟩
      · exact ⟨_, rfl⟩

theorem write_patch_targets_fails (ctx : svn_client_ctx_t) (p : abspath_t) (depth : Int)
    (changelists : List String) (wc_root_abspath : String) (bad : String) (post : List String)
    (e : svn_error_t) (written : String)
    (hbad : target_fails ctx wc_root_abspath depth changelists bad e written) :
    ∀ (pre outs : List String) (fs : fs_t) (content : String),
      List.Forall₂ (diff_succeeds ctx wc_root_abspath depth changelists) pre outs →
      hash_gets fs p = some ⟨content, ctx.now⟩ →
      ∃ fs', write_patch_targets ctx p depth changelists wc_root_abspath (pre ++ bad :: post) fs
          = (.error e, fs') ∧
        hash_gets fs' p = some ⟨content ++ String.join outs ++ written, ctx.now⟩ ∧
        (∀ q, q ≠ p → hash_gets fs' q = hash_gets fs q) := by
  intro pre
  induction pre with
  | nil =>
    intro outs fs content hd hf
    cases hd
    rcases hbad with ⟨hu, he, hw⟩ | ⟨hu, ha, hw⟩ | ⟨hu, abs, ha, hdiff⟩
    · refine ⟨fs, ?_, ?_, fun _ _ => rfl⟩
      · simp [write_patch_targets, hu, he]
      · simpa [String.join, hw] using hf
    · refine ⟨fs, ?_, ?_, fun _ _ => rfl⟩
      · simp [write_patch_targets, hu, ha]
      · simpa [String.join, hw] using hf
    · refine ⟨file_append ctx.now p written fs, ?_, ?_, ?_⟩
      · simp [write_patch_targets, hu, ha, hdiff]
      · rw [gets_file_append_self _ _ _ _ _ hf]
        simp [String.join]
      · intro q hq
        exact gets_file_append_ne _ _ _ _ _ hq
  | cons path rest ih =>
    intro outs fs content hd hf
    cases hd with
    | cons h1 h2 =>
      rename_i out outs'
      obtain ⟨hurl, abs, habs, hdiff⟩ := h1
      have hf1 := gets_file_append_self ctx.now p out fs _ hf
      obtain ⟨fs', e1, e2, e3⟩ := ih outs' (file_append ctx.now p out fs) (content ++ out) h2 hf1
      refine ⟨fs', ?_, ?_, ?_⟩
      · simp only [List.cons_append, write_patch_targets, hurl, habs, hdiff]
        simpa using e1
      · rw [e2, join_cons]
        simp only [String.append_assoc]
      · intro q hq
        rw [e3 q hq, gets_file_append_ne _ _ _ _ _ hq]

theorem delete_above_fails_spec (shelf : svn_client_shelf_t) (bound : Int) (hb : bound < 0) :
    ∀ (n : Nat) (i : Int) (fs : fs_t), 0 ≤ i → i ≤ shelf.max_version →
      n = (i - bound).toNat →
      ∃ fs', delete_patch_files_above shelf bound n i fs
          = (.error .SVN_ERR_CLIENT_BAD_REVISION, fs') ∧
        (∀ w, 1 ≤ w → w ≤ i → hash_gets fs' (patch_abspath shelf w) = none) ∧
        (∀ p, (∀ w, 1 ≤ w → w ≤ i → p ≠ patch_abspath shelf w) →
          hash_gets fs' p = hash_gets fs p) := by
  intro n
  induction n with
  | zero =>
    intro i fs h0 _ hn
    omega
  | succ n ih =>
    intro i fs h0 hi hn
    have hgt : i > bound := by omega
    by_cases hz : i = 0
    · refine ⟨fs, ?_, ?_, fun _ _ => rfl⟩
      · have hdel : shelf_delete_patch_file shelf i fs
            = (.error .SVN_ERR_CLIENT_BAD_REVISION, fs) := by
          unfold shelf_delete_patch_file get_existing_patch_abspath
          by_cases hm : shelf.max_version ≤ 0
          · simp [hm]
          · simp [hm, hz]
        simp only [delete_patch_files_above, hgt, if_true, hdel]
      · intro w h1 h2
        omega
    · have hm : ¬ shelf.max_version ≤ 0 := by omega
      have hv : ¬ (i ≤ 0 ∨ i > shelf.max_version) := by omega
      have hdel : shelf_delete_patch_file shelf i fs
          = (.ok (), hash_remove fs (patch_abspath shelf i)) := by
        simp [shelf_delete_patch_file, get_existing_patch_abspath, hm, hv, get_patch_abspath,
          remove_file2_ignore]
      obtain ⟨fs', k1, k2, k3⟩ := ih (i - 1) (hash_remove fs (patch_abspath shelf i))
        (by omega) (by omega) (by omega)
      refine ⟨fs', ?_, ?_, ?_⟩
      · simp only [delete_patch_files_above, hgt, if_true, hdel]
        exact k1
      · intro w hw1 hw2
        by_cases hwi : w = i
        · subst hwi
          rw [k3]
          · simp [hash_gets_remove]
          · intro w' hw1' hw2'
            exact patch_abspath_ne_of_version shelf w w' (by omega) (by omega) (by omega)
        · exact k2 w hw1 (by omega)
      · intro p hp
        rw [k3 p (fun w hw1 hw2 => hp w hw1 (by omega)), hash_gets_remove]
        simp [hp i (by omega) (le_refl i)]

theorem toDigits_length_pos (n : Nat) : 1 ≤ (Nat.toDigits 10 n).length := by
  rw [toDigits_rec]
  split <;> simp

theorem toDigits_length_step (n : Nat) (h : 10 ≤ n) :
    (Nat.toDigits 10 n).length = (Nat.toDigits 10 (n / 10)).length + 1 := by
  rw [toDigits_rec n, if_neg (by omega)]
  simp

theorem printf_03d_long (v : Int) (h : 999 < v) : 3 < (printf_03d v).length := by
  have hneg : ¬ v < 0 := by omega
  have h1 := toDigits_length_step v.toNat (by omega)
  have h2 := toDigits_length_step (v.toNat / 10) (by omega)
  have h3 := toDigits_length_step (v.toNat / 10 / 10) (by omega)
  have h4 := toDigits_length_pos (v.toNat / 10 / 10 / 10)
  have hlen : (printf_03d v).length
      = (3 - (Nat.toDigits 10 v.toNat).length) + (Nat.toDigits 10 v.toNat).length := by
    simp only [printf_03d, hneg, if_false, zero_pad, Nat.repr, List.asString,
      String.length_append]
    simp only [String.length, List.length_replicate]
  omega

/-! ## Facts about the listing as a machine runs it -/

theorem shelves_list_entry_mem_eq (before : Char)
    (infos : List (String × svn_client_shelf_info_t)) (filename : String)
    (dirent : svn_io_dirent2_t) (hne : filename ≠ "current") :
    shelves_list_entry_mem before infos filename dirent
      = shelves_list_entry infos filename dirent := by
  by_cases h6 : filename.length > 6
  · by_cases h8 : 8 ≤ filename.length
    · have hoff : shelves_list_offset filename.length ≠ -1 := by
        unfold shelves_list_offset
        omega
      have hsz : size_t_sub filename.length 8 = (shelves_list_offset filename.length).toNat := by
        unfold size_t_sub shelves_list_offset
        rw [if_pos h8]
        omega
      simp only [shelves_list_entry_mem, shelves_list_entry, strcmp_at_eq_mem, hoff, if_false,
        hsz]
    · have hoff : shelves_list_offset filename.length = -1 := by
        unfold shelves_list_offset
        omega
      have hcmp : strcmp_at_eq filename (-1) ".current" = some false := by
        have htail : ¬ (".current".data ≠ [] ∧ ".current".data.tail = filename.data) := by
          rintro ⟨_, e⟩
          exact hne (String.ext_iff.2 e.symm)
        simp only [strcmp_at_eq, htail, if_false]
        rfl
      have hmem : decide (before :: filename.data = ".current".data) = false := by
        rw [decide_eq_false_iff_not]
        intro e
        apply hne
        apply String.ext_iff.2
        have hd : ".current".data = '.' :: "current".data := rfl
        rw [hd] at e
        exact (List.cons.inj e).2
      simp only [shelves_list_entry_mem, shelves_list_entry, h6, if_true, hoff, strcmp_at_eq_mem,
        hmem, hcmp]
  · simp only [shelves_list_entry_mem, shelves_list_entry, h6, if_false]

theorem shelves_list_entries_mem_eq (before : String → Char) :
    ∀ (dirents : List (String × svn_io_dirent2_t))
      (infos : List (String × svn_client_shelf_info_t)),
      (∀ e ∈ dirents, e.1 ≠ "current") →
      shelves_list_entries_mem before dirents infos = shelves_list_entries dirents infos := by
  intro dirents
  induction dirents with
  | nil =>
    intro infos _
    rfl
  | cons d rest ih =>
    intro infos hne
    obtain ⟨filename, dirent⟩ := d
    simp only [shelves_list_entries_mem, shelves_list_entries]
    rw [shelves_list_entry_mem_eq (before filename) infos filename dirent
      (hne (filename, dirent) (List.mem_cons_self _ _))]
    cases shelves_list_entry infos filename dirent with
    | none => rfl
    | some infos1 => exact ih infos1 (fun e he => hne e (List.mem_cons_of_mem _ he))

theorem shelves_list_mem_of_determined (ctx : svn_client_ctx_t) (local_abspath : String)
    (fs : fs_t) (infos : List (String × svn_client_shelf_info_t))
    (h : svn_client_shelves_list ctx local_abspath fs = .ok (some infos))
    (before : String → Char) :
    svn_client_shelves_list_mem before ctx local_abspath fs = .ok (some infos) := by
  unfold svn_client_shelves_list at h
  unfold svn_client_shelves_list_mem
  split at h
  · cases h
  · split at h
    · cases h
    · simp only [Except.ok.injEq] at h
      have hdet := shelves_list_entries_determined _ _ _ h
      simp only [shelves_list_entries_mem_eq before _ [] hdet, h]

/-! ## The claims -/

/-- C1: the version check `get_existing_patch_abspath`, shared by `get_paths`,
`has_changes`, `apply`, `unapply`, `export_patch` and `version_get_info`,
fails with the bad-version error exactly when `version < 1` or
`version > max_version` (hence always when `max_version` is 0); otherwise it
succeeds with the patch path of that very version. Each of the six callers
fails with the same error whenever the check does. -/
theorem C1_version_check (ctx : svn_client_ctx_t) (shelf : svn_client_shelf_t) (version : Int)
    (dry_run : Bool) (fs : fs_t) :
    (get_existing_patch_abspath shelf version = .error .SVN_ERR_CLIENT_BAD_REVISION ↔
      (version < 1 ∨ version > shelf.max_version)) ∧
    (get_existing_patch_abspath shelf version = .ok (patch_abspath shelf version) ↔
      ¬ (version < 1 ∨ version > shelf.max_version)) ∧
    (shelf.max_version = 0 →
      get_existing_patch_abspath shelf version = .error .SVN_ERR_CLIENT_BAD_REVISION) ∧
    ((version < 1 ∨ version > shelf.max_version) →
      svn_client_shelf_get_paths ctx shelf version fs = .error .SVN_ERR_CLIENT_BAD_REVISION ∧
      svn_client_shelf_has_changes ctx shelf version fs = .error .SVN_ERR_CLIENT_BAD_REVISION ∧
      svn_client_shelf_apply ctx shelf version dry_run fs
        = .error .SVN_ERR_CLIENT_BAD_REVISION ∧
      svn_client_shelf_unapply ctx shelf version dry_run fs
        = .error .SVN_ERR_CLIENT_BAD_REVISION ∧
      svn_client_shelf_export_patch shelf version fs = .error .SVN_ERR_CLIENT_BAD_REVISION ∧
      svn_client_shelf_version_get_info shelf version fs
        = .error .SVN_ERR_CLIENT_BAD_REVISION) := by
  have key : (version < 1 ∨ version > shelf.max_version) →
      get_existing_patch_abspath shelf version = .error .SVN_ERR_CLIENT_BAD_REVISION := by
    intro h
    unfold get_existing_patch_abspath
    by_cases hm : shelf.max_version ≤ 0
    · simp [hm]
    · have : version ≤ 0 ∨ version > shelf.max_version := by omega
      simp [hm, this]
  have key2 : ¬ (version < 1 ∨ version > shelf.max_version) →
      get_existing_patch_abspath shelf version = .ok (patch_abspath shelf version) := by
    intro h
    have hm : ¬ shelf.max_version ≤ 0 := by omega
    have hv : ¬ (version ≤ 0 ∨ version > shelf.max_version) := by omega
    simp [get_existing_patch_abspath, hm, hv, get_patch_abspath]
  refine ⟨⟨fun h => ?_, key⟩, ⟨fun h => ?_, key2⟩, fun h => key (by omega), fun h => ?_⟩
  · by_contra hn
    rw [key2 hn] at h
    cases h
  · intro hn
    rw [key hn] at h
    cases h
  · have e := key h
    simp [svn_client_shelf_get_paths, svn_client_shelf_has_changes, svn_client_shelf_apply,
      svn_client_shelf_unapply, svn_client_shelf_export_patch,
      svn_client_shelf_version_get_info, e]

/-- C2, as stated, fails for a negative argument: on a shelf with one version,
`set_current_version(-1)` has `-1 < max_version`, yet it returns the
bad-version error and `max_version` is still 1, not -1; and `get_paths` on
version 1, whose patch file the call has removed, then fails because the file
is missing, not with the bad-version error. -/
theorem C2_counterexample :
    (-1 : Int) < example_shelf.max_version ∧
    (svn_client_shelf_set_current_version example_ctx example_shelf (-1) example_fs).1
      = .error .SVN_ERR_CLIENT_BAD_REVISION ∧
    (svn_client_shelf_set_current_version example_ctx example_shelf (-1)
      example_fs).2.1.max_version = 1 ∧
    svn_client_shelf_get_paths example_ctx
      (svn_client_shelf_set_current_version example_ctx example_shelf (-1) example_fs).2.1 1
      (svn_client_shelf_set_current_version example_ctx example_shelf (-1) example_fs).2.2
      = .error .APR_ENOENT := by
  decide

/-- C2 (amended): for every shelf and every `v` with `0 ≤ v < max_version`,
`set_current_version(v)` succeeds, removes the patch file of every version in
`v+1..max_version`, leaves the patch files of versions `1..v` untouched, sets
`max_version = v`, and afterwards `get_paths` on any removed version fails
with the bad-version error. -/
theorem C2_rollback (ctx : svn_client_ctx_t) (shelf : svn_client_shelf_t) (v : Int)
    (fs : fs_t) (h0 : 0 ≤ v) (_hv : v < shelf.max_version) :
    ∃ shelf' fs', svn_client_shelf_set_current_version ctx shelf v fs = (.ok (), shelf', fs') ∧
      shelf'.max_version = v ∧
      (∀ w, v < w → w ≤ shelf.max_version → hash_gets fs' (patch_abspath shelf w) = none) ∧
      (∀ w, 1 ≤ w → w ≤ v →
        hash_gets fs' (patch_abspath shelf w) = hash_gets fs (patch_abspath shelf w)) ∧
      (∀ w, v < w → w ≤ shelf.max_version →
        svn_client_shelf_get_paths ctx shelf' w fs' = .error .SVN_ERR_CLIENT_BAD_REVISION) := by
  obtain ⟨fs', h1, _, h3, h4⟩ := set_current_version_spec ctx shelf v fs (Or.inl h0)
  refine ⟨{ shelf with max_version := v }, fs', h1, rfl, h3, ?_, ?_⟩
  · intro w hw1 hw2
    apply h4
    · exact patch_abspath_ne_current shelf shelf w
    · intro w' hw1' hw2'
      exact patch_abspath_ne_of_version shelf w w' (by omega) (by omega) (by omega)
  · intro w hw1 hw2
    unfold svn_client_shelf_get_paths get_existing_patch_abspath
    by_cases hm : v ≤ 0
    · simp [hm]
    · have : w ≤ 0 ∨ w > v := Or.inr hw1
      simp [hm, this]

/-- C2 (amended) at the shelf `foo` with one version, rolled back to 0. -/
theorem C2_rollback_witness :
    ∃ shelf' fs', svn_client_shelf_set_current_version example_ctx example_shelf 0 example_fs
        = (.ok (), shelf', fs') ∧
      shelf'.max_version = 0 ∧
      (∀ w, 0 < w → w ≤ example_shelf.max_version →
        hash_gets fs' (patch_abspath example_shelf w) = none) ∧
      (∀ w, 1 ≤ w → w ≤ 0 →
        hash_gets fs' (patch_abspath example_shelf w)
          = hash_gets example_fs (patch_abspath example_shelf w)) ∧
      (∀ w, 0 < w → w ≤ example_shelf.max_version →
        svn_client_shelf_get_paths example_ctx shelf' w fs'
          = .error .SVN_ERR_CLIENT_BAD_REVISION) :=
  C2_rollback example_ctx example_shelf 0 example_fs (by decide) (by decide)

/-- C4: for every shelf (with `max_version` an `int` below `INT_MAX`), when
the diff engine succeeds on every target and writes nothing at all,
`save_new_version` succeeds and leaves the handle (`max_version`, revprops),
the pointer file, the revprop file and the patch file of every version in
`1..max_version` unchanged; the only file it changes is the patch file of
version `max_version + 1`, which is left on disk with zero bytes. -/
theorem C4_save_empty (ctx : svn_client_ctx_t) (shelf : svn_client_shelf_t)
    (paths outs : List String) (depth : Int) (changelists : List String) (fs : fs_t)
    (hlo : INT_MIN ≤ shelf.max_version) (hmax : shelf.max_version < INT_MAX)
    (hdiff : List.Forall₂ (diff_succeeds ctx shelf.wc_root_abspath depth changelists) paths outs)
    (hempty : String.join outs = "") :
    ∃ fs', svn_client_shelf_save_new_version ctx shelf paths depth changelists fs
        = (.ok (), shelf, fs') ∧
      hash_gets fs' (patch_abspath shelf (shelf.max_version + 1)) = some ⟨"", ctx.now⟩ ∧
      (∀ p, p ≠ patch_abspath shelf (shelf.max_version + 1) →
        hash_gets fs' p = hash_gets fs p) ∧
      hash_gets fs' (get_current_abspath shelf) = hash_gets fs (get_current_abspath shelf) ∧
      hash_gets fs' (log_abspath shelf) = hash_gets fs (log_abspath shelf) ∧
      (∀ v, 1 ≤ v → v ≤ shelf.max_version →
        hash_gets fs' (patch_abspath shelf v) = hash_gets fs (patch_abspath shelf v)) := by
  have hw : int_wrap (shelf.max_version + 1) = shelf.max_version + 1 :=
    int_wrap_in_range _ (by omega) (by omega)
  obtain ⟨fs1, e1, e2, e3⟩ := write_patch_ok ctx (patch_abspath shelf (shelf.max_version + 1))
    depth changelists shelf.wc_root_abspath paths outs fs hdiff
  rw [hempty] at e2
  refine ⟨fs1, ?_, e2, e3, ?_, ?_, ?_⟩
  · simp [svn_client_shelf_save_new_version, hw, get_patch_abspath, e1, svn_io_stat, e2]
  · exact e3 _ (fun e => patch_abspath_ne_current shelf shelf _ e.symm)
  · exact e3 _ (fun e => patch_abspath_ne_log shelf shelf _ e.symm)
  · intro v hv1 hv2
    exact e3 _ (patch_abspath_ne_of_version shelf v _ (by omega) (by omega) (by omega))

/-- C4 on the shelf `foo` with one version, saving a target without changes. -/
theorem C4_save_empty_witness :
    ∃ fs', svn_client_shelf_save_new_version example_ctx example_shelf ["b.txt"] 0 []
        example_fs = (.ok (), example_shelf, fs') ∧
      hash_gets fs' (patch_abspath example_shelf (example_shelf.max_version + 1))
        = some ⟨"", example_ctx.now⟩ ∧
      (∀ p, p ≠ patch_abspath example_shelf (example_shelf.max_version + 1) →
        hash_gets fs' p = hash_gets example_fs p) ∧
      hash_gets fs' (get_current_abspath example_shelf)
        = hash_gets example_fs (get_current_abspath example_shelf) ∧
      hash_gets fs' (log_abspath example_shelf)
        = hash_gets example_fs (log_abspath example_shelf) ∧
      (∀ v, 1 ≤ v → v ≤ example_shelf.max_version →
        hash_gets fs' (patch_abspath example_shelf v)
          = hash_gets example_fs (patch_abspath example_shelf v)) :=
  C4_save_empty example_ctx example_shelf ["b.txt"] [""] 0 [] example_fs (by decide)
    (by decide) (List.Forall₂.cons ⟨rfl, "b.txt", rfl, by decide⟩ List.Forall₂.nil)
    (by decide)

/-- C5, as stated, fails: on a freshly opened shelf without files,
`set_current_version(5)` succeeds and sets `max_version` to 5 although no
patch file exists; `max_version` has grown by five without any publish. -/
theorem C5_counterexample :
    svn_client_shelf_open example_ctx "foo" "/wc" []
      = .ok { example_shelf with max_version := 0 } ∧
    (svn_client_shelf_set_current_version example_ctx
      { example_shelf with max_version := 0 } 5 []).1 = .ok () ∧
    (svn_client_shelf_set_current_version example_ctx
      { example_shelf with max_version := 0 } 5 []).2.1.max_version = 5 ∧
    hash_gets (svn_client_shelf_set_current_version example_ctx
      { example_shelf with max_version := 0 } 5 []).2.2
      (patch_abspath { example_shelf with max_version := 0 } 1) = none := by
  decide

/-- C5 (amended): in every shelf state reachable from a freshly opened shelf
without pointer file by any sequence of successful calls of
`save_new_version`, of `set_current_version` with an argument not above
`max_version`, and of `set_log_message`, `max_version` is not negative and a
patch file exists for every version `v` with `1 ≤ v ≤ max_version`. From such
a state a successful `save_new_version` raises `max_version` by at most one,
a successful `set_current_version` with an argument not above `max_version`
does not raise it, and `set_log_message` leaves it as it is. -/
theorem C5_contiguity (shelf : svn_client_shelf_t) (fs : fs_t) (h : reachable shelf fs) :
    0 ≤ shelf.max_version ∧
    (∀ v, 1 ≤ v → v ≤ shelf.max_version → hash_gets fs (patch_abspath shelf v) ≠ none) ∧
    (∀ ctx paths depth changelists shelf' fs',
      svn_client_shelf_save_new_version ctx shelf paths depth changelists fs
        = (.ok (), shelf', fs') →
      shelf'.max_version ≤ shelf.max_version + 1) ∧
    (∀ ctx version shelf' fs', version ≤ shelf.max_version →
      svn_client_shelf_set_current_version ctx shelf version fs = (.ok (), shelf', fs') →
      shelf'.max_version ≤ shelf.max_version) ∧
    (∀ ctx dry_run,
      (svn_client_shelf_set_log_message ctx shelf dry_run fs).2.1.max_version
        = shelf.max_version) := by
  have main : 0 ≤ shelf.max_version ∧
      (∀ v, 1 ≤ v → v ≤ shelf.max_version → hash_gets fs (patch_abspath shelf v) ≠ none) := by
    induction h with
    | opened ctx name local_abspath fs shelf hopen habs =>
      have hz : shelf.max_version = 0 :=
        (shelf_open_ok ctx name local_abspath fs shelf hopen).2.2.2 habs
      rw [hz]
      exact ⟨le_refl _, fun v h1 h2 => by omega⟩
    | saved ctx shelf fs paths depth changelists shelf' fs' _ hs ih =>
      obtain ⟨h1, _, h3⟩ := save_new_version_inv ctx shelf paths depth changelists fs shelf' fs'
        ih.1 ih.2 hs
      exact ⟨h1, h3⟩
    | rolled_back ctx shelf fs version shelf' fs' _ hle hs ih =>
      obtain ⟨h0, e1, h3⟩ := set_current_version_ok_inv ctx shelf version fs shelf' fs' ih.1 hs
      subst e1
      refine ⟨h0, ?_⟩
      intro v hv1 hv2
      have hv2' : v ≤ version := hv2
      have hpath : patch_abspath { shelf with max_version := version } v
          = patch_abspath shelf v := rfl
      rw [hpath, h3 v hv1 hv2']
      exact ih.2 v hv1 (by omega)
    | log_message_set ctx shelf fs dry_run shelf' fs' _ hs ih =>
      obtain ⟨f1, f2, f3, f4⟩ := set_log_message_frame ctx shelf dry_run fs
      rw [hs] at f1 f2 f3 f4
      simp only at f1 f2 f3 f4
      refine ⟨by rw [f3]; exact ih.1, ?_⟩
      intro v hv1 hv2
      have hpath : patch_abspath shelf' v = patch_abspath shelf v := by
        simp only [patch_abspath, f1, f2]
      rw [hpath, f4 _ (patch_abspath_ne_log shelf shelf v)]
      exact ih.2 v hv1 (by omega)
  refine ⟨main.1, main.2, ?_, ?_, ?_⟩
  · intro ctx paths depth changelists shelf' fs' hs
    exact (save_new_version_inv ctx shelf paths depth changelists fs shelf' fs' main.1 main.2
      hs).2.1
  · intro ctx version shelf' fs' hle hs
    obtain ⟨_, e1, _⟩ := set_current_version_ok_inv ctx shelf version fs shelf' fs' main.1 hs
    rw [e1]
    exact hle
  · intro ctx dry_run
    exact (set_log_message_frame ctx shelf dry_run fs).2.2.1

/-- C5 (amended) at the shelf `foo` after a fresh open on an empty storage
directory and one `save_new_version` of `a.txt`: `max_version` is 1 and the
patch file of version 1 exists. -/
theorem C5_contiguity_witness :
    0 ≤ example_shelf.max_version ∧
    (∀ v, 1 ≤ v → v ≤ example_shelf.max_version →
      hash_gets example_fs_first_save (patch_abspath example_shelf v) ≠ none) ∧
    (∀ ctx paths depth changelists shelf' fs',
      svn_client_shelf_save_new_version ctx example_shelf paths depth changelists
        example_fs_first_save = (.ok (), shelf', fs') →
      shelf'.max_version ≤ example_shelf.max_version + 1) ∧
    (∀ ctx version shelf' fs', version ≤ example_shelf.max_version →
      svn_client_shelf_set_current_version ctx example_shelf version example_fs_first_save
        = (.ok (), shelf', fs') →
      shelf'.max_version ≤ example_shelf.max_version) ∧
    (∀ ctx dry_run,
      (svn_client_shelf_set_log_message ctx example_shelf dry_run
        example_fs_first_save).2.1.max_version = example_shelf.max_version) :=
  C5_contiguity example_shelf example_fs_first_save
    (reachable.saved example_ctx { example_shelf with max_version := 0 } [] ["a.txt"] 0 []
      example_shelf example_fs_first_save
      (reachable.opened example_ctx "foo" "/wc" [] _ (by decide) (by decide)) (by decide))

/-- C6: `max_version ≥ 0` is kept by the handle: for every handle with
`max_version ≥ 0`, after `set_current_version` with any integer argument,
whether the call succeeds or fails, and after `save_new_version` below
integer overflow, the handle's `max_version` is still `≥ 0`. -/
theorem C6_max_version_nonneg (ctx : svn_client_ctx_t) (shelf : svn_client_shelf_t)
    (fs : fs_t) (h : 0 ≤ shelf.max_version) :
    (∀ version : Int,
      0 ≤ (svn_client_shelf_set_current_version ctx shelf version fs).2.1.max_version) ∧
    (shelf.max_version < INT_MAX → ∀ (paths : List String) (depth : Int)
        (changelists : List String),
      0 ≤ (svn_client_shelf_save_new_version ctx shelf paths depth changelists
        fs).2.1.max_version) := by
  have hset : ∀ (version : Int) (fs : fs_t),
      0 ≤ (svn_client_shelf_set_current_version ctx shelf version fs).2.1.max_version := by
    intro version fs
    by_cases hv : version < 0
    · obtain ⟨fs', e⟩ := set_current_version_fails ctx shelf version fs hv h
      rw [e]
      exact h
    · obtain ⟨fs', e, _⟩ := set_current_version_spec ctx shelf version fs (Or.inl (by omega))
      rw [e]
      show 0 ≤ version
      omega
  refine ⟨fun version => hset version fs, ?_⟩
  intro hmax paths depth changelists
  have hw : int_wrap (shelf.max_version + 1) = shelf.max_version + 1 :=
    int_wrap_in_range _ (by unfold INT_MIN; omega) (by omega)
  simp only [svn_client_shelf_save_new_version, get_patch_abspath, hw]
  split
  · exact h
  · split
    · exact h
    · split
      · exact hset _ _
      · exact h

/-- C6 at the shelf `foo` with one version. -/
theorem C6_max_version_nonneg_witness :
    (∀ version : Int,
      0 ≤ (svn_client_shelf_set_current_version example_ctx example_shelf version
        example_fs).2.1.max_version) ∧
    (example_shelf.max_version < INT_MAX → ∀ (paths : List String) (depth : Int)
        (changelists : List String),
      0 ≤ (svn_client_shelf_save_new_version example_ctx example_shelf paths depth changelists
        example_fs).2.1.max_version) :=
  C6_max_version_nonneg example_ctx example_shelf example_fs (by decide)

/-- C7: for every name and every storage state, a successful `delete(name)`
(the name is then valid) leaves the storage directory without the pointer
file, without the revprop file and without the patch file of any version in
`1..max_version` of that shelf, `max_version` being the one `open` reads
before the call, whether or not some of those files were already absent; and
it changes no pointer, revprop or patch file of a shelf with a different
name. -/
theorem C7_delete_removes (ctx : svn_client_ctx_t) (name local_abspath : String)
    (dry_run : Bool) (fs fs' : fs_t)
    (h : svn_client_shelf_delete ctx name local_abspath dry_run fs = (.ok (), fs')) :
    ∃ shelf, svn_client_shelf_open ctx name local_abspath fs = .ok shelf ∧
      validate_name name = .ok () ∧ shelf.name = name ∧
      hash_gets fs' (get_current_abspath shelf) = none ∧
      hash_gets fs' (log_abspath shelf) = none ∧
      (∀ v, 1 ≤ v → v ≤ shelf.max_version → hash_gets fs' (patch_abspath shelf v) = none) ∧
      (∀ other : svn_client_shelf_t, other.name ≠ name →
        hash_gets fs' (get_current_abspath other) = hash_gets fs (get_current_abspath other) ∧
        hash_gets fs' (log_abspath other) = hash_gets fs (log_abspath other) ∧
        (∀ w, 0 ≤ w →
          hash_gets fs' (patch_abspath other w) = hash_gets fs (patch_abspath other w))) := by
  obtain ⟨shelf, hopen⟩ := shelf_delete_ok_opened ctx name local_abspath dry_run fs fs' h
  obtain ⟨hval, hname, _, _⟩ := shelf_open_ok ctx name local_abspath fs shelf hopen
  obtain ⟨fs'', e, h1, h2, h3, h4⟩ := shelf_delete_spec ctx name local_abspath dry_run fs shelf
    hopen
  rw [e] at h
  simp only [Prod.mk.injEq, true_and] at h
  subst h
  refine ⟨shelf, hopen, hval, hname, h1, h2, h3, ?_⟩
  intro other hother
  have hne : other.name ≠ shelf.name := by rw [hname]; exact hother
  refine ⟨?_, ?_, ?_⟩
  · apply h4
    · exact current_abspath_ne_of_name other shelf hne
    · exact fun e => log_abspath_ne_current shelf other e.symm
    · exact fun w _ _ e => patch_abspath_ne_current shelf other w e.symm
  · apply h4
    · exact log_abspath_ne_current other shelf
    · exact log_abspath_ne_of_name other shelf hne
    · exact fun w _ _ e => patch_abspath_ne_log shelf other w e.symm
  · intro w hw
    apply h4
    · exact patch_abspath_ne_current other shelf w
    · exact patch_abspath_ne_log other shelf w
    · exact fun w' hw1 _ => patch_abspath_ne_of_name other shelf w w' hw (by omega) hne

/-- C7 at the shelf `foo` with one version: both of its files are removed. -/
theorem C7_delete_removes_witness :
    ∃ shelf, svn_client_shelf_open example_ctx "foo" "/wc" example_fs = .ok shelf ∧
      validate_name "foo" = .ok () ∧ shelf.name = "foo" ∧
      hash_gets ([] : fs_t) (get_current_abspath shelf) = none ∧
      hash_gets ([] : fs_t) (log_abspath shelf) = none ∧
      (∀ v, 1 ≤ v → v ≤ shelf.max_version →
        hash_gets ([] : fs_t) (patch_abspath shelf v) = none) ∧
      (∀ other : svn_client_shelf_t, other.name ≠ "foo" →
        hash_gets ([] : fs_t) (get_current_abspath other)
          = hash_gets example_fs (get_current_abspath other) ∧
        hash_gets ([] : fs_t) (log_abspath other) = hash_gets example_fs (log_abspath other) ∧
        (∀ w, 0 ≤ w →
          hash_gets ([] : fs_t) (patch_abspath other w)
            = hash_gets example_fs (patch_abspath other w))) :=
  C7_delete_removes example_ctx "foo" "/wc" false example_fs [] (by decide)

/-- On a storage state whose listing is determined by the entry names,
after a successful `delete(name)` the listing is determined again, does not
contain `name`, and keeps every other name it had before the delete. -/
theorem delete_then_list_determined (ctx : svn_client_ctx_t) (name local_abspath : String)
    (dry_run : Bool) (fs fs' : fs_t) (infos : List (String × svn_client_shelf_info_t))
    (hdel : svn_client_shelf_delete ctx name local_abspath dry_run fs = (.ok (), fs'))
    (hlist : svn_client_shelves_list ctx local_abspath fs = .ok (some infos)) :
    ∃ infos', svn_client_shelves_list ctx local_abspath fs' = .ok (some infos') ∧
      hash_gets infos' name = none ∧
      (∀ n, n ≠ name → hash_gets infos n ≠ none → hash_gets infos' n ≠ none) := by
  obtain ⟨shelf, hopen⟩ := shelf_delete_ok_opened ctx name local_abspath dry_run fs fs' hdel
  obtain ⟨_, hname, hsdir, _⟩ := shelf_open_ok ctx name local_abspath fs shelf hopen
  obtain ⟨fs'', e, h1, _, _, h4⟩ := shelf_delete_spec ctx name local_abspath dry_run fs shelf
    hopen
  obtain ⟨dir, hdir, hcur, k⟩ := shelves_list_spec ctx local_abspath fs infos hlist
  obtain ⟨root, hroot⟩ := shelves_list_root ctx local_abspath fs _ hlist
  have hd : shelf.shelves_dir = dir := by
    rw [hsdir] at hdir
    cases hdir
    rfl
  have hcur' : hash_gets fs' ⟨dir, "current"⟩ = none := by
    by_contra hc
    exact shelf_delete_only_removes ctx name local_abspath dry_run fs fs' hdel _ hc hcur
  obtain ⟨infos', hl'⟩ := shelves_list_returns ctx local_abspath fs' root dir hroot hdir hcur'
  obtain ⟨dir', hdir', _, k'⟩ := shelves_list_spec ctx local_abspath fs' infos' hl'
  have hd' : dir' = dir := by
    rw [hdir] at hdir'
    cases hdir'
    rfl
  subst hd'
  rw [e] at hdel
  simp only [Prod.mk.injEq, true_and] at hdel
  subst hdel
  refine ⟨infos', hl', ?_, ?_⟩
  · by_contra hc
    have := (k' name).1 hc
    have hp : (⟨dir', name ++ ".current"⟩ : abspath_t) = get_current_abspath shelf := by
      simp only [get_current_abspath, svn_dirent_join, hname, hd]
    rw [hp] at this
    exact this h1
  · intro n hn hin
    have hfs := (k n).1 hin
    apply (k' n).2
    have hp : (⟨dir', n ++ ".current"⟩ : abspath_t)
        = get_current_abspath { shelf with name := n } := by
      simp only [get_current_abspath, svn_dirent_join, hd]
    have hne : ({ shelf with name := n } : svn_client_shelf_t).name ≠ shelf.name := by
      rw [hname]
      exact hn
    rw [hp] at hfs ⊢
    rw [h4 _ (current_abspath_ne_of_name _ shelf hne)
      (fun e => log_abspath_ne_current shelf _ e.symm)
      (fun w _ _ e => patch_abspath_ne_current shelf _ w e.symm)]
    exact hfs

/-- The shelves `foo` and `bar`: after deleting `foo` the listing still has
`bar` and no longer has `foo`. -/
theorem delete_then_list_determined_example :
    ∃ infos', svn_client_shelves_list example_ctx "/wc"
        [(⟨"/wc/.svn/shelves", "bar.current"⟩, ⟨"0", 2⟩)] = .ok (some infos') ∧
      hash_gets infos' "foo" = none ∧
      (∀ n, n ≠ "foo" →
        hash_gets [("bar", (⟨2⟩ : svn_client_shelf_info_t)), ("foo", ⟨1⟩)] n ≠ none →
        hash_gets infos' n ≠ none) :=
  delete_then_list_determined example_ctx "foo" "/wc" false example_fs_two
    [(⟨"/wc/.svn/shelves", "bar.current"⟩, ⟨"0", 2⟩)]
    [("bar", ⟨2⟩), ("foo", ⟨1⟩)] (by decide) (by decide)

/-- C8, evaluated where it fails. The storage directory holds the pointer
file `current.current` of the shelf `current` and a file named `current`. The
name is valid and `delete("current")` succeeds: it removes the pointer file
and leaves the file `current`. That name has 7 characters, so line 620
compares from one byte in front of it: where memory holds `'.'` there,
`list()` after the delete returns the name `current` again, with the time of
the file `current`; where it holds another byte, `list()` returns nothing. The
result is not determined by the directory entries. On a storage directory
without an entry named `current` the result is the same for every byte in
memory, and after a successful `delete(name)` it does not contain `name` and
still has every other name it had. -/
theorem C8_delete_then_list_again :
    validate_name "current" = .ok () ∧
    svn_client_shelf_delete example_ctx "current" "/wc" false example_fs_shelf_current
      = (.ok (), example_fs_stray_current) ∧
    svn_client_shelves_list_mem (fun _ => '.') example_ctx "/wc" example_fs_stray_current
      = .ok (some [("current", ⟨2⟩)]) ∧
    svn_client_shelves_list_mem (fun _ => 'x') example_ctx "/wc" example_fs_stray_current
      = .ok (some []) ∧
    svn_client_shelves_list example_ctx "/wc" example_fs_stray_current = .ok none ∧
    (∀ (ctx : svn_client_ctx_t) (name local_abspath : String) (dry_run : Bool) (fs fs' : fs_t)
        (infos : List (String × svn_client_shelf_info_t)),
      svn_client_shelf_delete ctx name local_abspath dry_run fs = (.ok (), fs') →
      svn_client_shelves_list ctx local_abspath fs = .ok (some infos) →
      (∀ before, svn_client_shelves_list_mem before ctx local_abspath fs = .ok (some infos)) ∧
      ∃ infos',
        (∀ before, svn_client_shelves_list_mem before ctx local_abspath fs'
          = .ok (some infos')) ∧
        hash_gets infos' name = none ∧
        (∀ n, n ≠ name → hash_gets infos n ≠ none → hash_gets infos' n ≠ none)) := by
  refine ⟨by decide, by decide, by decide, by decide, by decide, ?_⟩
  intro ctx name local_abspath dry_run fs fs' infos hdel hlist
  obtain ⟨infos', h1, h2, h3⟩ := delete_then_list_determined ctx name local_abspath dry_run fs
    fs' infos hdel hlist
  exact ⟨shelves_list_mem_of_determined ctx local_abspath fs infos hlist,
    infos', shelves_list_mem_of_determined ctx local_abspath fs' infos' h1, h2, h3⟩

/-- C9, as stated, fails: the name `foo` is valid, yet on a storage directory
whose revprop file `foo.log` lacks its terminator line `delete("foo")` does
not succeed, so neither does `delete` followed by `delete`; the error of the
revprop reader is handed up and the storage directory is left as it was. -/
theorem C9_counterexample :
    validate_name "foo" = .ok () ∧
    svn_client_shelf_delete example_ctx "foo" "/wc" false example_fs_truncated_log
      = (.error (.other 1), example_fs_truncated_log) := by
  decide

/-- C9 (amended): when the working copy root and the storage directory
resolve, for every valid name whose pointer file and revprop file do not
exist, `delete(name)` succeeds and leaves the storage directory exactly as it
was; consequently, whenever `delete(name)` succeeds, a second `delete(name)`
succeeds as well and leaves the storage state of the first unchanged. -/
theorem C9_delete_idempotent (ctx : svn_client_ctx_t) (name local_abspath : String)
    (dry_run : Bool) (fs : fs_t) (root dir : String)
    (hname : ¬ (name = "" ∨ '/' ∈ name.data))
    (hroot : ctx.svn_client_get_wc_root local_abspath = .ok root)
    (hdir : ctx.svn_wc__get_shelves_dir local_abspath = .ok dir) :
    (hash_gets fs (svn_dirent_join dir (name ++ ".current")) = none →
      hash_gets fs (svn_dirent_join dir (name ++ ".log")) = none →
      svn_client_shelf_delete ctx name local_abspath dry_run fs = (.ok (), fs)) ∧
    (∀ fs', svn_client_shelf_delete ctx name local_abspath dry_run fs = (.ok (), fs') →
      svn_client_shelf_delete ctx name local_abspath dry_run fs' = (.ok (), fs')) := by
  refine ⟨fun hcur hlog =>
    shelf_delete_absent ctx name local_abspath dry_run fs root dir hname hroot hdir hcur hlog, ?_⟩
  intro fs' hdel
  obtain ⟨shelf, hopen⟩ := shelf_delete_ok_opened ctx name local_abspath dry_run fs fs' hdel
  obtain ⟨_, hn, hsdir, _⟩ := shelf_open_ok ctx name local_abspath fs shelf hopen
  obtain ⟨fs'', e, h1, h2, _, _⟩ := shelf_delete_spec ctx name local_abspath dry_run fs shelf
    hopen
  rw [e] at hdel
  simp only [Prod.mk.injEq, true_and] at hdel
  subst hdel
  have hd : shelf.shelves_dir = dir := by
    rw [hsdir] at hdir
    cases hdir
    rfl
  apply shelf_delete_absent ctx name local_abspath dry_run fs'' root dir hname hroot hdir
  · simpa only [get_current_abspath, hn, hd] using h1
  · simpa only [log_abspath, hn, hd] using h2

/-- C9 (amended) at the shelf `foo` with one version and no revprop file. -/
theorem C9_delete_idempotent_witness :
    (hash_gets example_fs (svn_dirent_join "/wc/.svn/shelves" ("foo" ++ ".current")) = none →
      hash_gets example_fs (svn_dirent_join "/wc/.svn/shelves" ("foo" ++ ".log")) = none →
      svn_client_shelf_delete example_ctx "foo" "/wc" false example_fs
        = (.ok (), example_fs)) ∧
    (∀ fs', svn_client_shelf_delete example_ctx "foo" "/wc" false example_fs = (.ok (), fs') →
      svn_client_shelf_delete example_ctx "foo" "/wc" false fs' = (.ok (), fs')) :=
  C9_delete_idempotent example_ctx "foo" "/wc" false example_fs "/wc" "/wc/.svn/shelves"
    (by decide) rfl rfl

/-- C10: `validate_name(name)` fails with the bad-name error if and only if
`name` is empty or contains `'/'`. Provided the collaborators of `open` (root
discovery, storage directory lookup, revprop reader) do not raise that error
themselves, `open` and `delete` fail with it for exactly those names; and for
those names they fail with it on every file system, which `delete` hands back
unchanged: no file is read or changed before the check. -/
theorem C10_validate_name (ctx : svn_client_ctx_t) (name local_abspath : String)
    (dry_run : Bool) (fs : fs_t)
    (h1 : ctx.svn_client_get_wc_root local_abspath ≠ .error .SVN_ERR_BAD_CHANGELIST_NAME)
    (h2 : ctx.svn_wc__get_shelves_dir local_abspath ≠ .error .SVN_ERR_BAD_CHANGELIST_NAME)
    (h3 : ∀ content, ctx.svn_hash_read2 content ≠ .error .SVN_ERR_BAD_CHANGELIST_NAME) :
    (validate_name name = .error .SVN_ERR_BAD_CHANGELIST_NAME ↔
      (name = "" ∨ '/' ∈ name.data)) ∧
    (svn_client_shelf_open ctx name local_abspath fs = .error .SVN_ERR_BAD_CHANGELIST_NAME ↔
      (name = "" ∨ '/' ∈ name.data)) ∧
    ((svn_client_shelf_delete ctx name local_abspath dry_run fs).1
        = .error .SVN_ERR_BAD_CHANGELIST_NAME ↔
      (name = "" ∨ '/' ∈ name.data)) ∧
    ((name = "" ∨ '/' ∈ name.data) → ∀ fs2 : fs_t,
      svn_client_shelf_open ctx name local_abspath fs2
        = .error .SVN_ERR_BAD_CHANGELIST_NAME ∧
      svn_client_shelf_delete ctx name local_abspath dry_run fs2
        = (.error .SVN_ERR_BAD_CHANGELIST_NAME, fs2)) := by
  have hbad : (name = "" ∨ '/' ∈ name.data) → ∀ fs2 : fs_t,
      svn_client_shelf_open ctx name local_abspath fs2
        = .error .SVN_ERR_BAD_CHANGELIST_NAME ∧
      svn_client_shelf_delete ctx name local_abspath dry_run fs2
        = (.error .SVN_ERR_BAD_CHANGELIST_NAME, fs2) := by
    intro hn fs2
    have hval := (validate_name_iff name).2 hn
    simp [svn_client_shelf_open, svn_client_shelf_delete, hval]
  have hopen : svn_client_shelf_open ctx name local_abspath fs
      = .error .SVN_ERR_BAD_CHANGELIST_NAME → (name = "" ∨ '/' ∈ name.data) := by
    intro h
    by_contra hn
    rcases shelf_open_error ctx name local_abspath fs _ hn h with c | c | ⟨content, c⟩
    · exact h1 c
    · exact h2 c
    · exact h3 content c
  refine ⟨validate_name_iff name, ⟨hopen, fun hn => (hbad hn fs).1⟩, ⟨?_, ?_⟩, hbad⟩
  · intro h
    by_contra hn
    have hval := (validate_name_ok_iff name).2 hn
    cases ho : svn_client_shelf_open ctx name local_abspath fs with
    | error e =>
      have hd : svn_client_shelf_delete ctx name local_abspath dry_run fs = (.error e, fs) := by
        simp [svn_client_shelf_delete, hval, ho]
      rw [hd] at h
      simp only [Except.error.injEq] at h
      rw [h] at ho
      exact hn (hopen ho)
    | ok shelf =>
      obtain ⟨fs', e, _⟩ := shelf_delete_spec ctx name local_abspath dry_run fs shelf ho
      rw [e] at h
      cases h
  · intro hn
    rw [(hbad hn fs).2]

/-- C10 at the name `a/b`, which holds a separator. -/
theorem C10_validate_name_witness :
    (validate_name "a/b" = .error .SVN_ERR_BAD_CHANGELIST_NAME ↔
      ("a/b" = "" ∨ '/' ∈ "a/b".data)) ∧
    (svn_client_shelf_open example_ctx "a/b" "/wc" example_fs
        = .error .SVN_ERR_BAD_CHANGELIST_NAME ↔
      ("a/b" = "" ∨ '/' ∈ "a/b".data)) ∧
    ((svn_client_shelf_delete example_ctx "a/b" "/wc" false example_fs).1
        = .error .SVN_ERR_BAD_CHANGELIST_NAME ↔
      ("a/b" = "" ∨ '/' ∈ "a/b".data)) ∧
    (("a/b" = "" ∨ '/' ∈ "a/b".data) → ∀ fs2 : fs_t,
      svn_client_shelf_open example_ctx "a/b" "/wc" fs2
        = .error .SVN_ERR_BAD_CHANGELIST_NAME ∧
      svn_client_shelf_delete example_ctx "a/b" "/wc" false fs2
        = (.error .SVN_ERR_BAD_CHANGELIST_NAME, fs2)) :=
  C10_validate_name example_ctx "a/b" "/wc" false example_fs (by decide) (by decide)
    (fun content => by
      simp only [example_ctx]
      split
      · simp
      · split <;> simp)

/-- C11: when the working copy root and the storage directory resolve, for
every valid name whose pointer file and revprop file are both absent, `open`
succeeds with `max_version = 0` and an empty revprops map, whatever the
freshly allocated handle held. -/
theorem C11_open_fresh (ctx : svn_client_ctx_t) (name local_abspath : String) (fs : fs_t)
    (root dir : String) (hname : ¬ (name = "" ∨ '/' ∈ name.data))
    (hroot : ctx.svn_client_get_wc_root local_abspath = .ok root)
    (hdir : ctx.svn_wc__get_shelves_dir local_abspath = .ok dir)
    (hcur : hash_gets fs (svn_dirent_join dir (name ++ ".current")) = none)
    (hlog : hash_gets fs (svn_dirent_join dir (name ++ ".log")) = none) :
    ∃ shelf, svn_client_shelf_open ctx name local_abspath fs = .ok shelf ∧
      shelf.name = name ∧ shelf.shelves_dir = dir ∧
      shelf.max_version = 0 ∧ shelf.revprops = [] ∧
      svn_client__shelf_revprop_list shelf = .ok [] :=
  ⟨_, shelf_open_absent ctx name local_abspath fs root dir hname hroot hdir hcur hlog,
    rfl, rfl, rfl, rfl, rfl⟩

/-- C11 at the name `foo` on an empty storage directory, with a handle whose
fresh memory held 5. -/
theorem C11_open_fresh_witness :
    ∃ shelf, svn_client_shelf_open { example_ctx with palloc_max_version := 5 } "foo" "/wc" []
        = .ok shelf ∧
      shelf.name = "foo" ∧ shelf.shelves_dir = "/wc/.svn/shelves" ∧
      shelf.max_version = 0 ∧ shelf.revprops = [] ∧
      svn_client__shelf_revprop_list shelf = .ok [] :=
  C11_open_fresh { example_ctx with palloc_max_version := 5 } "foo" "/wc" [] "/wc"
    "/wc/.svn/shelves" (by decide) rfl rfl (by decide) (by decide)

/-- C12, evaluated where it fails. The name `foo` is valid and the storage
directory holds a pointer file `foo.current` without a number. A first `open`,
on a handle whose fresh memory held 0, returns `max_version = 0`; `close`
succeeds and the files are the same; a second `open`, on a handle whose fresh
memory held 5, returns `max_version = 5`: `fscanf` assigned nothing, so the
field keeps what the allocation left there. Whenever the pointer file is
absent or holds a number, the result of `open` does not depend on that
memory and a second `open` returns the same handle as the first. -/
theorem C12_open_close_open :
    (svn_client_shelf_open example_ctx "foo" "/wc" example_fs_empty_pointer
        = .ok { example_shelf with max_version := 0 } ∧
      svn_client_shelf_close { example_shelf with max_version := 0 } = .ok () ∧
      svn_client_shelf_open { example_ctx with palloc_max_version := 5 } "foo" "/wc"
        example_fs_empty_pointer = .ok { example_shelf with max_version := 5 }) ∧
    (∀ (ctx : svn_client_ctx_t) (name local_abspath : String) (fs : fs_t) (dir : String)
        (g : Int) (shelf : svn_client_shelf_t),
      ctx.svn_wc__get_shelves_dir local_abspath = .ok dir →
      (hash_gets fs (svn_dirent_join dir (name ++ ".current")) = none ∨
        ∃ f v, hash_gets fs (svn_dirent_join dir (name ++ ".current")) = some f ∧
          scanf_d f.content = some v) →
      svn_client_shelf_open ctx name local_abspath fs = .ok shelf →
      svn_client_shelf_close shelf = .ok () ∧
        svn_client_shelf_open { ctx with palloc_max_version := g } name local_abspath fs
          = .ok shelf) := by
  refine ⟨by decide, ?_⟩
  intro ctx name local_abspath fs dir g shelf hdir hp hopen
  exact ⟨rfl, by rw [shelf_open_palloc ctx name local_abspath fs dir g hdir hp, hopen]⟩

/-- C13: for every message `msg` the message provider supplies and
`dry_run = false`, `set_log_message` succeeds, `get_log_message` on the same
shelf then returns `msg` as it was given, every revprop other than the log
message key is unchanged, and the revprop file holds the written form of the
new map. If moreover the revprop reader gives back that map from its written
form (as it does when no value contains the sentinel), a later `open` of the
shelf on the resulting files returns a handle on which `get_log_message`
returns `msg` too. -/
theorem C13_log_message_round_trip (ctx : svn_client_ctx_t) (shelf : svn_client_shelf_t)
    (fs : fs_t) (msg : String) (h : ctx.log_msg_func = some (.ok (some msg))) :
    ∃ shelf' fs', svn_client_shelf_set_log_message ctx shelf false fs = (.ok (), shelf', fs') ∧
      svn_client_shelf_get_log_message shelf' = .ok msg ∧
      (∀ key, key ≠ "svn:log" →
        svn_client__shelf_revprop_get shelf' key = svn_client__shelf_revprop_get shelf key) ∧
      hash_gets fs' (log_abspath shelf) = some ⟨ctx.svn_hash_write2 shelf'.revprops, ctx.now⟩ ∧
      (∀ local_abspath : String, validate_name shelf.name = .ok () →
        ctx.svn_client_get_wc_root local_abspath = .ok shelf.wc_root_abspath →
        ctx.svn_wc__get_shelves_dir local_abspath = .ok shelf.shelves_dir →
        ctx.svn_hash_read2 (ctx.svn_hash_write2 shelf'.revprops) = .ok shelf'.revprops →
        ∃ reopened, svn_client_shelf_open ctx shelf.name local_abspath fs' = .ok reopened ∧
          svn_client_shelf_get_log_message reopened = .ok msg) := by
  obtain ⟨fs', e1, e2, _⟩ := revprop_set_spec ctx shelf "svn:log" msg fs
  have hget : svn_client_shelf_get_log_message
      { shelf with revprops := hash_sets shelf.revprops "svn:log" msg } = .ok msg := by
    simp [svn_client_shelf_get_log_message, hash_gets_sets]
  refine ⟨{ shelf with revprops := hash_sets shelf.revprops "svn:log" msg }, fs',
    ?_, hget, ?_, e2, ?_⟩
  · rw [set_log_message_stores ctx shelf fs msg (Or.inl h), e1]
  · intro key hkey
    simp [svn_client__shelf_revprop_get, hash_gets_sets, hkey]
  · intro local_abspath hname hroot hdir hread
    obtain ⟨reopened, o1, o2, _, _⟩ := shelf_open_revprops ctx shelf.name local_abspath fs'
      shelf.wc_root_abspath shelf.shelves_dir _ _ hname hroot hdir e2 hread
    refine ⟨reopened, o1, ?_⟩
    simp only [svn_client_shelf_get_log_message, o2] at hget ⊢
    exact hget

/-- C13 at the shelf `foo` with the log message `old`, the provider answering
`new`. -/
theorem C13_log_message_round_trip_witness :
    ∃ shelf' fs', svn_client_shelf_set_log_message (example_ctx_with_message (some "new"))
        example_shelf_logged false example_fs = (.ok (), shelf', fs') ∧
      svn_client_shelf_get_log_message shelf' = .ok "new" ∧
      (∀ key, key ≠ "svn:log" →
        svn_client__shelf_revprop_get shelf' key
          = svn_client__shelf_revprop_get example_shelf_logged key) ∧
      hash_gets fs' (log_abspath example_shelf_logged)
        = some ⟨(example_ctx_with_message (some "new")).svn_hash_write2 shelf'.revprops,
            (example_ctx_with_message (some "new")).now⟩ ∧
      (∀ local_abspath : String, validate_name example_shelf_logged.name = .ok () →
        (example_ctx_with_message (some "new")).svn_client_get_wc_root local_abspath
          = .ok example_shelf_logged.wc_root_abspath →
        (example_ctx_with_message (some "new")).svn_wc__get_shelves_dir local_abspath
          = .ok example_shelf_logged.shelves_dir →
        (example_ctx_with_message (some "new")).svn_hash_read2
          ((example_ctx_with_message (some "new")).svn_hash_write2 shelf'.revprops)
          = .ok shelf'.revprops →
        ∃ reopened, svn_client_shelf_open (example_ctx_with_message (some "new"))
            example_shelf_logged.name local_abspath fs' = .ok reopened ∧
          svn_client_shelf_get_log_message reopened = .ok "new") :=
  C13_log_message_round_trip (example_ctx_with_message (some "new")) example_shelf_logged
    example_fs "new" rfl

/-- C14: when the message provider withdraws the message, `set_log_message`
returns without error and leaves the handle, its revprops included, and all
files unchanged, for either value of `dry_run`. -/
theorem C14_withdrawn_message (ctx : svn_client_ctx_t) (shelf : svn_client_shelf_t)
    (fs : fs_t) (dry_run : Bool) (h : ctx.log_msg_func = some (.ok none)) :
    svn_client_shelf_set_log_message ctx shelf dry_run fs = (.ok (), shelf, fs) := by
  simp [svn_client_shelf_set_log_message, h]

/-- C14 at the shelf `foo` with the log message `old`. -/
theorem C14_withdrawn_message_witness :
    svn_client_shelf_set_log_message (example_ctx_with_message none) example_shelf_logged
      false example_fs = (.ok (), example_shelf_logged, example_fs) :=
  C14_withdrawn_message (example_ctx_with_message none) example_shelf_logged example_fs false
    rfl

/-- C15, as stated, fails: the provider answers the empty string, the shelf
has the log message `old`, and `set_log_message` with `dry_run = false` stores
the empty string: the old message is gone and the revprop file, which did not
exist, has been written. -/
theorem C15_counterexample :
    svn_client_shelf_get_log_message example_shelf_logged = .ok "old" ∧
    (svn_client_shelf_set_log_message (example_ctx_with_message (some ""))
      example_shelf_logged false example_fs).1 = .ok () ∧
    svn_client_shelf_get_log_message (svn_client_shelf_set_log_message
      (example_ctx_with_message (some "")) example_shelf_logged false example_fs).2.1
      = .ok "" ∧
    hash_gets example_fs (log_abspath example_shelf_logged) = none ∧
    hash_gets (svn_client_shelf_set_log_message (example_ctx_with_message (some ""))
      example_shelf_logged false example_fs).2.2 (log_abspath example_shelf_logged)
      = some ⟨"PROPS-END\n", 7⟩ := by
  decide

/-- C15 (amended): when the message provider returns the empty string,
`set_log_message` returns without error; with `dry_run = false` it stores the
empty string like any other message, replacing an existing log message, and
rewrites the revprop file; with `dry_run = true` the handle and the files are
unchanged. -/
theorem C15_empty_message (ctx : svn_client_ctx_t) (shelf : svn_client_shelf_t)
    (fs : fs_t) (h : ctx.log_msg_func = some (.ok (some ""))) :
    svn_client_shelf_set_log_message ctx shelf true fs = (.ok (), shelf, fs) ∧
    ∃ fs', svn_client_shelf_set_log_message ctx shelf false fs
        = (.ok (), { shelf with revprops := hash_sets shelf.revprops "svn:log" "" }, fs') ∧
      svn_client_shelf_get_log_message
        { shelf with revprops := hash_sets shelf.revprops "svn:log" "" } = .ok "" ∧
      hash_gets fs' (log_abspath shelf)
        = some ⟨ctx.svn_hash_write2 (hash_sets shelf.revprops "svn:log" ""), ctx.now⟩ := by
  obtain ⟨fs', e1, e2, _⟩ := revprop_set_spec ctx shelf "svn:log" "" fs
  refine ⟨?_, fs', ?_, ?_, e2⟩
  · simp [svn_client_shelf_set_log_message, h]
  · rw [set_log_message_stores ctx shelf fs "" (Or.inl h), e1]
  · simp [svn_client_shelf_get_log_message, hash_gets_sets]

/-- C15 (amended) at the shelf `foo` with the log message `old`. -/
theorem C15_empty_message_witness :
    svn_client_shelf_set_log_message (example_ctx_with_message (some "")) example_shelf_logged
      true example_fs = (.ok (), example_shelf_logged, example_fs) ∧
    ∃ fs', svn_client_shelf_set_log_message (example_ctx_with_message (some ""))
        example_shelf_logged false example_fs
        = (.ok (), { example_shelf_logged with
            revprops := hash_sets example_shelf_logged.revprops "svn:log" "" }, fs') ∧
      svn_client_shelf_get_log_message
        { example_shelf_logged with
            revprops := hash_sets example_shelf_logged.revprops "svn:log" "" } = .ok "" ∧
      hash_gets fs' (log_abspath example_shelf_logged)
        = some ⟨(example_ctx_with_message (some "")).svn_hash_write2
            (hash_sets example_shelf_logged.revprops "svn:log" ""),
            (example_ctx_with_message (some "")).now⟩ :=
  C15_empty_message (example_ctx_with_message (some "")) example_shelf_logged example_fs rfl

/-- C16: whatever the message provider does, `set_log_message` with
`dry_run = true` leaves the handle, its revprops included, and every file
unchanged, so `get_log_message` returns the same value as before the call;
and for every message the provider returns, withdrawn or not, the call
succeeds. -/
theorem C16_dry_run (ctx : svn_client_ctx_t) (shelf : svn_client_shelf_t) (fs : fs_t) :
    (svn_client_shelf_set_log_message ctx shelf true fs).2.1 = shelf ∧
    (svn_client_shelf_set_log_message ctx shelf true fs).2.2 = fs ∧
    svn_client_shelf_get_log_message (svn_client_shelf_set_log_message ctx shelf true fs).2.1
      = svn_client_shelf_get_log_message shelf ∧
    (∀ message : Option String, ctx.log_msg_func = some (.ok message) →
      svn_client_shelf_set_log_message ctx shelf true fs = (.ok (), shelf, fs)) := by
  obtain ⟨h1, h2⟩ := set_log_message_dry_run ctx shelf fs
  refine ⟨by rw [h1], by rw [h1], by rw [h1], ?_⟩
  intro message hm
  apply h2
  intro e
  rw [hm]
  simp

/-- C17, as stated, fails: on the shelf `foo`, which has no revprop file,
`svn_client__shelf_revprop_set` succeeds and has written the revprop file
itself, without any separate store call. -/
theorem C17_counterexample :
    hash_gets example_fs (log_abspath example_shelf) = none ∧
    (svn_client__shelf_revprop_set example_ctx example_shelf "key" "val" example_fs).1
      = .ok () ∧
    hash_gets (svn_client__shelf_revprop_set example_ctx example_shelf "key" "val"
      example_fs).2.2 (log_abspath example_shelf) = some ⟨"PROPS-END\n", 7⟩ := by
  decide

/-- C17 (amended): revprop `set(key, val)` binds `key` to `val` in the
in-memory map, leaving every other key as it was, and at once rewrites the
revprop file with the written form of the whole new map, creating the file if
need be; it changes no other file and needs no separate store call. -/
theorem C17_revprop_set_persists (ctx : svn_client_ctx_t) (shelf : svn_client_shelf_t)
    (prop_name prop_val : String) (fs : fs_t) :
    ∃ shelf' fs', svn_client__shelf_revprop_set ctx shelf prop_name prop_val fs
        = (.ok (), shelf', fs') ∧
      svn_client__shelf_revprop_get shelf' prop_name = .ok (some prop_val) ∧
      (∀ key, key ≠ prop_name →
        svn_client__shelf_revprop_get shelf' key = svn_client__shelf_revprop_get shelf key) ∧
      hash_gets fs' (log_abspath shelf)
        = some ⟨ctx.svn_hash_write2 shelf'.revprops, ctx.now⟩ ∧
      (∀ q, q ≠ log_abspath shelf → hash_gets fs' q = hash_gets fs q) := by
  obtain ⟨fs', e1, e2, e3⟩ := revprop_set_spec ctx shelf prop_name prop_val fs
  refine ⟨{ shelf with revprops := hash_sets shelf.revprops prop_name prop_val }, fs',
    e1, ?_, ?_, e2, e3⟩
  · simp [svn_client__shelf_revprop_get, hash_gets_sets]
  · intro key hkey
    simp [svn_client__shelf_revprop_get, hash_gets_sets, hkey]

/-- C18: for every shelf and every version in `1..max_version` whose patch
file is absent from disk, `version_get_info` succeeds and returns the
version's patch path with a zero modification time, whereas `get_paths` on the
same version fails, with the error of the missing file, and so returns no
mapping at all, empty or not; `has_changes` fails likewise. -/
theorem C18_missing_patch_file (ctx : svn_client_ctx_t) (shelf : svn_client_shelf_t)
    (version : Int) (fs : fs_t) (h1 : 1 ≤ version) (h2 : version ≤ shelf.max_version)
    (habs : hash_gets fs (patch_abspath shelf version) = none) :
    svn_client_shelf_version_get_info shelf version fs
      = .ok ⟨patch_abspath shelf version, 0⟩ ∧
    svn_client_shelf_get_paths ctx shelf version fs = .error .APR_ENOENT ∧
    (∀ paths, svn_client_shelf_get_paths ctx shelf version fs ≠ .ok paths) ∧
    svn_client_shelf_has_changes ctx shelf version fs = .error .APR_ENOENT := by
  have hm : ¬ shelf.max_version ≤ 0 := by omega
  have hv : ¬ (version ≤ 0 ∨ version > shelf.max_version) := by omega
  have hcheck : get_existing_patch_abspath shelf version = .ok (patch_abspath shelf version) := by
    simp [get_existing_patch_abspath, hm, hv, get_patch_abspath]
  have hget : svn_client_shelf_get_paths ctx shelf version fs = .error .APR_ENOENT := by
    simp [svn_client_shelf_get_paths, hcheck, svn_stream_open_readonly, habs]
  refine ⟨?_, hget, ?_, ?_⟩
  · simp [svn_client_shelf_version_get_info, hcheck, svn_io_stat_dirent2, habs]
  · intro paths hp
    rw [hget] at hp
    cases hp
  · simp [svn_client_shelf_has_changes, hget]

/-- C18 at the shelf `foo` with one version, after its patch file was removed
out of band. -/
theorem C18_missing_patch_file_witness :
    svn_client_shelf_version_get_info example_shelf 1 []
      = .ok ⟨patch_abspath example_shelf 1, 0⟩ ∧
    svn_client_shelf_get_paths example_ctx example_shelf 1 [] = .error .APR_ENOENT ∧
    (∀ paths, svn_client_shelf_get_paths example_ctx example_shelf 1 [] ≠ .ok paths) ∧
    svn_client_shelf_has_changes example_ctx example_shelf 1 [] = .error .APR_ENOENT :=
  C18_missing_patch_file example_ctx example_shelf 1 [] (by decide) (by decide) (by decide)

/-- C20: for every shelf and every version with `1 ≤ version ≤ 999`, the
patch path is the storage directory joined with the name, `-`, the version as
exactly three decimal digits (hundreds, tens, units, so zero padded on the
left) and `.patch`; the pointer path is the storage directory joined with the
name and `.current`, the revprop path with the name and `.log`; all three are
the same for two handles with the same storage directory and name. -/
theorem C20_storage_paths (shelf : svn_client_shelf_t) (version : Int) (h1 : 1 ≤ version)
    (h2 : version ≤ 999) :
    get_patch_abspath shelf version
      = .ok (svn_dirent_join shelf.shelves_dir
          (shelf.name ++ "-" ++ String.mk [Nat.digitChar (version.toNat / 100),
            Nat.digitChar (version.toNat / 10 % 10), Nat.digitChar (version.toNat % 10)]
            ++ ".patch")) ∧
    (printf_03d version).length = 3 ∧
    get_current_abspath shelf = svn_dirent_join shelf.shelves_dir (shelf.name ++ ".current") ∧
    get_log_abspath shelf = .ok (svn_dirent_join shelf.shelves_dir (shelf.name ++ ".log")) ∧
    (∀ other : svn_client_shelf_t, other.shelves_dir = shelf.shelves_dir →
      other.name = shelf.name →
      get_patch_abspath other version = get_patch_abspath shelf version ∧
      get_current_abspath other = get_current_abspath shelf ∧
      get_log_abspath other = get_log_abspath shelf) := by
  have hv : version = ((version.toNat : Nat) : Int) := by omega
  have h3 := printf_03d_three_digits version.toNat (by omega)
  rw [← hv] at h3
  refine ⟨?_, ?_, rfl, rfl, ?_⟩
  · simp only [get_patch_abspath, patch_abspath, h3]
  · rw [h3]
    rfl
  · intro other hd hn
    simp only [get_patch_abspath, patch_abspath, get_current_abspath, get_log_abspath,
      log_abspath, hd, hn, and_self]

/-- C20 at version 7 of the shelf `foo`: the patch file is `foo-007.patch`. -/
theorem C20_storage_paths_witness :
    get_patch_abspath example_shelf 7
      = .ok (svn_dirent_join example_shelf.shelves_dir
          (example_shelf.name ++ "-" ++ String.mk [Nat.digitChar ((7 : Int).toNat / 100),
            Nat.digitChar ((7 : Int).toNat / 10 % 10), Nat.digitChar ((7 : Int).toNat % 10)]
            ++ ".patch")) ∧
    (printf_03d 7).length = 3 ∧
    get_current_abspath example_shelf
      = svn_dirent_join example_shelf.shelves_dir (example_shelf.name ++ ".current") ∧
    get_log_abspath example_shelf
      = .ok (svn_dirent_join example_shelf.shelves_dir (example_shelf.name ++ ".log")) ∧
    (∀ other : svn_client_shelf_t, other.shelves_dir = example_shelf.shelves_dir →
      other.name = example_shelf.name →
      get_patch_abspath other 7 = get_patch_abspath example_shelf 7 ∧
      get_current_abspath other = get_current_abspath example_shelf ∧
      get_log_abspath other = get_log_abspath example_shelf) :=
  C20_storage_paths example_shelf 7 (by decide) (by decide)

/-- On a storage directory whose entries bear distinct names, none of them
exactly `current`, the listing is determined by the entry names: the names of
the records are distinct, a name is among them if and only if the name
followed by `.current` is an entry, and the `mtime` of each record is the
modification time of that entry. -/
theorem list_records_determined (ctx : svn_client_ctx_t) (local_abspath : String) (fs : fs_t)
    (root dir : String) (hroot : ctx.svn_wc__get_wcroot local_abspath = .ok root)
    (hdir : ctx.svn_wc__get_shelves_dir local_abspath = .ok dir)
    (hnd : ((svn_io_get_dirents3 dir fs).map Prod.fst).Nodup)
    (hcur : ∀ e ∈ svn_io_get_dirents3 dir fs, e.1 ≠ "current") :
    ∃ infos, svn_client_shelves_list ctx local_abspath fs = .ok (some infos) ∧
      (infos.map Prod.fst).Nodup ∧
      (∀ n, n ∈ infos.map Prod.fst ↔
        ∃ e ∈ svn_io_get_dirents3 dir fs, e.1 = n ++ ".current") ∧
      (∀ n f, ((⟨dir, n ++ ".current"⟩ : abspath_t), f) ∈ fs →
        hash_gets infos n = some ⟨f.mtime⟩) := by
  obtain ⟨infos, k1, k2, k3, k4⟩ := shelves_list_entries_records (svn_io_get_dirents3 dir fs) []
    hcur hnd
  refine ⟨infos, ?_, k2 List.nodup_nil, ?_, ?_⟩
  · simp [svn_client_shelves_list, hroot, hdir, k1]
  · intro n
    rw [← hash_gets_isSome_iff]
    constructor
    · intro hn
      by_contra hex
      apply hn
      rw [k4 n]
      · rfl
      · intro d hmem
        exact hex ⟨_, hmem, rfl⟩
    · rintro ⟨⟨e1, d⟩, hmem, he⟩
      simp only at he
      subst he
      rw [k3 n d hmem]
      simp
  · intro n f hmem
    have hd : ((n ++ ".current", (⟨true, f.mtime⟩ : svn_io_dirent2_t)))
        ∈ svn_io_get_dirents3 dir fs := by
      simp only [svn_io_get_dirents3, List.mem_map, List.mem_filter, decide_eq_true_eq]
      exact ⟨_, ⟨hmem, rfl⟩, rfl⟩
    exact k3 n _ hd

/-- The storage directory of the shelves `foo` and `bar`: two records, with
the times of `foo.current` and `bar.current`; the patch file contributes
none. -/
theorem list_records_determined_example :
    ∃ infos, svn_client_shelves_list example_ctx "/wc" example_fs_two = .ok (some infos) ∧
      (infos.map Prod.fst).Nodup ∧
      (∀ n, n ∈ infos.map Prod.fst ↔
        ∃ e ∈ svn_io_get_dirents3 "/wc/.svn/shelves" example_fs_two, e.1 = n ++ ".current") ∧
      (∀ n f, ((⟨"/wc/.svn/shelves", n ++ ".current"⟩ : abspath_t), f) ∈ example_fs_two →
        hash_gets infos n = some ⟨f.mtime⟩) :=
  list_records_determined example_ctx "/wc" example_fs_two "/wc" "/wc/.svn/shelves" rfl rfl
    (by decide) (by decide)

/-- C19, evaluated where it fails. The storage directory holds one entry,
named `current`, which does not end in `.current`. Its name has 7 characters,
so line 620 compares from one byte in front of it: where memory holds `'.'`
there, `list` returns one record, under the name `current` (the whole entry
name, `len - 8` having wrapped in `size_t`) and with the time of that entry,
although no entry bears the suffix; where memory holds another byte, `list`
returns no record. The result is not determined by the directory entries. On
a storage directory whose entries bear distinct names, none of them exactly
`current`, the result is the same for every byte in memory: the names of the
records are distinct, a name is among them if and only if the name followed
by `.current` is an entry (for the entry `.current` that is the empty name,
which `validate_name` rejects), and each record has the time of that entry. -/
theorem C19_list_stray_entry :
    (svn_io_get_dirents3 "/wc/.svn/shelves" example_fs_stray_current).map Prod.fst
      = ["current"] ∧
    ".current".data.isSuffixOf "current".data = false ∧
    svn_client_shelves_list_mem (fun _ => '.') example_ctx "/wc" example_fs_stray_current
      = .ok (some [("current", ⟨2⟩)]) ∧
    svn_client_shelves_list_mem (fun _ => 'x') example_ctx "/wc" example_fs_stray_current
      = .ok (some []) ∧
    svn_client_shelves_list example_ctx "/wc" example_fs_stray_current = .ok none ∧
    (∀ (ctx : svn_client_ctx_t) (local_abspath : String) (fs : fs_t) (root dir : String),
      ctx.svn_wc__get_wcroot local_abspath = .ok root →
      ctx.svn_wc__get_shelves_dir local_abspath = .ok dir →
      ((svn_io_get_dirents3 dir fs).map Prod.fst).Nodup →
      (∀ e ∈ svn_io_get_dirents3 dir fs, e.1 ≠ "current") →
      ∃ infos,
        (∀ before, svn_client_shelves_list_mem before ctx local_abspath fs = .ok (some infos)) ∧
        (infos.map Prod.fst).Nodup ∧
        (∀ n, n ∈ infos.map Prod.fst ↔
          ∃ e ∈ svn_io_get_dirents3 dir fs, e.1 = n ++ ".current") ∧
        (∀ n f, ((⟨dir, n ++ ".current"⟩ : abspath_t), f) ∈ fs →
          hash_gets infos n = some ⟨f.mtime⟩)) := by
  refine ⟨by decide, by decide, by decide, by decide, by decide, ?_⟩
  intro ctx local_abspath fs root dir hroot hdir hnd hcur
  obtain ⟨infos, h1, h2, h3, h4⟩ := list_records_determined ctx local_abspath fs root dir hroot
    hdir hnd hcur
  exact ⟨infos, shelves_list_mem_of_determined ctx local_abspath fs infos h1, h2, h3, h4⟩

/-- C21: for every shelf and every `int` `n ≥ 0`, `set_current_version(n)`
succeeds and the pointer file then holds exactly the decimal text of `n`:
digits only, so no trailing newline, denoting `n`. Every later `open` of the
same shelf name in the same storage directory that succeeds yields
`max_version = n`; and it does succeed when the name is valid, the working
copy root resolves and the revprop file, if there is one, is readable. -/
theorem C21_pointer_round_trip (ctx : svn_client_ctx_t) (shelf : svn_client_shelf_t) (n : Int)
    (fs : fs_t) (h0 : 0 ≤ n) (h1 : n ≤ INT_MAX) :
    ∃ shelf' fs', svn_client_shelf_set_current_version ctx shelf n fs = (.ok (), shelf', fs') ∧
      shelf'.max_version = n ∧
      hash_gets fs' (get_current_abspath shelf) = some ⟨Nat.repr n.toNat, ctx.now⟩ ∧
      (∀ c ∈ (Nat.repr n.toNat).data, '0' ≤ c ∧ c ≤ '9') ∧
      dec_value (Nat.repr n.toNat).data = n.toNat ∧
      (∀ (ctx' : svn_client_ctx_t) (local_abspath : String) (reopened : svn_client_shelf_t),
        ctx'.svn_wc__get_shelves_dir local_abspath = .ok shelf.shelves_dir →
        svn_client_shelf_open ctx' shelf.name local_abspath fs' = .ok reopened →
        reopened.max_version = n) ∧
      (∀ (ctx' : svn_client_ctx_t) (local_abspath root : String),
        validate_name shelf.name = .ok () →
        ctx'.svn_client_get_wc_root local_abspath = .ok root →
        ctx'.svn_wc__get_shelves_dir local_abspath = .ok shelf.shelves_dir →
        (∀ f, hash_gets fs (log_abspath shelf) = some f →
          ∃ props, ctx'.svn_hash_read2 f.content = .ok props) →
        ∃ reopened, svn_client_shelf_open ctx' shelf.name local_abspath fs' = .ok reopened ∧
          reopened.max_version = n) := by
  obtain ⟨fs', e1, e2, _, e4⟩ := set_current_version_spec ctx shelf n fs (Or.inl h0)
  rw [printf_d_nonneg n h0] at e2
  have hscan : scanf_d (Nat.repr n.toNat) = some n := by
    rw [← printf_d_nonneg n h0]
    exact scanf_d_printf_d n h0 h1
  have hreopen : ∀ (ctx' : svn_client_ctx_t) (local_abspath : String)
      (reopened : svn_client_shelf_t),
      ctx'.svn_wc__get_shelves_dir local_abspath = .ok shelf.shelves_dir →
      svn_client_shelf_open ctx' shelf.name local_abspath fs' = .ok reopened →
      reopened.max_version = n := by
    intro ctx' local_abspath reopened hdir hopen
    obtain ⟨_, hn, hd, _⟩ := shelf_open_ok ctx' shelf.name local_abspath fs' reopened hopen
    rw [hdir] at hd
    simp only [Except.ok.injEq] at hd
    have hcur : get_current_abspath reopened = get_current_abspath shelf := by
      simp only [get_current_abspath, hn, ← hd]
    exact shelf_open_max_version ctx' shelf.name local_abspath fs' reopened _ n hopen
      (by rw [hcur]; exact e2) hscan
  refine ⟨{ shelf with max_version := n }, fs', e1, rfl, e2, ?_, ?_, hreopen, ?_⟩
  · exact toDigits_isdigit n.toNat
  · exact dec_value_toDigits n.toNat
  · intro ctx' local_abspath root hname hroot hdir hlog
    have hframe : hash_gets fs' (log_abspath shelf) = hash_gets fs (log_abspath shelf) :=
      e4 _ (log_abspath_ne_current shelf shelf)
        (fun w _ _ e => patch_abspath_ne_log shelf shelf w e.symm)
    obtain ⟨reopened, hopen⟩ := shelf_open_succeeds ctx' shelf.name local_abspath fs' root
      shelf.shelves_dir hname hroot hdir (fun f hf => hlog f (by
        rw [← hframe]
        exact hf))
    exact ⟨reopened, hopen, hreopen ctx' local_abspath reopened hdir hopen⟩

/-- C21 at the shelf `foo` with one version, for `n = 0`. -/
theorem C21_pointer_round_trip_witness :
    ∃ shelf' fs', svn_client_shelf_set_current_version example_ctx example_shelf 0 example_fs
        = (.ok (), shelf', fs') ∧
      shelf'.max_version = 0 ∧
      hash_gets fs' (get_current_abspath example_shelf)
        = some ⟨Nat.repr (0 : Int).toNat, example_ctx.now⟩ ∧
      (∀ c ∈ (Nat.repr (0 : Int).toNat).data, '0' ≤ c ∧ c ≤ '9') ∧
      dec_value (Nat.repr (0 : Int).toNat).data = (0 : Int).toNat ∧
      (∀ (ctx' : svn_client_ctx_t) (local_abspath : String) (reopened : svn_client_shelf_t),
        ctx'.svn_wc__get_shelves_dir local_abspath = .ok example_shelf.shelves_dir →
        svn_client_shelf_open ctx' example_shelf.name local_abspath fs' = .ok reopened →
        reopened.max_version = 0) ∧
      (∀ (ctx' : svn_client_ctx_t) (local_abspath root : String),
        validate_name example_shelf.name = .ok () →
        ctx'.svn_client_get_wc_root local_abspath = .ok root →
        ctx'.svn_wc__get_shelves_dir local_abspath = .ok example_shelf.shelves_dir →
        (∀ f, hash_gets example_fs (log_abspath example_shelf) = some f →
          ∃ props, ctx'.svn_hash_read2 f.content = .ok props) →
        ∃ reopened, svn_client_shelf_open ctx' example_shelf.name local_abspath fs'
            = .ok reopened ∧
          reopened.max_version = 0) :=
  C21_pointer_round_trip example_ctx example_shelf 0 example_fs (by decide) (by decide)

/-- C22: when the targets before `bad` all succeed and `bad` is the first
target that is a URL or on which the diff engine (or making the path
absolute) fails with `e`, `save_new_version` fails with that error (the
illegal-target error for a URL); the handle, `max_version` included, the
pointer file and the patch files of versions `1..max_version` are unchanged,
and the patch file of version `max_version + 1` holds the diff output of the
earlier targets, followed by what the failing call had written. Stated for
`max_version` an `int` below `INT_MAX`. -/
theorem C22_save_fails (ctx : svn_client_ctx_t) (shelf : svn_client_shelf_t)
    (pre outs : List String) (bad : String) (post : List String) (e : svn_error_t)
    (written : String) (depth : Int) (changelists : List String) (fs : fs_t)
    (hlo : INT_MIN ≤ shelf.max_version) (hmax : shelf.max_version < INT_MAX)
    (hpre : List.Forall₂ (diff_succeeds ctx shelf.wc_root_abspath depth changelists) pre outs)
    (hbad : target_fails ctx shelf.wc_root_abspath depth changelists bad e written) :
    ∃ fs', svn_client_shelf_save_new_version ctx shelf (pre ++ bad :: post) depth changelists fs
        = (.error e, shelf, fs') ∧
      hash_gets fs' (patch_abspath shelf (shelf.max_version + 1))
        = some ⟨String.join outs ++ written, ctx.now⟩ ∧
      hash_gets fs' (get_current_abspath shelf) = hash_gets fs (get_current_abspath shelf) ∧
      (∀ v, 1 ≤ v → v ≤ shelf.max_version →
        hash_gets fs' (patch_abspath shelf v) = hash_gets fs (patch_abspath shelf v)) ∧
      (∀ q, q ≠ patch_abspath shelf (shelf.max_version + 1) →
        hash_gets fs' q = hash_gets fs q) := by
  have hw : int_wrap (shelf.max_version + 1) = shelf.max_version + 1 :=
    int_wrap_in_range _ (by omega) (by omega)
  have hf : hash_gets (file_open_truncate ctx.now (patch_abspath shelf (shelf.max_version + 1))
      fs) (patch_abspath shelf (shelf.max_version + 1)) = some ⟨"", ctx.now⟩ := by
    simp [gets_file_open_truncate]
  obtain ⟨fs', e1, e2, e3⟩ := write_patch_targets_fails ctx
    (patch_abspath shelf (shelf.max_version + 1)) depth changelists shelf.wc_root_abspath bad
    post e written hbad pre outs _ "" hpre hf
  have hframe : ∀ q, q ≠ patch_abspath shelf (shelf.max_version + 1) →
      hash_gets fs' q = hash_gets fs q := by
    intro q hq
    rw [e3 q hq, gets_file_open_truncate, if_neg hq]
  refine ⟨fs', ?_, ?_, ?_, ?_, hframe⟩
  · simp [svn_client_shelf_save_new_version, hw, get_patch_abspath, write_patch, e1]
  · simpa using e2
  · exact hframe _ (fun e => patch_abspath_ne_current shelf shelf _ e.symm)
  · intro v hv1 hv2
    exact hframe _ (patch_abspath_ne_of_version shelf v _ (by omega) (by omega) (by omega))

/-- C22 at the shelf `foo` with one version, saving `a.txt` and then a URL:
the call fails at the URL and the output for `a.txt` stays in
`foo-002.patch`. -/
theorem C22_save_fails_witness :
    ∃ fs', svn_client_shelf_save_new_version example_ctx_url example_shelf
        (["a.txt"] ++ "http://host/repo" :: []) 0 [] example_fs
        = (.error .SVN_ERR_ILLEGAL_TARGET, example_shelf, fs') ∧
      hash_gets fs' (patch_abspath example_shelf (example_shelf.max_version + 1))
        = some ⟨String.join ["Index: a.txt\n"] ++ "", example_ctx_url.now⟩ ∧
      hash_gets fs' (get_current_abspath example_shelf)
        = hash_gets example_fs (get_current_abspath example_shelf) ∧
      (∀ v, 1 ≤ v → v ≤ example_shelf.max_version →
        hash_gets fs' (patch_abspath example_shelf v)
          = hash_gets example_fs (patch_abspath example_shelf v)) ∧
      (∀ q, q ≠ patch_abspath example_shelf (example_shelf.max_version + 1) →
        hash_gets fs' q = hash_gets example_fs q) :=
  C22_save_fails example_ctx_url example_shelf ["a.txt"] ["Index: a.txt\n"] "http://host/repo"
    [] .SVN_ERR_ILLEGAL_TARGET "" 0 [] example_fs (by decide) (by decide)
    (List.Forall₂.cons ⟨by decide, "a.txt", rfl, rfl⟩ List.Forall₂.nil)
    (Or.inl ⟨by decide, rfl, rfl⟩)

/-- C23, evaluated where it fails. The entry name `foo.log`, the revprop file
of the shelf `foo`, has length 7, so the comparison is evaluated for it
(`7 > 6`), and it starts at offset `7 - 8 = -1`, one byte in front of the
name. For this name the answer is still "no"; for the name `current` it is not
determined by the name. In general, for a length above 6 the offset is
non-negative exactly when the length is at least 8. -/
theorem C23_offset_before_name :
    "foo.log".length > 6 ∧
    shelves_list_offset "foo.log".length = -1 ∧
    strcmp_at_eq "foo.log" (shelves_list_offset "foo.log".length) ".current" = some false ∧
    strcmp_at_eq "current" (shelves_list_offset "current".length) ".current" = none ∧
    (∀ len : Nat, len > 6 → (0 ≤ shelves_list_offset len ↔ 8 ≤ len)) := by
  refine ⟨by decide, by decide, by decide, by decide, ?_⟩
  intro len _
  unfold shelves_list_offset
  omega

/-- C24, evaluated where it fails. The storage directory holds a file named
`.current`, a name without `'/'`; `list` returns one record, under the empty
name, which `validate_name` rejects, as do `open` and `delete`. The empty name
is the only invalid one `list` can return: for entries without `'/'` every
other returned name passes `validate_name`. -/
theorem C24_list_returns_empty_name :
    '/' ∉ ".current".data ∧
    svn_client_shelves_list example_ctx "/wc" example_fs_dot_current
      = .ok (some [("", ⟨3⟩)]) ∧
    validate_name "" = .error .SVN_ERR_BAD_CHANGELIST_NAME ∧
    svn_client_shelf_open example_ctx "" "/wc" example_fs_dot_current
      = .error .SVN_ERR_BAD_CHANGELIST_NAME ∧
    (svn_client_shelf_delete example_ctx "" "/wc" false example_fs_dot_current).1
      = .error .SVN_ERR_BAD_CHANGELIST_NAME ∧
    (∀ (dirents : List (String × svn_io_dirent2_t))
        (infos : List (String × svn_client_shelf_info_t)),
      (∀ e ∈ dirents, '/' ∉ e.1.data) →
      shelves_list_entries dirents [] = some infos →
      ∀ n, hash_gets infos n ≠ none → (validate_name n = .ok () ∨ n = "")) := by
  refine ⟨by decide, by decide, by decide, by decide, by decide, ?_⟩
  intro dirents infos hslash hlist n hn
  have hdet := shelves_list_entries_determined dirents [] infos hlist
  obtain ⟨infos', e, k⟩ := shelves_list_entries_spec dirents [] hdet
  rw [hlist] at e
  cases e
  rcases (k n).1 hn with h | ⟨e, he, heq⟩
  · exact absurd rfl h
  · by_cases hempty : n = ""
    · exact Or.inr hempty
    · left
      apply (validate_name_ok_iff n).2
      rintro (h | h)
      · exact hempty h
      · apply hslash e he
        rw [heq, String.data_append]
        exact List.mem_append_left _ h

/-- C25: for every shelf with `max_version ≥ 1` and every `version < 0`,
`set_current_version(version)` fails with the bad-version error and leaves the
handle, `max_version` included, and the pointer file unchanged, but it has by
then deleted the patch file of every version in `1..max_version` (and touched
no other file): every one of those versions still passes the version check
while `get_paths` on it fails because the file is gone. -/
theorem C25_negative_version (ctx : svn_client_ctx_t) (shelf : svn_client_shelf_t)
    (version : Int) (fs : fs_t) (hmax : 1 ≤ shelf.max_version) (hv : version < 0) :
    ∃ fs', svn_client_shelf_set_current_version ctx shelf version fs
        = (.error .SVN_ERR_CLIENT_BAD_REVISION, shelf, fs') ∧
      hash_gets fs' (get_current_abspath shelf) = hash_gets fs (get_current_abspath shelf) ∧
      (∀ w, 1 ≤ w → w ≤ shelf.max_version → hash_gets fs' (patch_abspath shelf w) = none) ∧
      (∀ p, (∀ w, 1 ≤ w → w ≤ shelf.max_version → p ≠ patch_abspath shelf w) →
        hash_gets fs' p = hash_gets fs p) ∧
      (∀ w, 1 ≤ w → w ≤ shelf.max_version →
        get_existing_patch_abspath shelf w = .ok (patch_abspath shelf w) ∧
        svn_client_shelf_get_paths ctx shelf w fs' = .error .APR_ENOENT) := by
  obtain ⟨fs', k1, k2, k3⟩ := delete_above_fails_spec shelf version hv
    (shelf.max_version - version).toNat shelf.max_version fs (by omega) (le_refl _) rfl
  refine ⟨fs', ?_, ?_, k2, k3, ?_⟩
  · simp [svn_client_shelf_set_current_version, k1]
  · exact k3 _ (fun w _ _ e => patch_abspath_ne_current shelf shelf w e.symm)
  · intro w hw1 hw2
    have hm : ¬ shelf.max_version ≤ 0 := by omega
    have hw : ¬ (w ≤ 0 ∨ w > shelf.max_version) := by omega
    have hcheck : get_existing_patch_abspath shelf w = .ok (patch_abspath shelf w) := by
      simp [get_existing_patch_abspath, hm, hw, get_patch_abspath]
    exact ⟨hcheck, by
      simp [svn_client_shelf_get_paths, hcheck, svn_stream_open_readonly, k2 w hw1 hw2]⟩

/-- C25 at the shelf `foo` with one version and `version = -1`. -/
theorem C25_negative_version_witness :
    ∃ fs', svn_client_shelf_set_current_version example_ctx example_shelf (-1) example_fs
        = (.error .SVN_ERR_CLIENT_BAD_REVISION, example_shelf, fs') ∧
      hash_gets fs' (get_current_abspath example_shelf)
        = hash_gets example_fs (get_current_abspath example_shelf) ∧
      (∀ w, 1 ≤ w → w ≤ example_shelf.max_version →
        hash_gets fs' (patch_abspath example_shelf w) = none) ∧
      (∀ p, (∀ w, 1 ≤ w → w ≤ example_shelf.max_version → p ≠ patch_abspath example_shelf w) →
        hash_gets fs' p = hash_gets example_fs p) ∧
      (∀ w, 1 ≤ w → w ≤ example_shelf.max_version →
        get_existing_patch_abspath example_shelf w = .ok (patch_abspath example_shelf w) ∧
        svn_client_shelf_get_paths example_ctx example_shelf w fs' = .error .APR_ENOENT) :=
  C25_negative_version example_ctx example_shelf (-1) example_fs (by decide) (by decide)

/-- C26: the `dry_run` argument of `svn_client_shelf_delete` has no effect:
for every name and storage state, the call returns the same result and leaves
the same files for both values of `dry_run`; in particular a successful call
with `dry_run = true` has removed the pointer file. -/
theorem C26_delete_dry_run (ctx : svn_client_ctx_t) (name local_abspath : String) (fs : fs_t) :
    svn_client_shelf_delete ctx name local_abspath true fs
      = svn_client_shelf_delete ctx name local_abspath false fs ∧
    (∀ fs', svn_client_shelf_delete ctx name local_abspath true fs = (.ok (), fs') →
      ∃ shelf, svn_client_shelf_open ctx name local_abspath fs = .ok shelf ∧
        hash_gets fs' (get_current_abspath shelf) = none) := by
  refine ⟨rfl, ?_⟩
  intro fs' h
  obtain ⟨shelf, hopen⟩ := shelf_delete_ok_opened ctx name local_abspath true fs fs' h
  obtain ⟨fs'', e, h1, _⟩ := shelf_delete_spec ctx name local_abspath true fs shelf hopen
  rw [e] at h
  simp only [Prod.mk.injEq, true_and] at h
  subst h
  exact ⟨shelf, hopen, h1⟩

/-- C27: storage file names never collide. For all shelf names `a`, `b` and
all versions `v, w ≥ 0`: the patch file names of `(a, v)` and `(b, w)` are
equal only if `a = b` and `v = w`; the pointer file names of `a` and `b` are
equal only if `a = b`, and so are the revprop file names; a patch file name is
never a pointer or revprop file name, nor is a revprop file name a pointer
file name. The digits of a version denote that version, and a version above
999 is written with more than three of them. -/
theorem C27_names_never_collide (a b : svn_client_shelf_t) (v w : Int) (hv : 0 ≤ v)
    (hw : 0 ≤ w) :
    ((patch_abspath a v).entry = (patch_abspath b w).entry → a.name = b.name ∧ v = w) ∧
    ((get_current_abspath a).entry = (get_current_abspath b).entry → a.name = b.name) ∧
    ((log_abspath a).entry = (log_abspath b).entry → a.name = b.name) ∧
    (patch_abspath a v).entry ≠ (get_current_abspath b).entry ∧
    (patch_abspath a v).entry ≠ (log_abspath b).entry ∧
    (log_abspath a).entry ≠ (get_current_abspath b).entry ∧
    dec_value (printf_03d v).data = v.toNat ∧
    (999 < v → 3 < (printf_03d v).length) := by
  refine ⟨?_, ?_, ?_, ?_, ?_, ?_, printf_03d_value v hv, printf_03d_long v⟩
  · intro h
    exact patch_entry_inj _ _ v w hv hw h
  · intro h
    exact suffix_inj _ _ _ h
  · intro h
    exact suffix_inj _ _ _ h
  · exact patch_ne_current _ _
  · exact patch_ne_log _ _
  · exact log_ne_current _ _

/-- C27 at the shelves `foo` and `foo` with the log message `old`, versions
1000 and 1. -/
theorem C27_names_never_collide_witness :
    ((patch_abspath example_shelf 1000).entry = (patch_abspath example_shelf_logged 1).entry →
      example_shelf.name = example_shelf_logged.name ∧ (1000 : Int) = 1) ∧
    ((get_current_abspath example_shelf).entry = (get_current_abspath example_shelf_logged).entry →
      example_shelf.name = example_shelf_logged.name) ∧
    ((log_abspath example_shelf).entry = (log_abspath example_shelf_logged).entry →
      example_shelf.name = example_shelf_logged.name) ∧
    (patch_abspath example_shelf 1000).entry ≠ (get_current_abspath example_shelf_logged).entry ∧
    (patch_abspath example_shelf 1000).entry ≠ (log_abspath example_shelf_logged).entry ∧
    (log_abspath example_shelf).entry ≠ (get_current_abspath example_shelf_logged).entry ∧
    dec_value (printf_03d 1000).data = (1000 : Int).toNat ∧
    ((999 : Int) < 1000 → 3 < (printf_03d 1000).length) :=
  C27_names_never_collide example_shelf example_shelf_logged 1000 1 (by decide) (by decide)

/-- C28: when the client context has no log message provider and `dry_run` is
false, `set_log_message` succeeds, binds the key `svn:log` to the empty
string, replacing any log message the shelf had, and rewrites the revprop
file from the new map; afterwards `get_log_message` returns the empty
string. -/
theorem C28_no_provider (ctx : svn_client_ctx_t) (shelf : svn_client_shelf_t) (fs : fs_t)
    (h : ctx.log_msg_func = none) :
    ∃ shelf' fs', svn_client_shelf_set_log_message ctx shelf false fs = (.ok (), shelf', fs') ∧
      shelf'.revprops = hash_sets shelf.revprops "svn:log" "" ∧
      svn_client__shelf_revprop_get shelf' "svn:log" = .ok (some "") ∧
      svn_client_shelf_get_log_message shelf' = .ok "" ∧
      hash_gets fs' (log_abspath shelf)
        = some ⟨ctx.svn_hash_write2 shelf'.revprops, ctx.now⟩ := by
  obtain ⟨fs', e1, e2, _⟩ := revprop_set_spec ctx shelf "svn:log" "" fs
  refine ⟨{ shelf with revprops := hash_sets shelf.revprops "svn:log" "" }, fs',
    ?_, rfl, ?_, ?_, e2⟩
  · rw [set_log_message_stores ctx shelf fs "" (Or.inr ⟨h, rfl⟩), e1]
  · simp [svn_client__shelf_revprop_get, hash_gets_sets]
  · simp [svn_client_shelf_get_log_message, hash_gets_sets]

/-- C28 at the shelf `foo` with the log message `old`. -/
theorem C28_no_provider_witness :
    ∃ shelf' fs', svn_client_shelf_set_log_message example_ctx example_shelf_logged false
        example_fs = (.ok (), shelf', fs') ∧
      shelf'.revprops = hash_sets example_shelf_logged.revprops "svn:log" "" ∧
      svn_client__shelf_revprop_get shelf' "svn:log" = .ok (some "") ∧
      svn_client_shelf_get_log_message shelf' = .ok "" ∧
      hash_gets fs' (log_abspath example_shelf_logged)
        = some ⟨example_ctx.svn_hash_write2 shelf'.revprops, example_ctx.now⟩ :=
  C28_no_provider example_ctx example_shelf_logged example_fs rfl

/-- C29: with `SVN_FS_X__INVALID_CHANGE_SET = -1`, for every transaction id
`t ≥ 0` below `INT64_MAX`, `svn_fs_x__change_set_by_txn(t)` returns the change
set `-t - 2`, which `svn_fs_x__is_txn` accepts, `svn_fs_x__is_revision`
rejects, and from which `svn_fs_x__get_txn_id` returns `t`; for every revision
`r ≥ 0`, `svn_fs_x__get_revnum(svn_fs_x__change_set_by_rev(r)) = r`; and no
change set is both a transaction and a revision. -/
theorem C29_change_set_round_trip (m : id_macros) (t r : Int)
    (hm : m.SVN_FS_X__INVALID_CHANGE_SET = -1) (ht0 : 0 ≤ t) (ht1 : t < INT64_MAX)
    (hr0 : 0 ≤ r) (hr1 : r ≤ INT64_MAX) :
    (∃ cs, svn_fs_x__change_set_by_txn m t = some cs ∧ cs = -t - 2 ∧
      svn_fs_x__is_txn m cs = true ∧ svn_fs_x__is_revision m cs = false ∧
      svn_fs_x__get_txn_id m cs = t) ∧
    (∃ cr, svn_fs_x__change_set_by_rev m r = some cr ∧ svn_fs_x__get_revnum m cr = r) ∧
    (∀ c, ¬ (svn_fs_x__is_txn m c = true ∧ svn_fs_x__is_revision m c = true)) := by
  unfold INT64_MAX at ht1 hr1
  have hcs : int64_wrap (int64_wrap (int64_wrap (-t) + -1) - 1) = -t - 2 := by
    unfold int64_wrap
    omega
  have hback : int64_wrap (int64_wrap (int64_wrap (-(-t - 2)) + -1) - 1) = t := by
    unfold int64_wrap
    omega
  refine ⟨⟨-t - 2, ?_, rfl, ?_, ?_, ?_⟩, ⟨r, ?_, ?_⟩, ?_⟩
  · have hge : t ≥ -1 := by omega
    simp [svn_fs_x__change_set_by_txn, hm, hge, hcs]
  · simp only [svn_fs_x__is_txn, hm, decide_eq_true_eq]
    omega
  · simp only [svn_fs_x__is_revision, hm, decide_eq_false_iff_not]
    omega
  · have hlt : -t - 2 < -1 := by omega
    simp only [svn_fs_x__get_txn_id, svn_fs_x__is_txn, hm, hlt, decide_True, if_true]
    exact hback
  · have hge : r ≥ -1 := by omega
    simp [svn_fs_x__change_set_by_rev, hm, hge]
  · have hgt : r > -1 := by omega
    have hcast : int64_wrap r = r := by
      unfold int64_wrap
      omega
    simp only [svn_fs_x__get_revnum, svn_fs_x__is_revision, hm, hgt, decide_True, if_true,
      svn_revnum_cast, hcast]
  · intro c
    simp only [svn_fs_x__is_txn, svn_fs_x__is_revision, decide_eq_true_eq]
    omega

/-- C29 at the transaction id 0 and the revision 0. -/
theorem C29_change_set_round_trip_witness :
    (∃ cs, svn_fs_x__change_set_by_txn example_id_macros 0 = some cs ∧ cs = -0 - 2 ∧
      svn_fs_x__is_txn example_id_macros cs = true ∧
      svn_fs_x__is_revision example_id_macros cs = false ∧
      svn_fs_x__get_txn_id example_id_macros cs = 0) ∧
    (∃ cr, svn_fs_x__change_set_by_rev example_id_macros 0 = some cr ∧
      svn_fs_x__get_revnum example_id_macros cr = 0) ∧
    (∀ c, ¬ (svn_fs_x__is_txn example_id_macros c = true ∧
      svn_fs_x__is_revision example_id_macros c = true)) :=
  C29_change_set_round_trip example_id_macros 0 0 rfl (by decide) (by decide) (by decide)
    (by decide)

end Shelve
